import Mathlib

/-!
# quicksvg: function plots and ULP accuracy plots

A shallow embedding of `graph_fn.hpp` and `include/quicksvg/ulp_plot.hpp`.

A floating-point value (`double`, `PreciseReal`, `CoarseReal`) is a rational
number, one of the two infinities, or NaN; signed zeros are not modelled (a zero
divisor counts as +0).  The arithmetic is embedded twice.  The exact embedding
(`graph_fn`, `ulp_plot`) reads every operation exactly; it serves the properties
of control flow, of the sequences stored and of the commands written.  The
rounded embedding (`fl.graph_fn`, `fl.ulp_plot`) takes the number format as a
parameter and rounds the result of every operation to it, with overflow to an
infinity; `binary64` is the format `double`.  It serves the properties of the
pixel coordinates, and at the format that rounds nothing it is the exact
embedding.  The output stream is modelled as the list of drawing commands
written to it.
-/

namespace quicksvg

/-! ## Floating-point values in exact arithmetic -/

/-- Value of a floating-point variable: NaN, an infinity, or an exact rational. -/
inductive FP where
  | nan
  | ninf
  | fin (q : ℚ)
  | pinf
  deriving DecidableEq, Repr

namespace FP

/-- Conversion of a machine integer to floating point. -/
def ofInt (i : Int) : FP := fin (i : ℚ)

/-- The call `isnan(x)`. -/
def isnan : FP → Bool
  | nan => true
  | _ => false

/-- Unary minus. -/
def neg : FP → FP
  | nan => nan
  | ninf => pinf
  | fin q => fin (-q)
  | pinf => ninf

/-- The call `abs(x)`. -/
def abs : FP → FP
  | nan => nan
  | ninf => pinf
  | fin q => fin (|q|)
  | pinf => pinf

/-- Addition; opposite infinities give NaN. -/
def add : FP → FP → FP
  | nan, _ => nan
  | _, nan => nan
  | fin a, fin b => fin (a + b)
  | pinf, ninf => nan
  | ninf, pinf => nan
  | pinf, _ => pinf
  | _, pinf => pinf
  | ninf, _ => ninf
  | _, ninf => ninf

/-- Subtraction `a - b`. -/
def sub (a b : FP) : FP := add a (neg b)

/-- Product of +infinity with `y`: the sign of `y` decides, zero gives NaN. -/
def infTimes : FP → FP
  | nan => nan
  | ninf => ninf
  | pinf => pinf
  | fin q => if 0 < q then pinf else if q < 0 then ninf else nan

/-- Multiplication. -/
def mul : FP → FP → FP
  | nan, _ => nan
  | _, nan => nan
  | fin a, fin b => fin (a * b)
  | pinf, y => infTimes y
  | ninf, y => neg (infTimes y)
  | fin a, pinf => infTimes (fin a)
  | fin a, ninf => neg (infTimes (fin a))

/-- Division; `0/0` and `inf/inf` are NaN, a nonzero value over zero is infinite. -/
def div : FP → FP → FP
  | nan, _ => nan
  | _, nan => nan
  | fin a, fin b =>
    if b = 0 then (if a = 0 then nan else if 0 < a then pinf else ninf) else fin (a / b)
  | fin _, pinf => fin 0
  | fin _, ninf => fin 0
  | pinf, fin b => if 0 ≤ b then pinf else ninf
  | ninf, fin b => if 0 ≤ b then ninf else pinf
  | pinf, pinf => nan
  | pinf, ninf => nan
  | ninf, pinf => nan
  | ninf, ninf => nan

/-- Comparison `a < b`; false as soon as one side is NaN. -/
def lt : FP → FP → Bool
  | nan, _ => false
  | _, nan => false
  | fin a, fin b => decide (a < b)
  | ninf, ninf => false
  | ninf, _ => true
  | pinf, _ => false
  | fin _, ninf => false
  | fin _, pinf => true

/-- Comparison `a <= b`; false as soon as one side is NaN. -/
def le : FP → FP → Bool
  | nan, _ => false
  | _, nan => false
  | fin a, fin b => decide (a ≤ b)
  | ninf, _ => true
  | pinf, pinf => true
  | pinf, _ => false
  | fin _, ninf => false
  | fin _, pinf => true

/-- Comparison `a > b`. -/
def gt (a b : FP) : Bool := lt b a

/-- Comparison `a >= b`. -/
def ge (a b : FP) : Bool := le b a

/-- Comparison `a != b`; NaN differs from everything, itself included. -/
def ne : FP → FP → Bool
  | nan, _ => true
  | _, nan => true
  | a, b => decide (a ≠ b)

end FP

/-! ## Errors and output -/

/-- Undefined behaviour of the C++ program, and exhaustion of the model's loop budget. -/
inductive Fault where
  | out_of_range
  | fuel
  deriving DecidableEq, Repr

/-- Ways in which a call can fail to return normally. -/
inductive Err where
  | domain_error (what : String)
  | logic_error (what : String)
  | assertion_failed (expr : String)
  | undefined (f : Fault)
  deriving DecidableEq, Repr

/-- Equality of outcomes is decidable. -/
instance decEqExcept {ε α : Type} [DecidableEq ε] [DecidableEq α] : DecidableEq (Except ε α)
  | .ok a, .ok b =>
    if h : a = b then isTrue (by rw [h]) else isFalse (by intro h2; cases h2; exact h rfl)
  | .error a, .error b =>
    if h : a = b then isTrue (by rw [h]) else isFalse (by intro h2; cases h2; exact h rfl)
  | .ok _, .error _ => isFalse (by intro h; cases h)
  | .error _, .ok _ => isFalse (by intro h; cases h)

/-- Drawing commands written to the output stream.  The index `j` carried by the two
path-vertex commands is the sample the vertex is drawn for; it is not part of the text. -/
inductive Svg where
  | header (width height : Int)
  | title_text (x y : Int) (title : String)
  | group_open (margin_left margin_top : Int)
  | line (x1 y1 x2 y2 : FP) (dashed : Bool)
  | text (x y : FP) (rotate : Option (FP × FP)) (value : FP)
  | circle (cx cy : FP) (fill : String)
  | path_move (j : Nat) (x y : FP)
  | path_line (j : Nat) (x y : FP)
  | path_close (stroke : String) (stroke_width : Nat)
  | foreign (what : String) (args : List FP)
  | document_close
  deriving DecidableEq, Repr

/-- The functions of `detail/generic_svg_functionality.hpp` that the two plots call. -/
structure Detail where
  write_prelude : String → Int → Int → Int → List Svg
  write_gridlines : Int → Int → (FP → FP) → (FP → FP) → FP → FP → FP → FP →
    Int → Int → Int → List Svg

/-- An output file stream: whether it is open, and what has been written through it. -/
structure ofstream where
  path : String
  is_open : Bool
  content : List Svg
  deriving DecidableEq, Repr

/-- The stream insertion `fs << ...`; a closed stream drops what is inserted. -/
def ofstream.put (fs : ofstream) (xs : List Svg) : ofstream :=
  if fs.is_open then { fs with content := fs.content ++ xs } else fs

/-- The call `fs.close()`. -/
def ofstream.close (fs : ofstream) : ofstream := { fs with is_open := false }

/-- Whether a command is a vertex of a path (a move-to or a line-to). -/
def Svg.is_vertex : Svg → Bool
  | .path_move _ _ _ => true
  | .path_line _ _ _ => true
  | _ => false

/-- The sample a path vertex is drawn for. -/
def Svg.sample : Svg → Option Nat
  | .path_move j _ _ => some j
  | .path_line j _ _ => some j
  | _ => none

/-- Run `f` on every index of `is` in order, stopping at the first failure. -/
def collect {ε α : Type} (f : Nat → Except ε α) : List Nat → Except ε (List α)
  | [] => .ok []
  | i :: is =>
    match f i with
    | .error e => .error e
    | .ok a =>
      match collect f is with
      | .error e => .error e
      | .ok as => .ok (a :: as)

/-- Element access `v[j]` of a `std::vector`. -/
def at_index (v : List FP) (j : Nat) : Except Fault FP :=
  match v[j]? with
  | some x => .ok x
  | none => .error .out_of_range

/-! ## graph_fn.hpp -/

/-- The class `graph_fn`, with its members in declaration order.  The member `cout`
records what the object has printed on standard output. -/
structure graph_fn where
  m_min_x : FP
  m_max_x : FP
  m_samples : Nat
  m_fs : ofstream
  m_min_y : FP
  m_max_y : FP
  m_is_written : Bool
  m_dataset : List (List FP)
  m_connect_color : List String
  m_margin_top : Int
  m_margin_left : Int
  m_margin_bottom : Int
  m_margin_right : Int
  m_graph_width : Int
  m_graph_height : Int
  cout : List String
  deriving DecidableEq, Repr

namespace graph_fn

/-- The constructor `graph_fn(x_min, x_max, title, filename, samples, width)`, in a build
that defines `NDEBUG` (`ndebug = true`) or not.  The members `m_min_y` and `m_max_y` are
not initialised by it: the values they happen to hold are the arguments `min_y0` and
`max_y0`.  With `NDEBUG` the `assert` is no code at all.  Without it a failed `assert`
aborts the process: no object results, and the outcome carries the stream as it is then,
opened on `filename` by `m_fs.open` with nothing written to it. -/
def ctor (ndebug : Bool) (d : Detail) (x_min x_max : FP) (title filename : String)
    (samples : Nat) (width : Int) (min_y0 max_y0 : FP) : Except (Err × ofstream) graph_fn :=
  let m_fs : ofstream := { path := filename, is_open := true, content := [] }
  if ndebug || FP.gt x_max x_min then
    let height : Int := Int.floor (((width : ℚ)) / 1.61803)
    let m_margin_top : Int := 40
    let m_margin_left : Int := 25
    let m_margin_bottom : Int := 20
    let m_margin_right : Int := 20
    .ok
      { m_min_x := x_min
        m_max_x := x_max
        m_samples := samples
        m_fs := m_fs.put (d.write_prelude title width height m_margin_top)
        m_min_y := min_y0
        m_max_y := max_y0
        m_is_written := false
        m_dataset := []
        m_connect_color := []
        m_margin_top := m_margin_top
        m_margin_left := m_margin_left
        m_margin_bottom := m_margin_bottom
        m_margin_right := m_margin_right
        m_graph_width := width - m_margin_left - m_margin_right
        m_graph_height := height - m_margin_bottom - m_margin_top
        cout := [] }
  else
    .error (.assertion_failed "m_max_x > m_min_x", m_fs)

/-- The abscissa step `(m_max_x - m_min_x)/(m_samples - 1.0)`. -/
def step (s : graph_fn) : FP :=
  FP.div (FP.sub s.m_max_x s.m_min_x) (FP.sub (FP.ofInt s.m_samples) (FP.fin 1))

/-- One turn of the sampling loop of `add_fn`: the state is the vector filled so far and
the running `m_min_y`, `m_max_y`. -/
def add_fn_body (s : graph_fn) (f : FP → FP) (acc : List FP × FP × FP) (i : Nat) :
    List FP × FP × FP :=
  let x := FP.add s.m_min_x (FP.mul (step s) (FP.ofInt i))
  let vi := f x
  let max_y := if FP.gt vi acc.2.2 then vi else acc.2.2
  let min_y := if FP.lt vi acc.2.1 then vi else acc.2.1
  (acc.1 ++ [vi], min_y, max_y)

/-- The member `add_fn(f, color)`: the outcome of the call and the object afterwards. -/
def add_fn (s : graph_fn) (f : FP → FP) (color : String) : Except Err Unit × graph_fn :=
  let s1 : graph_fn := { s with cout := s.cout ++ ["Ok!"] }
  if s1.m_is_written then
    (.error (.logic_error "Cannot add data to graph after writing it.\n"), s1)
  else
    let r := (List.range s1.m_samples).foldl (add_fn_body s1 f) ([], s1.m_min_y, s1.m_max_y)
    (.ok (),
      { s1 with
        m_min_y := r.2.1
        m_max_y := r.2.2
        m_dataset := s1.m_dataset ++ [r.1]
        m_connect_color := s1.m_connect_color ++ [color] })

/-- The lambda `x_scale` of `write_all`. -/
def x_scale (s : graph_fn) (x : FP) : FP :=
  FP.mul (FP.div (FP.sub x s.m_min_x) (FP.sub s.m_max_x s.m_min_x)) (FP.ofInt s.m_graph_width)

/-- The lambda `y_scale` of `write_all`. -/
def y_scale (s : graph_fn) (y : FP) : FP :=
  FP.mul (FP.div (FP.sub s.m_max_y y) (FP.sub s.m_max_y s.m_min_y)) (FP.ofInt s.m_graph_height)

/-- The pixel abscissa `t = x_scale(m_min_x + j*step)` of sample `j`. -/
def t (s : graph_fn) (j : Nat) : FP :=
  x_scale s (FP.add s.m_min_x (FP.mul (FP.ofInt j) (step s)))

/-- The path written for the series `v` with colour `stroke`: a move-to at the first
sample, a line-to for every later one, then the closing attributes. -/
def series_path (s : graph_fn) (v : List FP) (stroke : String) : Except Fault (List Svg) :=
  match at_index v 0 with
  | .error e => .error e
  | .ok v0 =>
    match collect (fun j =>
        match at_index v j with
        | .error e => .error e
        | .ok vj =>
          .ok (Svg.path_line j (t s j) (y_scale s vj))) (List.range' 1 (v.length - 1)) with
    | .error e => .error e
    | .ok ls =>
      .ok (Svg.path_move 0 (x_scale s s.m_min_x) (y_scale s v0) :: ls
        ++ [Svg.path_close stroke 3])

/-- The loop of `write_all` over `m_dataset`. -/
def series_paths (s : graph_fn) : Except Fault (List Svg) :=
  match collect (fun i =>
      match s.m_dataset[i]?, s.m_connect_color[i]? with
      | some v, some stroke => series_path s v stroke
      | _, _ => .error .out_of_range) (List.range s.m_dataset.length) with
  | .error e => .error e
  | .ok ps => .ok ps.flatten

/-- What `write_all` writes before the series: group, axes and gridlines. -/
def frame (d : Detail) (s : graph_fn) : List Svg :=
  let x_axis_loc : FP :=
    if FP.le s.m_min_y (FP.fin 0) && FP.ge s.m_max_y (FP.fin 0) then y_scale s (FP.fin 0)
    else FP.ofInt s.m_graph_height
  [Svg.group_open s.m_margin_left s.m_margin_top,
    Svg.line (FP.fin 0) (FP.fin 0) (FP.fin 0) (FP.ofInt s.m_graph_height) false,
    Svg.line (FP.fin 0) x_axis_loc (FP.ofInt s.m_graph_width) x_axis_loc false]
  ++ d.write_gridlines 8 10 (x_scale s) (y_scale s) s.m_min_x s.m_max_x s.m_min_y s.m_max_y
      s.m_graph_width s.m_graph_height s.m_margin_left

/-- The polyline of the specification for the series `v`: one vertex per sample, in index
order, vertex `j` at pixel abscissa `x_scale(x_min + j*step)`, drawn in colour `stroke`. -/
def series_polyline (s : graph_fn) (v : List FP) (stroke : String) : List Svg :=
  (List.range v.length).map (fun j =>
    (if j = 0 then Svg.path_move else Svg.path_line) j (t s j) (y_scale s (v.getD j FP.nan)))
  ++ [Svg.path_close stroke 3]

/-- The member `write_all()`: the outcome of the call and the object afterwards. -/
def write_all (d : Detail) (s : graph_fn) : Except Err Unit × graph_fn :=
  let s1 : graph_fn := { s with m_fs := s.m_fs.put (frame d s) }
  match series_paths s1 with
  | .error e => (.error (.undefined e), s1)
  | .ok ps =>
    (.ok (),
      { s1 with
        m_fs := ((s1.m_fs.put ps).put [Svg.document_close]).close
        m_is_written := true })

/-- The state of a plot that was constructed and not yet written: the stream is open,
every series has its colour, and every series has `m_samples` entries. -/
def collecting (s : graph_fn) : Prop :=
  s.m_fs.is_open = true ∧ s.m_is_written = false
    ∧ s.m_connect_color.length = s.m_dataset.length
    ∧ ∀ v ∈ s.m_dataset, v.length = s.m_samples

end graph_fn

/-! ## include/quicksvg/ulp_plot.hpp -/

/-- What `ulp_plot<F, PreciseReal, CoarseReal>` takes from outside the header: the two
number formats, the random generator and the condition-number routine of Boost.
`draw a b seed i` is the value of the `i`-th call `dis(gen)`. -/
structure Env where
  narrow : FP → FP
  nextafter : FP → FP → FP
  coarse_max : FP
  precise_max : FP
  draw : FP → FP → Int → Nat → FP
  evaluation_condition_number : (FP → FP) → FP → FP

/-- The files on disk: the commands each existing file holds. -/
def FileSys : Type := String → Option (List Svg)

/-- State of the file `filename` once a stream opened on it has received `xs`. -/
def FileSys.store (files : FileSys) (filename : String) (xs : List Svg) : FileSys :=
  fun f => if f = filename then some xs else files f

/-- The call `std::sort(v.begin(), v.end())`. -/
def sort (v : List FP) : List FP :=
  List.insertionSort (fun x y => FP.le x y = true) v

/-- The class `ulp_plot`, with its members in declaration order. -/
structure ulp_plot where
  precise_abscissas_ : List FP
  coarse_abscissas_ : List FP
  precise_ordinates_ : List FP
  cond_ : List FP
  ulp_list_ : List (List FP)
  colors_ : List String
  a_ : FP
  b_ : FP
  deriving DecidableEq, Repr

namespace ulp_plot

/-- The entry of `cond_` for reference ordinate `y` at abscissa `x`. -/
def cond_entry (E : Env) (hi_acc_impl : FP → FP) (y x : FP) : FP :=
  if FP.ne y (FP.fin 0) then
    let c := E.evaluation_condition_number hi_acc_impl x
    if FP.lt c (FP.fin (1 / 2)) then FP.fin (1 / 2) else c
  else FP.nan

/-- The constructor `ulp_plot(hi_acc_impl, a, b, perturb_abscissas, samples, random_seed)`. -/
def ctor (E : Env) (hi_acc_impl : FP → FP) (a b : FP) (perturb_abscissas : Bool)
    (samples : Nat) (random_seed : Int) : Except Err ulp_plot :=
  if samples < 10 then
    .error (.domain_error ("Must have at least 10 samples, samples = " ++ toString samples))
  else if FP.le b a then
    .error (.domain_error "On interval [a,b], b > a is required.")
  else
    let drawn : List FP := (List.range samples).map (E.draw a b random_seed)
    let precise_abscissas : List FP :=
      if perturb_abscissas then sort drawn else sort (drawn.map E.narrow)
    let coarse_abscissas : List FP :=
      if perturb_abscissas then (sort drawn).map E.narrow else sort (drawn.map E.narrow)
    let precise_ordinates : List FP := precise_abscissas.map hi_acc_impl
    .ok
      { precise_abscissas_ := precise_abscissas
        coarse_abscissas_ := coarse_abscissas
        precise_ordinates_ := precise_ordinates
        cond_ := List.zipWith (cond_entry E hi_acc_impl) precise_ordinates precise_abscissas
        ulp_list_ := []
        colors_ := []
        a_ := a
        b_ := b }

/-- The entry `ulps[i]` computed by `add_fn` from the reference ordinate `y_hi_acc` and
the candidate's value `y_lo_acc`. -/
def ulp_entry (E : Env) (y_hi_acc y_lo_acc : FP) : FP :=
  let absy := FP.abs y_hi_acc
  let dist := FP.sub (E.nextafter (E.narrow absy) E.coarse_max) (E.narrow absy)
  E.narrow (FP.div (FP.sub y_lo_acc y_hi_acc) dist)

/-- The member `add_fn(g, color)`: the outcome of the call and the object afterwards. -/
def add_fn (E : Env) (p : ulp_plot) (g : FP → FP) (color : String) :
    Except Err Unit × ulp_plot :=
  let samples := p.precise_abscissas_.length
  match collect (fun i =>
      match at_index p.precise_ordinates_ i, at_index p.coarse_abscissas_ i with
      | .ok y_hi_acc, .ok x => .ok (ulp_entry E y_hi_acc (g x))
      | .error e, _ => .error e
      | _, .error e => .error e) (List.range samples) with
  | .error e => (.error (.undefined e), p)
  | .ok ulps =>
    (.ok (), { p with ulp_list_ := p.ulp_list_ ++ [ulps], colors_ := p.colors_ ++ [color] })

/-- One turn of the range loop of `write`; the state is
`(worst_ulp_distance, min_y, max_y)`. -/
def range_body (acc : FP × FP × FP) (ulp : FP) : FP × FP × FP :=
  let worst := if FP.gt (FP.abs ulp) acc.1 then FP.abs ulp else acc.1
  let min_y := if FP.lt ulp acc.2.1 then ulp else acc.2.1
  let max_y := if FP.gt ulp acc.2.2 then ulp else acc.2.2
  (worst, min_y, max_y)

/-- The values `(worst_ulp_distance, min_y, max_y)` of `write` after the range loop and
the clamp to the clip bound. -/
def ranges (E : Env) (p : ulp_plot) (clip : Int) : FP × FP × FP :=
  let r := p.ulp_list_.foldl (fun acc ulp_vec => ulp_vec.foldl range_body acc)
    (FP.fin 0, E.precise_max, FP.neg E.precise_max)
  if 0 < clip then
    let max_y := if FP.gt r.2.2 (FP.ofInt clip) then FP.ofInt clip else r.2.2
    let min_y := if FP.lt r.2.1 (FP.ofInt (-clip)) then FP.ofInt (-clip) else r.2.1
    (r.1, min_y, max_y)
  else r

/-- The lambda `x_scale` of `write`. -/
def x_scale (p : ulp_plot) (graph_width : Int) (x : FP) : FP :=
  FP.mul (FP.div (FP.sub x p.a_) (FP.sub p.b_ p.a_)) (FP.ofInt graph_width)

/-- The lambda `y_scale` of `write`. -/
def y_scale (min_y max_y : FP) (graph_height : Int) (y : FP) : FP :=
  FP.mul (FP.div (FP.sub max_y y) (FP.sub max_y min_y)) (FP.ofInt graph_height)

/-- The test `isnan(cond_[j]) || (clip > 0 && cond_[j] > clip)`. -/
def is_bad (clip : Int) (c : FP) : Bool :=
  FP.isnan c || (decide (0 < clip) && FP.gt c (FP.ofInt clip))

/-- The value `coarse_abscissas_.size() - 2` in `size_t` arithmetic. -/
def size_minus_2 (p : ulp_plot) : Nat :=
  (p.coarse_abscissas_.length + 2 ^ 64 - 2) % 2 ^ 64

/-- Sizes fixed at the start of `write`: canvas height, margins and graph area. -/
structure Canvas where
  height : Int
  margin_top : Int
  margin_left : Int
  margin_bottom : Int
  margin_right : Int
  graph_height : Int
  graph_width : Int
  deriving DecidableEq, Repr

/-- The sizes `write` derives from the title and the requested width. -/
def canvas (title : String) (width : Int) : Canvas :=
  let height : Int := Int.floor (((width : ℚ)) / 1.61803)
  let margin_top : Int := if title.length = 0 then 10 else 40
  let margin_left : Int := if title.length = 0 then 15 else 25
  let margin_bottom : Int := 20
  let margin_right : Int := 20
  { height := height
    margin_top := margin_top
    margin_left := margin_left
    margin_bottom := margin_bottom
    margin_right := margin_right
    graph_height := height - margin_bottom - margin_top
    graph_width := width - margin_left - margin_right }

/-- Loop budget of the model: more turns than any loop of `write` can take. -/
def budget (p : ulp_plot) : Nat :=
  p.cond_.length + p.coarse_abscissas_.length + 2

/-- The closing attributes `close_path` of an envelope path. -/
def close_path : Svg := Svg.path_close "chartreuse" 1

/-- The loop `while (cond_[jstart] > clip)` run from `jstart`: the index it stops at, or
`none` when it jumps to `done`. -/
def leading_skip (p : ulp_plot) (clip : Int) : Nat → Nat → Except Fault (Option Nat)
  | 0, _ => .error .fuel
  | fuel + 1, jstart =>
    match at_index p.cond_ jstart with
    | .error e => .error e
    | .ok c =>
      if FP.gt c (FP.ofInt clip) then
        if p.cond_.length ≤ jstart + 1 then .ok none
        else leading_skip p clip fuel (jstart + 1)
      else .ok (some jstart)

/-- The loop `while ((j < coarse_abscissas_.size() - 2) && bad)` run from `j`: the value
of `j` when it stops. -/
def gap_skip (p : ulp_plot) (clip : Int) : Nat → Nat → Bool → Except Fault Nat
  | 0, _, _ => .error .fuel
  | fuel + 1, j, bad =>
    if j < size_minus_2 p && bad then
      match at_index p.cond_ j with
      | .error e => .error e
      | .ok c => gap_skip p clip fuel (j + 1) (is_bad clip c)
    else .ok j

/-- The `for` loop of one envelope path run from `j`, for the upper (`lower = false`) or
the lower envelope: the commands written, and the new `jmin` when the loop leaves by
`goto` (`none` when it runs to its end). -/
def path_loop (p : ulp_plot) (clip : Int) (xs ys : FP → FP) (lower : Bool) :
    Nat → Nat → Except Fault (List Svg × Option Nat)
  | 0, _ => .error .fuel
  | fuel + 1, j =>
    if j < p.coarse_abscissas_.length then
      match at_index p.cond_ j with
      | .error e => .error e
      | .ok c =>
        if is_bad clip c then
          match gap_skip p clip (budget p) (j + 1) true with
          | .error e => .error e
          | .ok j2 => .ok ([close_path], some j2)
        else
          match at_index p.coarse_abscissas_ j with
          | .error e => .error e
          | .ok x =>
            match path_loop p clip xs ys lower fuel (j + 1) with
            | .error e => .error e
            | .ok (cmds, next) =>
              .ok (Svg.path_line j (xs x) (ys (if lower then FP.neg c else c)) :: cmds, next)
    else .ok ([close_path], none)

/-- The code from the label `new_top_path` on, entered with `jmin`: the commands written,
and whether control then falls through to the lower envelope (`false`: `goto done`). -/
def new_top_path (p : ulp_plot) (clip : Int) (xs ys : FP → FP) :
    Nat → Nat → Except Fault (List Svg × Bool)
  | 0, _ => .error .fuel
  | fuel + 1, jmin =>
    if p.cond_.length ≤ jmin then .ok ([], false)
    else
      match at_index p.coarse_abscissas_ jmin, at_index p.cond_ jmin with
      | .ok x, .ok c =>
        match path_loop p clip xs ys false (budget p) (jmin + 1) with
        | .error e => .error e
        | .ok (cmds, none) => .ok (Svg.path_move jmin (xs x) (ys c) :: cmds, true)
        | .ok (cmds, some j) =>
          match new_top_path p clip xs ys fuel j with
          | .error e => .error e
          | .ok (rest, through) =>
            .ok (Svg.path_move jmin (xs x) (ys c) :: cmds ++ rest, through)
      | .error e, _ => .error e
      | _, .error e => .error e

/-- The code from the label `new_bottom_path` on, entered with `jmin`. -/
def new_bottom_path (p : ulp_plot) (clip : Int) (xs ys : FP → FP) :
    Nat → Nat → Except Fault (List Svg)
  | 0, _ => .error .fuel
  | fuel + 1, jmin =>
    match at_index p.coarse_abscissas_ jmin, at_index p.cond_ jmin with
    | .ok x, .ok c =>
      match path_loop p clip xs ys true (budget p) (jmin + 1) with
      | .error e => .error e
      | .ok (cmds, none) => .ok (Svg.path_move jmin (xs x) (ys (FP.neg c)) :: cmds)
      | .ok (cmds, some j) =>
        match new_bottom_path p clip xs ys fuel j with
        | .error e => .error e
        | .ok rest => .ok (Svg.path_move jmin (xs x) (ys (FP.neg c)) :: cmds ++ rest)
    | .error e, _ => .error e
    | _, .error e => .error e

/-- The block `if (ulp_envelope) { ... }` of `write`. -/
def envelope (p : ulp_plot) (clip : Int) (xs ys : FP → FP) : Except Fault (List Svg) :=
  match (if 0 < clip then leading_skip p clip (budget p) 0 else .ok (some 0)) with
  | .error e => .error e
  | .ok none => .ok []
  | .ok (some jstart) =>
    match new_top_path p clip xs ys (budget p) jstart with
    | .error e => .error e
    | .ok (top, false) => .ok top
    | .ok (top, true) =>
      match new_bottom_path p clip xs ys (budget p) jstart with
      | .error e => .error e
      | .ok bottom => .ok (top ++ bottom)

/-- The inner scatter loop of `write` over one error vector `ulp`. -/
def scatter_points (p : ulp_plot) (clip : Int) (xs ys : FP → FP) (ulp : List FP)
    (color : String) : Except Fault (List Svg) :=
  match collect (fun j =>
      match at_index ulp j with
      | .error e => .error e
      | .ok u =>
        if FP.isnan u then .ok []
        else if decide (0 < clip) && FP.gt (FP.abs u) (FP.ofInt clip) then .ok []
        else
          match at_index p.coarse_abscissas_ j with
          | .error e => .error e
          | .ok x => .ok [Svg.circle (xs x) (ys u) color]) (List.range ulp.length) with
  | .error e => .error e
  | .ok cs => .ok cs.flatten

/-- The scatter loop of `write` over `ulp_list_`. -/
def scatter (p : ulp_plot) (clip : Int) (xs ys : FP → FP) : Except Fault (List Svg) :=
  match collect (fun color_idx =>
      match p.ulp_list_[color_idx]?, p.colors_[color_idx]? with
      | some ulp, some color => scatter_points p clip xs ys ulp color
      | _, _ => .error .out_of_range) (List.range p.ulp_list_.length) with
  | .error e => .error e
  | .ok cs => .ok cs.flatten

/-- The gridlines `write` draws itself when `worst_ulp_distance <= 3`. -/
def small_error_grid (p : ulp_plot) (c : Canvas) (min_y max_y : FP) (xs ys : FP → FP)
    (vertical_lines : Int) : List Svg :=
  let levels : List ℚ := [-3, -5 / 2, -2, -3 / 2, -1, -1 / 2, 1 / 2, 1, 3 / 2, 2, 5 / 2, 3]
  levels.flatMap (fun v =>
    if FP.le min_y (FP.fin v) && FP.le (FP.fin v) max_y then
      let y := ys (FP.fin v)
      [Svg.line (FP.fin 0) y (FP.ofInt c.graph_width) y true,
        Svg.text (FP.ofInt (Int.tdiv (-c.margin_left) 2)) (FP.sub y (FP.fin 3))
          (some (FP.ofInt (Int.tdiv (-c.margin_left) 2 + 11), FP.add y (FP.fin 5))) (FP.fin v)]
    else [])
  ++ (List.range' 1 vertical_lines.toNat).flatMap (fun i =>
    let x_cord_dataspace :=
      FP.add p.a_ (FP.div (FP.mul (FP.sub p.b_ p.a_) (FP.ofInt i)) (FP.ofInt vertical_lines))
    let x := xs x_cord_dataspace
    [Svg.line x (FP.fin 0) x (FP.ofInt c.graph_height) true,
      Svg.text (FP.sub x (FP.fin 10)) (FP.ofInt (c.graph_height + 10)) none x_cord_dataspace])

/-- What `write` puts into the file before the scatter points. -/
def frame (d : Detail) (E : Env) (p : ulp_plot) (clip : Int) (title : String)
    (width horizontal_lines vertical_lines : Int) : List Svg :=
  let r := ranges E p clip
  let c := canvas title width
  let xs := x_scale p c.graph_width
  let ys := y_scale r.2.1 r.2.2 c.graph_height
  let x_axis_loc := ys (FP.fin 0)
  [Svg.header width c.height]
  ++ (if 0 < title.length then
        [Svg.title_text (Int.tdiv width 2) (Int.tdiv c.margin_top 2) title]
      else [])
  ++ [Svg.group_open c.margin_left c.margin_top,
      Svg.line (FP.fin 0) (FP.fin 0) (FP.fin 0) (FP.ofInt c.graph_height) false,
      Svg.line (FP.fin 0) x_axis_loc (FP.ofInt c.graph_width) x_axis_loc false]
  ++ (if FP.gt r.1 (FP.fin 3) then
        d.write_gridlines horizontal_lines vertical_lines xs ys p.a_ p.b_
          (E.narrow r.2.1) (E.narrow r.2.2) c.graph_width c.graph_height c.margin_left
      else small_error_grid p c r.2.1 r.2.2 xs ys vertical_lines)

/-- The member `write(filename, clip, ulp_envelope, title, width, horizontal_lines,
vertical_lines)`: the outcome of the call and the files afterwards.  The object itself is
not modified. -/
def write (d : Detail) (E : Env) (p : ulp_plot) (filename : String) (clip : Int)
    (ulp_envelope : Bool) (title : String) (width horizontal_lines vertical_lines : Int)
    (files : FileSys) : Except Err Unit × FileSys :=
  if p.ulp_list_.length = 0 then
    (.error (.domain_error "No functions added for comparison."), files)
  else if width ≤ 1 then
    (.error (.domain_error ("Width = " ++ toString width ++ ", which is too small.")), files)
  else
    let r := ranges E p clip
    let c := canvas title width
    let xs := x_scale p c.graph_width
    let ys := y_scale r.2.1 r.2.2 c.graph_height
    let head := frame d E p clip title width horizontal_lines vertical_lines
    match scatter p clip xs ys with
    | .error e => (.error (.undefined e), files.store filename head)
    | .ok points =>
      match (if ulp_envelope then envelope p clip xs ys else .ok []) with
      | .error e => (.error (.undefined e), files.store filename (head ++ points))
      | .ok paths =>
        (.ok (), files.store filename (head ++ points ++ paths ++ [Svg.document_close]))

end ulp_plot

/-! ## Sample objects -/

/-- A stand-in for the helper header: it writes one marker per call. -/
def demo_detail : Detail :=
  { write_prelude := fun _ _ _ _ => [Svg.foreign "prelude" []]
    write_gridlines := fun _ _ _ _ _ _ _ _ _ _ _ => [Svg.foreign "gridlines" []] }

/-- The function plot over `[0, 10]` with 5 samples and the default width, as built by
the constructor when the two uninitialised members happen to hold 0. -/
def demo_graph : graph_fn :=
  { m_min_x := FP.fin 0
    m_max_x := FP.fin 10
    m_samples := 5
    m_fs := { path := "demo.svg", is_open := true, content := [Svg.foreign "prelude" []] }
    m_min_y := FP.fin 0
    m_max_y := FP.fin 0
    m_is_written := false
    m_dataset := []
    m_connect_color := []
    m_margin_top := 40
    m_margin_left := 25
    m_margin_bottom := 20
    m_margin_right := 20
    m_graph_width := 1055
    m_graph_height := 619
    cout := [] }

/-- A sample coarse format: the multiples of `1/1024` between `-1024` and `1024`;
narrowing rounds to the nearest one and overflows to an infinity. -/
def demo_narrow : FP → FP
  | FP.fin q =>
    if 1024 < q then FP.pinf
    else if q < -1024 then FP.ninf
    else FP.fin ((Int.floor (q * 1024 + 1 / 2) : ℚ) / 1024)
  | x => x

/-- The call `nextafter(x, dir)` in the sample coarse format: the neighbour of `x` on the
side of `dir`, and `dir` itself when `x` equals `dir`. -/
def demo_nextafter : FP → FP → FP
  | FP.nan, _ => FP.nan
  | _, FP.nan => FP.nan
  | FP.pinf, dir => if dir = FP.pinf then FP.pinf else FP.fin 1024
  | FP.ninf, dir => if dir = FP.ninf then FP.ninf else FP.fin (-1024)
  | FP.fin q, dir =>
    if FP.lt (FP.fin q) dir then (if q = 1024 then FP.pinf else FP.fin (q + 1 / 1024))
    else if FP.lt dir (FP.fin q) then (if q = -1024 then FP.ninf else FP.fin (q - 1 / 1024))
    else dir

/-- A sample condition-number routine: `|x f'(x) / f(x)|` with a central difference. -/
def demo_condition_number (f : FP → FP) (x : FP) : FP :=
  let h : FP := FP.fin (1 / 1024)
  let slope := FP.div (FP.sub (f (FP.add x h)) (f (FP.sub x h))) (FP.fin (2 / 1024))
  FP.abs (FP.div (FP.mul x slope) (f x))

/-- A sample environment: the sample coarse format and a fixed sequence of draws. -/
def demo_env : Env :=
  { narrow := demo_narrow
    nextafter := demo_nextafter
    coarse_max := FP.fin 1024
    precise_max := FP.fin (2 ^ 20)
    draw := fun a b _ i =>
      FP.add a (FP.mul (FP.sub b a) (FP.fin (((7 * i + 3) % 16 : Nat) / 16)))
    evaluation_condition_number := demo_condition_number }

/-- The abscissas the sample environment gives for 10 samples on `[1, 2]`. -/
def demo_abscissas : List FP :=
  [FP.fin (17 / 16), FP.fin (9 / 8), FP.fin (19 / 16), FP.fin (5 / 4), FP.fin (11 / 8),
    FP.fin (3 / 2), FP.fin (13 / 8), FP.fin (27 / 16), FP.fin (29 / 16), FP.fin (31 / 16)]

/-- A reference implementation with a zero at the sixth sample. -/
def demo_reference (x : FP) : FP := FP.sub x (FP.fin (3 / 2))

/-- A candidate one unit too high left of `3/2` and two units too low from there on. -/
def demo_candidate (x : FP) : FP :=
  FP.add (demo_reference x)
    (if FP.lt x (FP.fin (3 / 2)) then FP.fin (1 / 1024) else FP.fin (-(1 / 512)))

/-- The accuracy plot of `demo_reference` on `[1, 2]` with 10 samples. -/
def demo_plot : ulp_plot :=
  { precise_abscissas_ := demo_abscissas
    coarse_abscissas_ := demo_abscissas
    precise_ordinates_ :=
      [FP.fin (-(7 / 16)), FP.fin (-(3 / 8)), FP.fin (-(5 / 16)), FP.fin (-(1 / 4)),
        FP.fin (-(1 / 8)), FP.fin 0, FP.fin (1 / 8), FP.fin (3 / 16), FP.fin (5 / 16),
        FP.fin (7 / 16)]
    cond_ :=
      [FP.fin (17 / 7), FP.fin 3, FP.fin (19 / 5), FP.fin 5, FP.fin 11, FP.nan, FP.fin 13,
        FP.fin 9, FP.fin (29 / 5), FP.fin (31 / 7)]
    ulp_list_ := []
    colors_ := []
    a_ := FP.fin 1
    b_ := FP.fin 2 }

/-- The sample plot after `add_fn(demo_candidate)`. -/
def demo_plot_1 : ulp_plot := (ulp_plot.add_fn demo_env demo_plot demo_candidate "steelblue").2

/-- A reference implementation with a zero at the first sample. -/
def zero_first_reference (x : FP) : FP := FP.sub x (FP.fin (17 / 16))

/-- The accuracy plot of `zero_first_reference` on `[1, 2]` with 10 samples. -/
def zero_first_plot : ulp_plot :=
  { precise_abscissas_ := demo_abscissas
    coarse_abscissas_ := demo_abscissas
    precise_ordinates_ :=
      [FP.fin 0, FP.fin (1 / 16), FP.fin (1 / 8), FP.fin (3 / 16), FP.fin (5 / 16),
        FP.fin (7 / 16), FP.fin (9 / 16), FP.fin (5 / 8), FP.fin (3 / 4), FP.fin (7 / 8)]
    cond_ :=
      [FP.nan, FP.fin 18, FP.fin (19 / 2), FP.fin (20 / 3), FP.fin (22 / 5), FP.fin (24 / 7),
        FP.fin (26 / 9), FP.fin (27 / 10), FP.fin (29 / 12), FP.fin (31 / 14)]
    ulp_list_ := []
    colors_ := []
    a_ := FP.fin 1
    b_ := FP.fin 2 }

/-- The sample function plot after `add_fn` of the identity `f(x) = x`. -/
def demo_graph_1 : graph_fn := (graph_fn.add_fn demo_graph (fun x => x) "steelblue").2

/-- A reference implementation that is infinite at the sixth sample. -/
def pole_reference (x : FP) : FP := FP.div (FP.fin 1) (FP.sub x (FP.fin (3 / 2)))

/-- The accuracy plot of `pole_reference` on `[1, 2]` with 10 samples. -/
def pole_plot : ulp_plot :=
  { precise_abscissas_ := demo_abscissas
    coarse_abscissas_ := demo_abscissas
    precise_ordinates_ :=
      [FP.fin (-(16 / 7)), FP.fin (-(8 / 3)), FP.fin (-(16 / 5)), FP.fin (-4), FP.fin (-8),
        FP.pinf, FP.fin 8, FP.fin (16 / 3), FP.fin (16 / 5), FP.fin (16 / 7)]
    cond_ :=
      List.zipWith (ulp_plot.cond_entry demo_env pole_reference)
        (demo_abscissas.map pole_reference) demo_abscissas
    ulp_list_ := []
    colors_ := []
    a_ := FP.fin 1
    b_ := FP.fin 2 }

/-- A candidate for `zero_first_reference`, one unit too high left of `3/2` and two units
too low from there on. -/
def zero_first_candidate (x : FP) : FP :=
  FP.add (zero_first_reference x)
    (if FP.lt x (FP.fin (3 / 2)) then FP.fin (1 / 1024) else FP.fin (-(1 / 512)))

/-- The plot of `zero_first_reference` after `add_fn(zero_first_candidate)`. -/
def zero_first_plot_1 : ulp_plot :=
  (ulp_plot.add_fn demo_env zero_first_plot zero_first_candidate "steelblue").2

/-- A reference implementation with zeros at the sixth and the eighth sample. -/
def two_zero_reference (x : FP) : FP :=
  FP.mul (FP.sub x (FP.fin (3 / 2))) (FP.sub x (FP.fin (27 / 16)))

/-- The accuracy plot of `two_zero_reference` on `[1, 2]` with 10 samples. -/
def two_zero_plot : ulp_plot :=
  { precise_abscissas_ := demo_abscissas
    coarse_abscissas_ := demo_abscissas
    precise_ordinates_ :=
      [FP.fin (35 / 128), FP.fin (27 / 128), FP.fin (5 / 32), FP.fin (7 / 64),
        FP.fin (5 / 128), FP.fin 0, FP.fin (-(1 / 128)), FP.fin 0, FP.fin (5 / 128),
        FP.fin (7 / 64)]
    cond_ :=
      [FP.fin (289 / 70), FP.fin 5, FP.fin (247 / 40), FP.fin (55 / 7), FP.fin (77 / 5),
        FP.nan, FP.fin 13, FP.nan, FP.fin (203 / 10), FP.fin (341 / 28)]
    ulp_list_ := []
    colors_ := []
    a_ := FP.fin 1
    b_ := FP.fin 2 }

/-- The plot of `two_zero_reference` after `add_fn` of a candidate one unit too high. -/
def two_zero_plot_1 : ulp_plot :=
  (ulp_plot.add_fn demo_env two_zero_plot
    (fun x => FP.add (two_zero_reference x) (FP.fin (1 / 1024))) "steelblue").2

/-- The path vertices in the file `filename`, by sample index. -/
def vertex_samples (files : FileSys) (filename : String) : List (Option Nat) :=
  (((files filename).getD []).filter Svg.is_vertex).map Svg.sample

/-- No file exists. -/
def no_files : FileSys := fun _ => none

/-- The sample function plot after `add_fn` of the constant `f(x) = 0`. -/
def flat_graph : graph_fn := (graph_fn.add_fn demo_graph (fun _ => FP.fin 0) "steelblue").2

/-- The sample function plot after `add_fn` of `f(x) = x + 1`. -/
def shifted_graph : graph_fn :=
  (graph_fn.add_fn demo_graph (fun x => FP.add x (FP.fin 1)) "steelblue").2

/-! ## Notions used in the statements -/

/-- The call `std::max(a, b)`: `b` when `a < b`, else `a`. -/
def FP.max (a b : FP) : FP := if FP.lt a b then b else a

/-- The class invariant of `ulp_plot`: the four sample vectors have one length, at least
10; every error vector has that length, and has its colour. -/
def ulp_plot.consistent (p : ulp_plot) : Prop :=
  10 ≤ p.coarse_abscissas_.length
    ∧ p.precise_abscissas_.length = p.coarse_abscissas_.length
    ∧ p.precise_ordinates_.length = p.coarse_abscissas_.length
    ∧ p.cond_.length = p.coarse_abscissas_.length
    ∧ p.colors_.length = p.ulp_list_.length
    ∧ ∀ ulp ∈ p.ulp_list_, ulp.length = p.coarse_abscissas_.length

/-- The lambda `x_scale` as `write` builds it for a given title and width. -/
def ulp_plot.xs (p : ulp_plot) (title : String) (width : Int) : FP → FP :=
  ulp_plot.x_scale p (ulp_plot.canvas title width).graph_width

/-- The lambda `y_scale` as `write` builds it for a given clip bound, title and width. -/
def ulp_plot.ys (E : Env) (p : ulp_plot) (clip : Int) (title : String) (width : Int) :
    FP → FP :=
  ulp_plot.y_scale (ulp_plot.ranges E p clip).2.1 (ulp_plot.ranges E p clip).2.2
    (ulp_plot.canvas title width).graph_height

/-- The line-to of the envelope at sample `j`: at the pixel abscissa of the coarse
abscissa and the pixel ordinate of `+cond_[j]` (upper) or `-cond_[j]` (lower). -/
def ulp_plot.envelope_line (p : ulp_plot) (xs ys : FP → FP) (lower : Bool) (j : Nat) : Svg :=
  Svg.path_line j (xs (p.coarse_abscissas_.getD j FP.nan))
    (ys (if lower then FP.neg (p.cond_.getD j FP.nan) else p.cond_.getD j FP.nan))

/-- The move-to of the envelope at sample `j`. -/
def ulp_plot.envelope_move (p : ulp_plot) (xs ys : FP → FP) (lower : Bool) (j : Nat) : Svg :=
  Svg.path_move j (xs (p.coarse_abscissas_.getD j FP.nan))
    (ys (if lower then FP.neg (p.cond_.getD j FP.nan) else p.cond_.getD j FP.nan))

/-- One unbroken envelope path: it starts on sample `run.1` and goes through the `run.2`
samples that follow, in index order. -/
def ulp_plot.envelope_run (p : ulp_plot) (xs ys : FP → FP) (lower : Bool) (run : Nat × Nat) :
    List Svg :=
  ulp_plot.envelope_move p xs ys lower run.1
    :: (List.range' (run.1 + 1) run.2).map (ulp_plot.envelope_line p xs ys lower)
    ++ [ulp_plot.close_path]

/-- A sequence of envelope paths, one per run. -/
def ulp_plot.envelope_runs (p : ulp_plot) (xs ys : FP → FP) (lower : Bool)
    (runs : List (Nat × Nat)) : List Svg :=
  runs.flatMap (ulp_plot.envelope_run p xs ys lower)

/-- Whether no line-to of `cmds` bridges a gap: every line-to follows, within its path, a
vertex drawn for the sample just before its own.  `prev` is the sample of the last vertex
of the path that is open at the start of `cmds`, if any. -/
def no_bridge_from : Option Nat → List Svg → Bool
  | _, [] => true
  | _, Svg.path_move j _ _ :: rest => no_bridge_from (some j) rest
  | prev, Svg.path_line j _ _ :: rest =>
    (match prev with
      | some i => decide (i + 1 = j)
      | none => false) && no_bridge_from (some j) rest
  | _, _ :: rest => no_bridge_from none rest

/-- Whether no line-to of the complete command list `cmds` bridges a gap. -/
def no_bridge (cmds : List Svg) : Bool := no_bridge_from none cmds

/-- The scatter points of the specification: candidates in insertion order, samples in
index order, a point for sample `j` of candidate `c` exactly when its error is not NaN and
(`clip <= 0` or the error's magnitude is at most `clip`), at the pixel of the coarse
abscissa and of the error, in the candidate's colour. -/
def ulp_plot.scatter_spec (p : ulp_plot) (clip : Int) (xs ys : FP → FP) : List Svg :=
  (List.range p.ulp_list_.length).flatMap (fun c =>
    (List.range (p.ulp_list_.getD c []).length).flatMap (fun j =>
      if !FP.isnan ((p.ulp_list_.getD c []).getD j FP.nan)
          && (decide (clip ≤ 0)
            || FP.le (FP.abs ((p.ulp_list_.getD c []).getD j FP.nan)) (FP.ofInt clip)) then
        [Svg.circle (xs (p.coarse_abscissas_.getD j FP.nan))
          (ys ((p.ulp_list_.getD c []).getD j FP.nan)) (p.colors_.getD c "")]
      else []))

/-- The unbroken envelope path of the specification: one vertex per sample, in ascending
sample order, vertex `k` at the pixel of the coarse abscissa `k` and of `+cond_[k]` (upper)
or `-cond_[k]` (lower). -/
def ulp_plot.full_path (p : ulp_plot) (xs ys : FP → FP) (lower : Bool) : List Svg :=
  (List.range p.cond_.length).map (fun k =>
    (if k = 0 then Svg.path_move else Svg.path_line) k
      (xs (p.coarse_abscissas_.getD k FP.nan))
      (ys (if lower then FP.neg (p.cond_.getD k FP.nan) else p.cond_.getD k FP.nan)))
  ++ [ulp_plot.close_path]

/-- A reference implementation with a zero at the last sample. -/
def zero_last_reference (x : FP) : FP := FP.sub x (FP.fin (31 / 16))

/-- The accuracy plot of `zero_last_reference` on `[1, 2]` with 10 samples. -/
def zero_last_plot : ulp_plot :=
  { precise_abscissas_ := demo_abscissas
    coarse_abscissas_ := demo_abscissas
    precise_ordinates_ := demo_abscissas.map zero_last_reference
    cond_ :=
      [FP.fin (17 / 14), FP.fin (18 / 13), FP.fin (19 / 12), FP.fin (20 / 11),
        FP.fin (22 / 9), FP.fin (24 / 7), FP.fin (26 / 5), FP.fin (27 / 4), FP.fin (29 / 2),
        FP.nan]
    ulp_list_ := []
    colors_ := []
    a_ := FP.fin 1
    b_ := FP.fin 2 }

/-- The plot of `zero_last_reference` after `add_fn` of a candidate one unit too high
left of `3/2` and two units too low from there on. -/
def zero_last_plot_1 : ulp_plot :=
  (ulp_plot.add_fn demo_env zero_last_plot
    (fun x => FP.add (zero_last_reference x)
      (if FP.lt x (FP.fin (3 / 2)) then FP.fin (1 / 1024) else FP.fin (-(1 / 512))))
    "steelblue").2

/-- The accuracy plot of the identity `f(x) = x` on `[1, 2]` with 10 samples: every
conditioning value is 1. -/
def identity_plot : ulp_plot :=
  { precise_abscissas_ := demo_abscissas
    coarse_abscissas_ := demo_abscissas
    precise_ordinates_ := demo_abscissas
    cond_ := List.replicate 10 (FP.fin 1)
    ulp_list_ := []
    colors_ := []
    a_ := FP.fin 1
    b_ := FP.fin 2 }

/-- The plot of the identity after `add_fn` of a candidate one unit too high left of `3/2`
and two units too low from there on. -/
def identity_plot_1 : ulp_plot :=
  (ulp_plot.add_fn demo_env identity_plot
    (fun x => FP.add x (if FP.lt x (FP.fin (3 / 2)) then FP.fin (1 / 1024)
      else FP.fin (-(1 / 512)))) "steelblue").2

/-- A sample candidate that overflows to `+inf` at every abscissa. -/
def overflowing_candidate (_ : FP) : FP := FP.pinf

/-- The sample plot with the overflowing candidate added. -/
def overflow_plot_1 : ulp_plot :=
  (ulp_plot.add_fn demo_env demo_plot overflowing_candidate "red").2

/-- A floating-point format, given by its rounding: `round q` is the value of the format
that an operation delivers when its exact result is `q`, an infinity when `q` overflows. -/
structure FloatFormat where
  round : ℚ → FP

namespace FloatFormat

/-- Rounding of the result of an operation; an infinity and NaN are delivered as they
are. -/
def rnd (F : FloatFormat) : FP → FP
  | FP.fin q => F.round q
  | x => x

/-- Conversion of a machine integer to the format. -/
def ofInt (F : FloatFormat) (i : Int) : FP := F.round (i : ℚ)

/-- Rounded addition. -/
def add (F : FloatFormat) (a b : FP) : FP := F.rnd (FP.add a b)

/-- Rounded subtraction. -/
def sub (F : FloatFormat) (a b : FP) : FP := F.rnd (FP.sub a b)

/-- Rounded multiplication. -/
def mul (F : FloatFormat) (a b : FP) : FP := F.rnd (FP.mul a b)

/-- Rounded division. -/
def div (F : FloatFormat) (a b : FP) : FP := F.rnd (FP.div a b)

/-- The format that rounds nothing: exact arithmetic. -/
def exact : FloatFormat := { round := FP.fin }

/-- The number `q` is a value of the format: rounding delivers it unchanged. -/
def holds (F : FloatFormat) (q : ℚ) : Prop := F.round q = FP.fin q

/-- The laws of rounding that the proofs use: rounding is monotone, and 0 and 1 are values
of the format. -/
def lawful (F : FloatFormat) : Prop :=
  (∀ a b : ℚ, a ≤ b → FP.le (F.round a) (F.round b) = true) ∧ F.holds 0 ∧ F.holds 1

end FloatFormat

/-- Nearest integer to `q`, a tie going to the even one. -/
def round_half_even (q : ℚ) : Int :=
  if q - (Int.floor q : ℚ) < 1 / 2 then Int.floor q
  else if 1 / 2 < q - (Int.floor q : ℚ) then Int.floor q + 1
  else if Int.floor q % 2 = 0 then Int.floor q
  else Int.floor q + 1

/-- The power `2^e` for an integer exponent. -/
def pow2 (e : Int) : ℚ :=
  if 0 ≤ e then ((2 ^ e.toNat : Nat) : ℚ) else 1 / ((2 ^ (-e).toNat : Nat) : ℚ)

/-- Position of the leading binary digit of `n`, found in at most `fuel` halvings. -/
def log2_aux : Nat → Nat → Nat
  | 0, _ => 0
  | fuel + 1, n => if n < 2 then 0 else log2_aux fuel (n / 2) + 1

/-- The binary exponent of `a ≠ 0`: the `e` with `2^e <= |a| < 2^(e+1)`. -/
def ilog2 (a : ℚ) : Int :=
  if pow2 ((log2_aux a.num.natAbs a.num.natAbs : Int) - (log2_aux a.den a.den : Int)) ≤ |a|
  then (log2_aux a.num.natAbs a.num.natAbs : Int) - (log2_aux a.den a.den : Int)
  else (log2_aux a.num.natAbs a.num.natAbs : Int) - (log2_aux a.den a.den : Int) - 1

/-- The spacing of the `double` values around `q`: `2^(e-52)` in the binade `2^e` of `q`,
and `2^-1074` below `2^-1022`. -/
def binary64_spacing (q : ℚ) : ℚ := pow2 (max (ilog2 q) (-1022) - 52)

/-- The multiple of the spacing around `q` that is nearest to `q`, a tie going to the even
multiple: the `double` nearest to `q` if exponents were unbounded above. -/
def binary64_nearest (q : ℚ) : ℚ :=
  (round_half_even (q / binary64_spacing q) : ℚ) * binary64_spacing q

/-- The type `double` (IEEE 754 binary64) with rounding to nearest, ties to even: 53
significant bits, exponents from -1022 to 1023, gradual underflow, overflow to infinity. -/
def binary64 : FloatFormat :=
  { round := fun q =>
      if pow2 1024 ≤ binary64_nearest q then FP.pinf
      else if binary64_nearest q ≤ -pow2 1024 then FP.ninf
      else FP.fin (binary64_nearest q) }

/-- A fixed-point format: the multiples of `2^-k` between `-2^k` and `2^k`, with rounding
to the nearest one and overflow to an infinity.  The sample coarse format is
`fixed_point 10`. -/
def fixed_point (k : Nat) : FloatFormat :=
  { round := fun q =>
      if (2 : ℚ) ^ k < q then FP.pinf
      else if q < -(2 : ℚ) ^ k then FP.ninf
      else FP.fin ((Int.floor (q * 2 ^ k + 1 / 2) : ℚ) / 2 ^ k) }

/-! ## graph_fn.hpp in rounded arithmetic -/

/-- The abscissa step `(m_max_x - m_min_x)/(m_samples - 1.0)`. -/
def fl.graph_fn.step (F : FloatFormat) (s : graph_fn) : FP :=
  F.div (F.sub s.m_max_x s.m_min_x) (F.sub (F.ofInt s.m_samples) (FP.fin 1))

/-- One turn of the sampling loop of `add_fn`, at `x = m_min_x + step*i`. -/
def fl.graph_fn.add_fn_body (F : FloatFormat) (s : graph_fn) (f : FP → FP)
    (acc : List FP × FP × FP) (i : Nat) : List FP × FP × FP :=
  let x := F.add s.m_min_x (F.mul (step F s) (F.ofInt i))
  let vi := f x
  let max_y := if FP.gt vi acc.2.2 then vi else acc.2.2
  let min_y := if FP.lt vi acc.2.1 then vi else acc.2.1
  (acc.1 ++ [vi], min_y, max_y)

/-- The member `add_fn(f, color)`: the outcome of the call and the object afterwards. -/
def fl.graph_fn.add_fn (F : FloatFormat) (s : graph_fn) (f : FP → FP) (color : String) :
    Except Err Unit × graph_fn :=
  let s1 : graph_fn := { s with cout := s.cout ++ ["Ok!"] }
  if s1.m_is_written then
    (.error (.logic_error "Cannot add data to graph after writing it.\n"), s1)
  else
    let r := (List.range s1.m_samples).foldl (add_fn_body F s1 f)
      ([], s1.m_min_y, s1.m_max_y)
    (.ok (),
      { s1 with
        m_min_y := r.2.1
        m_max_y := r.2.2
        m_dataset := s1.m_dataset ++ [r.1]
        m_connect_color := s1.m_connect_color ++ [color] })

/-- The lambda `x_scale` of `write_all`. -/
def fl.graph_fn.x_scale (F : FloatFormat) (s : graph_fn) (x : FP) : FP :=
  F.mul (F.div (F.sub x s.m_min_x) (F.sub s.m_max_x s.m_min_x)) (F.ofInt s.m_graph_width)

/-- The lambda `y_scale` of `write_all`. -/
def fl.graph_fn.y_scale (F : FloatFormat) (s : graph_fn) (y : FP) : FP :=
  F.mul (F.div (F.sub s.m_max_y y) (F.sub s.m_max_y s.m_min_y)) (F.ofInt s.m_graph_height)

/-- The pixel abscissa `t = x_scale(m_min_x + j*step)` of sample `j`. -/
def fl.graph_fn.t (F : FloatFormat) (s : graph_fn) (j : Nat) : FP :=
  x_scale F s (F.add s.m_min_x (F.mul (F.ofInt j) (step F s)))

/-- The path written for the series `v` with colour `stroke`: a move-to at
`x_scale(m_min_x)` for the first sample, a line-to at `t` for every later one, then the
closing attributes. -/
def fl.graph_fn.series_path (F : FloatFormat) (s : graph_fn) (v : List FP)
    (stroke : String) : Except Fault (List Svg) :=
  match at_index v 0 with
  | .error e => .error e
  | .ok v0 =>
    match collect (fun j =>
        match at_index v j with
        | .error e => .error e
        | .ok vj =>
          .ok (Svg.path_line j (t F s j) (y_scale F s vj))) (List.range' 1 (v.length - 1)) with
    | .error e => .error e
    | .ok ls =>
      .ok (Svg.path_move 0 (x_scale F s s.m_min_x) (y_scale F s v0) :: ls
        ++ [Svg.path_close stroke 3])

/-- The loop of `write_all` over `m_dataset`. -/
def fl.graph_fn.series_paths (F : FloatFormat) (s : graph_fn) : Except Fault (List Svg) :=
  match collect (fun i =>
      match s.m_dataset[i]?, s.m_connect_color[i]? with
      | some v, some stroke => series_path F s v stroke
      | _, _ => .error .out_of_range) (List.range s.m_dataset.length) with
  | .error e => .error e
  | .ok ps => .ok ps.flatten

/-- What `write_all` writes before the series: group, axes and gridlines. -/
def fl.graph_fn.frame (F : FloatFormat) (d : Detail) (s : graph_fn) : List Svg :=
  let x_axis_loc : FP :=
    if FP.le s.m_min_y (FP.fin 0) && FP.ge s.m_max_y (FP.fin 0) then y_scale F s (FP.fin 0)
    else F.ofInt s.m_graph_height
  [Svg.group_open s.m_margin_left s.m_margin_top,
    Svg.line (FP.fin 0) (FP.fin 0) (FP.fin 0) (FP.ofInt s.m_graph_height) false,
    Svg.line (FP.fin 0) x_axis_loc (FP.ofInt s.m_graph_width) x_axis_loc false]
  ++ d.write_gridlines 8 10 (x_scale F s) (y_scale F s) s.m_min_x s.m_max_x s.m_min_y
      s.m_max_y s.m_graph_width s.m_graph_height s.m_margin_left

/-- The polyline of the specification for the series `v`: one vertex per sample, in index
order, the first at pixel abscissa `x_scale(x_min)` and vertex `j >= 1` at
`x_scale(x_min + j*step)`, drawn in colour `stroke`. -/
def fl.graph_fn.series_polyline (F : FloatFormat) (s : graph_fn) (v : List FP)
    (stroke : String) : List Svg :=
  (List.range v.length).map (fun j =>
    if j = 0 then Svg.path_move 0 (x_scale F s s.m_min_x) (y_scale F s (v.getD 0 FP.nan))
    else Svg.path_line j (t F s j) (y_scale F s (v.getD j FP.nan)))
  ++ [Svg.path_close stroke 3]

/-- The member `write_all()`: the outcome of the call and the object afterwards. -/
def fl.graph_fn.write_all (F : FloatFormat) (d : Detail) (s : graph_fn) :
    Except Err Unit × graph_fn :=
  let s1 : graph_fn := { s with m_fs := s.m_fs.put (frame F d s) }
  match series_paths F s1 with
  | .error e => (.error (.undefined e), s1)
  | .ok ps =>
    (.ok (),
      { s1 with
        m_fs := ((s1.m_fs.put ps).put [Svg.document_close]).close
        m_is_written := true })

/-! ## include/quicksvg/ulp_plot.hpp in rounded arithmetic

The coarse format `C` is the type `CoarseReal`, the precise format `P` the type
`PreciseReal`.  The loops of `write` take the two coordinate transforms as arguments, so
the definitions of the exact embedding serve here too. -/

/-- The lambda `x_scale` of `write`, of type `CoarseReal -> CoarseReal`. -/
def fl.ulp_plot.x_scale (C : FloatFormat) (p : ulp_plot) (graph_width : Int) (x : FP) : FP :=
  C.mul (C.div (C.sub x p.a_) (C.sub p.b_ p.a_)) (C.ofInt graph_width)

/-- The lambda `y_scale` of `write`, of type `PreciseReal -> PreciseReal`. -/
def fl.ulp_plot.y_scale (P : FloatFormat) (min_y max_y : FP) (graph_height : Int) (y : FP) :
    FP :=
  P.mul (P.div (P.sub max_y y) (P.sub max_y min_y)) (P.ofInt graph_height)

/-- The lambda `x_scale` as `write` builds it for a given title and width. -/
def fl.ulp_plot.xs (C : FloatFormat) (p : ulp_plot) (title : String) (width : Int) :
    FP → FP :=
  x_scale C p (ulp_plot.canvas title width).graph_width

/-- The lambda `y_scale` as `write` builds it for a given clip bound, title and width. -/
def fl.ulp_plot.ys (P : FloatFormat) (E : Env) (p : ulp_plot) (clip : Int) (title : String)
    (width : Int) : FP → FP :=
  y_scale P (ulp_plot.ranges E p clip).2.1 (ulp_plot.ranges E p clip).2.2
    (ulp_plot.canvas title width).graph_height

/-- The gridlines `write` draws itself when `worst_ulp_distance <= 3`. -/
def fl.ulp_plot.small_error_grid (C P : FloatFormat) (p : ulp_plot) (c : ulp_plot.Canvas)
    (min_y max_y : FP) (xs ys : FP → FP) (vertical_lines : Int) : List Svg :=
  let levels : List ℚ := [-3, -5 / 2, -2, -3 / 2, -1, -1 / 2, 1 / 2, 1, 3 / 2, 2, 5 / 2, 3]
  levels.flatMap (fun v =>
    if FP.le min_y (FP.fin v) && FP.le (FP.fin v) max_y then
      let y_cord_dataspace := P.round v
      let y := ys y_cord_dataspace
      [Svg.line (FP.fin 0) y (FP.ofInt c.graph_width) y true,
        Svg.text (FP.ofInt (Int.tdiv (-c.margin_left) 2)) (P.sub y (P.ofInt 3))
          (some (FP.ofInt (Int.tdiv (-c.margin_left) 2 + 11), P.add y (P.ofInt 5)))
          y_cord_dataspace]
    else [])
  ++ (List.range' 1 vertical_lines.toNat).flatMap (fun i =>
    let x_cord_dataspace :=
      C.add p.a_ (C.div (C.mul (C.sub p.b_ p.a_) (C.ofInt i)) (C.ofInt vertical_lines))
    let x := xs x_cord_dataspace
    [Svg.line x (FP.fin 0) x (FP.ofInt c.graph_height) true,
      Svg.text (C.sub x (C.ofInt 10)) (FP.ofInt (c.graph_height + 10)) none
        x_cord_dataspace])

/-- What `write` puts into the file before the scatter points. -/
def fl.ulp_plot.frame (C P : FloatFormat) (d : Detail) (E : Env) (p : ulp_plot) (clip : Int)
    (title : String) (width horizontal_lines vertical_lines : Int) : List Svg :=
  let r := ulp_plot.ranges E p clip
  let c := ulp_plot.canvas title width
  let xs := x_scale C p c.graph_width
  let ys := y_scale P r.2.1 r.2.2 c.graph_height
  let x_axis_loc := ys (FP.fin 0)
  [Svg.header width c.height]
  ++ (if 0 < title.length then
        [Svg.title_text (Int.tdiv width 2) (Int.tdiv c.margin_top 2) title]
      else [])
  ++ [Svg.group_open c.margin_left c.margin_top,
      Svg.line (FP.fin 0) (FP.fin 0) (FP.fin 0) (FP.ofInt c.graph_height) false,
      Svg.line (FP.fin 0) x_axis_loc (FP.ofInt c.graph_width) x_axis_loc false]
  ++ (if FP.gt r.1 (FP.fin 3) then
        d.write_gridlines horizontal_lines vertical_lines xs ys p.a_ p.b_
          (E.narrow r.2.1) (E.narrow r.2.2) c.graph_width c.graph_height c.margin_left
      else small_error_grid C P p c r.2.1 r.2.2 xs ys vertical_lines)

/-- The member `write(filename, clip, ulp_envelope, title, width, horizontal_lines,
vertical_lines)`: the outcome of the call and the files afterwards.  The object itself is
not modified. -/
def fl.ulp_plot.write (C P : FloatFormat) (d : Detail) (E : Env) (p : ulp_plot)
    (filename : String) (clip : Int) (ulp_envelope : Bool) (title : String)
    (width horizontal_lines vertical_lines : Int) (files : FileSys) :
    Except Err Unit × FileSys :=
  if p.ulp_list_.length = 0 then
    (.error (.domain_error "No functions added for comparison."), files)
  else if width ≤ 1 then
    (.error (.domain_error ("Width = " ++ toString width ++ ", which is too small.")), files)
  else
    let r := ulp_plot.ranges E p clip
    let c := ulp_plot.canvas title width
    let xs := x_scale C p c.graph_width
    let ys := y_scale P r.2.1 r.2.2 c.graph_height
    let head := frame C P d E p clip title width horizontal_lines vertical_lines
    match ulp_plot.scatter p clip xs ys with
    | .error e => (.error (.undefined e), files.store filename head)
    | .ok points =>
      match (if ulp_envelope then ulp_plot.envelope p clip xs ys else .ok []) with
      | .error e => (.error (.undefined e), files.store filename (head ++ points))
      | .ok paths =>
        (.ok (), files.store filename (head ++ points ++ paths ++ [Svg.document_close]))

/-- The sample plot with its candidate, over a domain as wide as the sample coarse format:
`[-1024, 1024]`. -/
def wide_domain_plot_1 : ulp_plot :=
  { demo_plot_1 with a_ := FP.fin (-1024), b_ := FP.fin 1024 }

/-- The function plot over `[-2^1023, 2^1023]` with 3 samples, after `add_fn` of the
constant `f(x) = 1`, in `double` arithmetic. -/
def overflow_domain_graph_1 : graph_fn :=
  (fl.graph_fn.add_fn binary64
    { demo_graph with m_min_x := FP.fin (-(2 ^ 1023)), m_max_x := FP.fin (2 ^ 1023),
                      m_samples := 3 }
    (fun _ => FP.fin 1) "steelblue").2

/-! ## The sample objects are what the constructors build -/

theorem demo_graph_built :
    graph_fn.ctor false demo_detail (FP.fin 0) (FP.fin 10) "demo" "demo.svg" 5 1100 (FP.fin 0)
      (FP.fin 0) = .ok demo_graph := by
  decide!

theorem demo_plot_built :
    ulp_plot.ctor demo_env demo_reference (FP.fin 1) (FP.fin 2) true 10 (-1)
      = .ok demo_plot := by
  decide!

theorem zero_first_plot_built :
    ulp_plot.ctor demo_env zero_first_reference (FP.fin 1) (FP.fin 2) true 10 (-1)
      = .ok zero_first_plot := by
  decide!

theorem pole_plot_built :
    ulp_plot.ctor demo_env pole_reference (FP.fin 1) (FP.fin 2) true 10 (-1)
      = .ok pole_plot := by
  decide!

theorem two_zero_plot_built :
    ulp_plot.ctor demo_env two_zero_reference (FP.fin 1) (FP.fin 2) true 10 (-1)
      = .ok two_zero_plot := by
  decide!

theorem zero_last_plot_built :
    ulp_plot.ctor demo_env zero_last_reference (FP.fin 1) (FP.fin 2) true 10 (-1)
      = .ok zero_last_plot := by
  decide!

theorem identity_plot_built :
    ulp_plot.ctor demo_env (fun x => x) (FP.fin 1) (FP.fin 2) true 10 (-1)
      = .ok identity_plot := by
  decide!

/-! ## Arithmetic on finite values -/

@[simp] theorem FP.sub_fin (a b : ℚ) : FP.sub (FP.fin a) (FP.fin b) = FP.fin (a - b) := by
  simp [FP.sub, FP.neg, FP.add, sub_eq_add_neg]

@[simp] theorem FP.add_fin (a b : ℚ) : FP.add (FP.fin a) (FP.fin b) = FP.fin (a + b) := rfl

@[simp] theorem FP.mul_fin (a b : ℚ) : FP.mul (FP.fin a) (FP.fin b) = FP.fin (a * b) := rfl

theorem FP.div_fin (a b : ℚ) (hb : b ≠ 0) : FP.div (FP.fin a) (FP.fin b) = FP.fin (a / b) := by
  simp [FP.div, hb]

theorem FP.lt_false_of_le : ∀ a b : FP, FP.le b a = true → FP.lt a b = false := by
  intro a b h
  cases a <;> cases b <;> simp_all [FP.le, FP.lt]

/-! ## The coordinate transforms -/

/-- C1: for a domain `[a, b]` with `a < b`, the `x_scale` of `graph_fn::write_all` and the
`x_scale` of `ulp_plot::write` both send `a` to pixel 0 and `b` to the graph width. -/
theorem x_scale_endpoints (a b : ℚ) (hab : a < b) (s : graph_fn) (p : ulp_plot)
    (graph_width : Int) (hs : s.m_min_x = FP.fin a ∧ s.m_max_x = FP.fin b)
    (hp : p.a_ = FP.fin a ∧ p.b_ = FP.fin b) :
    graph_fn.x_scale s (FP.fin a) = FP.fin 0
      ∧ graph_fn.x_scale s (FP.fin b) = FP.ofInt s.m_graph_width
      ∧ ulp_plot.x_scale p graph_width (FP.fin a) = FP.fin 0
      ∧ ulp_plot.x_scale p graph_width (FP.fin b) = FP.ofInt graph_width := by
  have hne : b - a ≠ 0 := sub_ne_zero.mpr (ne_of_gt hab)
  obtain ⟨hs1, hs2⟩ := hs
  obtain ⟨hp1, hp2⟩ := hp
  simp [graph_fn.x_scale, ulp_plot.x_scale, hs1, hs2, hp1, hp2, FP.div_fin _ _ hne,
    FP.ofInt, div_self hne]

theorem x_scale_endpoints_witness :
    graph_fn.x_scale { demo_graph with m_min_x := FP.fin 1, m_max_x := FP.fin 2 } (FP.fin 1)
        = FP.fin 0
      ∧ graph_fn.x_scale { demo_graph with m_min_x := FP.fin 1, m_max_x := FP.fin 2 } (FP.fin 2)
        = FP.ofInt 1055
      ∧ ulp_plot.x_scale demo_plot 1065 (FP.fin 1) = FP.fin 0
      ∧ ulp_plot.x_scale demo_plot 1065 (FP.fin 2) = FP.ofInt 1065 :=
  x_scale_endpoints 1 2 (by norm_num)
    { demo_graph with m_min_x := FP.fin 1, m_max_x := FP.fin 2 } demo_plot 1065
    ⟨rfl, rfl⟩ ⟨rfl, rfl⟩

/-! ## Construction -/

/-- C3 (as the code behaves): the only check of the constructor is
`assert(m_max_x > m_min_x)`, and it throws nothing.  In a build without `NDEBUG`,
constructing a `graph_fn` with `x_min >= x_max` aborts the process at the assertion, after
the stream was opened on `filename` and before anything is written to it: no plot object
results.  In a build with `NDEBUG` the same call returns a plot object over the reversed
domain. -/
theorem graph_fn_ctor_rejects (d : Detail) (x_min x_max : FP) (title filename : String)
    (samples : Nat) (width : Int) (min_y0 max_y0 : FP) (h : FP.ge x_min x_max = true) :
    graph_fn.ctor false d x_min x_max title filename samples width min_y0 max_y0
        = .error (.assertion_failed "m_max_x > m_min_x",
            { path := filename, is_open := true, content := [] })
      ∧ ∃ s, graph_fn.ctor true d x_min x_max title filename samples width min_y0 max_y0
            = .ok s
          ∧ s.m_min_x = x_min ∧ s.m_max_x = x_max ∧ s.m_is_written = false := by
  have hlt : FP.lt x_min x_max = false := FP.lt_false_of_le x_min x_max h
  refine ⟨by simp [graph_fn.ctor, FP.gt, hlt], ?_⟩
  simp [graph_fn.ctor]

theorem graph_fn_ctor_rejects_witness :
    graph_fn.ctor false demo_detail (FP.fin 10) (FP.fin 0) "demo" "demo.svg" 5 1100
          (FP.fin 0) (FP.fin 0)
        = .error (.assertion_failed "m_max_x > m_min_x",
            { path := "demo.svg", is_open := true, content := [] })
      ∧ ∃ s, graph_fn.ctor true demo_detail (FP.fin 10) (FP.fin 0) "demo" "demo.svg" 5 1100
              (FP.fin 0) (FP.fin 0) = .ok s
          ∧ s.m_min_x = FP.fin 10 ∧ s.m_max_x = FP.fin 0 ∧ s.m_is_written = false :=
  graph_fn_ctor_rejects demo_detail (FP.fin 10) (FP.fin 0) "demo" "demo.svg" 5 1100 (FP.fin 0)
    (FP.fin 0) (by decide)

/-- C3 fails as stated: in a build with `NDEBUG` the constructor called with
`x_min = 10 >= x_max = 0` returns a plot object, the sample plot over the reversed
domain. -/
theorem graph_fn_ctor_accepts_reversed_domain :
    FP.ge (FP.fin 10) (FP.fin 0) = true
      ∧ graph_fn.ctor true demo_detail (FP.fin 10) (FP.fin 0) "demo" "demo.svg" 5 1100
          (FP.fin 0) (FP.fin 0)
        = .ok { demo_graph with m_min_x := FP.fin 10, m_max_x := FP.fin 0 } := by
  decide!

theorem sort_length (v : List FP) : (sort v).length = v.length := by
  simp [sort, List.length_insertionSort]

/-- C4: the constructor of `ulp_plot` fails with a domain error exactly when
`samples < 10` or `b <= a`; for `samples >= 10` and `a < b` it returns a plot whose
abscissa, reference-ordinate and conditioning sequences all have length `samples`. -/
theorem ulp_plot_ctor_domain (E : Env) (hi_acc_impl : FP → FP) (a b : FP)
    (perturb_abscissas : Bool) (samples : Nat) (random_seed : Int) :
    ((∃ what, ulp_plot.ctor E hi_acc_impl a b perturb_abscissas samples random_seed
          = .error (.domain_error what)) ↔ (samples < 10 ∨ FP.le b a = true))
      ∧ (10 ≤ samples → FP.lt a b = true →
          ∃ p, ulp_plot.ctor E hi_acc_impl a b perturb_abscissas samples random_seed = .ok p
            ∧ p.precise_abscissas_.length = samples
            ∧ p.coarse_abscissas_.length = samples
            ∧ p.precise_ordinates_.length = samples
            ∧ p.cond_.length = samples) := by
  constructor
  · constructor
    · intro h
      by_contra hc
      push_neg at hc
      obtain ⟨what, hw⟩ := h
      have h1 : ¬ samples < 10 := not_lt.mpr hc.1
      simp [ulp_plot.ctor, h1, hc.2] at hw
    · intro h
      by_cases h1 : samples < 10
      · exact ⟨_, by simp only [ulp_plot.ctor, h1, if_true]; rfl⟩
      · have h2 : FP.le b a = true := h.resolve_left h1
        exact ⟨_, by simp only [ulp_plot.ctor, h1, h2, if_true, if_false]; rfl⟩
  · intro hs hab
    have h1 : ¬ samples < 10 := not_lt.mpr hs
    have h2 : FP.le b a = false := by
      cases a <;> cases b <;> simp_all [FP.le, FP.lt]
    refine ⟨_, by simp only [ulp_plot.ctor, h1, h2]; rfl, ?_⟩
    cases perturb_abscissas <;> simp [sort_length]

theorem ulp_plot_ctor_domain_witness :
    ∃ p, ulp_plot.ctor demo_env demo_reference (FP.fin 1) (FP.fin 2) true 10 (-1) = .ok p
      ∧ p.precise_abscissas_.length = 10
      ∧ p.coarse_abscissas_.length = 10
      ∧ p.precise_ordinates_.length = 10
      ∧ p.cond_.length = 10 :=
  (ulp_plot_ctor_domain demo_env demo_reference (FP.fin 1) (FP.fin 2) true 10 (-1)).2
    (by decide) (by decide)

/-! ## Adding a series after the plot was written -/

/-- C5: once `write_all` has returned, `add_fn` on the function plot fails with a state
error (`std::logic_error`), and the failed call leaves the series list, the colour list
and the global ordinate range as they were. -/
theorem add_fn_after_write_all (d : Detail) (s : graph_fn) (f : FP → FP) (color : String)
    (h : (graph_fn.write_all d s).1 = .ok ()) :
    (graph_fn.add_fn (graph_fn.write_all d s).2 f color).1
        = .error (.logic_error "Cannot add data to graph after writing it.\n")
      ∧ (graph_fn.add_fn (graph_fn.write_all d s).2 f color).2.m_dataset
        = (graph_fn.write_all d s).2.m_dataset
      ∧ (graph_fn.add_fn (graph_fn.write_all d s).2 f color).2.m_connect_color
        = (graph_fn.write_all d s).2.m_connect_color
      ∧ (graph_fn.add_fn (graph_fn.write_all d s).2 f color).2.m_min_y
        = (graph_fn.write_all d s).2.m_min_y
      ∧ (graph_fn.add_fn (graph_fn.write_all d s).2 f color).2.m_max_y
        = (graph_fn.write_all d s).2.m_max_y := by
  have hw : (graph_fn.write_all d s).2.m_is_written = true := by
    simp only [graph_fn.write_all] at h ⊢
    generalize graph_fn.series_paths _ = r at h ⊢
    cases r <;> simp_all
  simp [graph_fn.add_fn, hw]

theorem add_fn_after_write_all_witness :
    (graph_fn.add_fn (graph_fn.write_all demo_detail demo_graph_1).2 (fun x => x) "red").1
        = .error (.logic_error "Cannot add data to graph after writing it.\n")
      ∧ (graph_fn.add_fn (graph_fn.write_all demo_detail demo_graph_1).2 (fun x => x)
          "red").2.m_dataset
        = (graph_fn.write_all demo_detail demo_graph_1).2.m_dataset
      ∧ (graph_fn.add_fn (graph_fn.write_all demo_detail demo_graph_1).2 (fun x => x)
          "red").2.m_connect_color
        = (graph_fn.write_all demo_detail demo_graph_1).2.m_connect_color
      ∧ (graph_fn.add_fn (graph_fn.write_all demo_detail demo_graph_1).2 (fun x => x)
          "red").2.m_min_y
        = (graph_fn.write_all demo_detail demo_graph_1).2.m_min_y
      ∧ (graph_fn.add_fn (graph_fn.write_all demo_detail demo_graph_1).2 (fun x => x)
          "red").2.m_max_y
        = (graph_fn.write_all demo_detail demo_graph_1).2.m_max_y :=
  add_fn_after_write_all demo_detail demo_graph_1 (fun x => x) "red" (by decide!)

/-! ## Reading vectors and running loops -/

theorem at_index_of_lt (v : List FP) (j : Nat) (h : j < v.length) :
    at_index v j = .ok (v.getD j FP.nan) := by
  simp [at_index, List.getElem?_eq_getElem h, List.getD_eq_getElem?_getD]

theorem collect_ok {ε α : Type} (f : Nat → Except ε α) (g : Nat → α) (l : List Nat)
    (h : ∀ i ∈ l, f i = .ok (g i)) : collect f l = .ok (l.map g) := by
  induction l with
  | nil => rfl
  | cons i l ih =>
    have hi : f i = .ok (g i) := h i (List.mem_cons_self i l)
    have hl : collect f l = .ok (l.map g) := ih (fun k hk => h k (List.mem_cons_of_mem i hk))
    simp [collect, hi, hl]

/-- The error vector `add_fn` computes for the candidate `g`. -/
theorem ulp_plot.add_fn_eq (E : Env) (p : ulp_plot) (g : FP → FP) (color : String)
    (h1 : p.precise_abscissas_.length ≤ p.precise_ordinates_.length)
    (h2 : p.precise_abscissas_.length ≤ p.coarse_abscissas_.length) :
    ulp_plot.add_fn E p g color
      = (.ok (),
          { p with
            ulp_list_ := p.ulp_list_ ++ [(List.range p.precise_abscissas_.length).map (fun i =>
              ulp_plot.ulp_entry E (p.precise_ordinates_.getD i FP.nan)
                (g (p.coarse_abscissas_.getD i FP.nan)))]
            colors_ := p.colors_ ++ [color] }) := by
  simp only [ulp_plot.add_fn]
  rw [collect_ok _ (fun i => ulp_plot.ulp_entry E (p.precise_ordinates_.getD i FP.nan)
    (g (p.coarse_abscissas_.getD i FP.nan)))]
  intro i hi
  have hi2 : i < p.precise_abscissas_.length := List.mem_range.mp hi
  simp [at_index_of_lt _ _ (lt_of_lt_of_le hi2 h1), at_index_of_lt _ _ (lt_of_lt_of_le hi2 h2)]

/-- C6 (as the code behaves): `ulp_plot` keeps no written flag and `write` does not modify
the object, so `add_fn` after a completed `write` is accepted: on a plot whose sample
vectors have equal lengths it returns normally and appends exactly one error series, of
the length of the abscissa grid, and one colour. -/
theorem ulp_add_fn_after_write_accepted (d : Detail) (E : Env) (p : ulp_plot)
    (filename : String) (clip : Int) (ulp_envelope : Bool) (title : String)
    (width horizontal_lines vertical_lines : Int) (files : FileSys) (g : FP → FP)
    (color : String)
    (_hw : (ulp_plot.write d E p filename clip ulp_envelope title width horizontal_lines
      vertical_lines files).1 = .ok ())
    (h1 : p.precise_ordinates_.length = p.precise_abscissas_.length)
    (h2 : p.coarse_abscissas_.length = p.precise_abscissas_.length) :
    (ulp_plot.add_fn E p g color).1 = .ok ()
      ∧ ∃ ulps, ulps.length = p.precise_abscissas_.length
        ∧ (ulp_plot.add_fn E p g color).2.ulp_list_ = p.ulp_list_ ++ [ulps]
        ∧ (ulp_plot.add_fn E p g color).2.colors_ = p.colors_ ++ [color] := by
  rw [ulp_plot.add_fn_eq E p g color (le_of_eq h1.symm) (le_of_eq h2.symm)]
  exact ⟨rfl, _, by simp, rfl, rfl⟩

theorem ulp_add_fn_after_write_accepted_witness :
    (ulp_plot.add_fn demo_env demo_plot_1 demo_reference "red").1 = .ok ()
      ∧ ∃ ulps, ulps.length = demo_plot_1.precise_abscissas_.length
        ∧ (ulp_plot.add_fn demo_env demo_plot_1 demo_reference "red").2.ulp_list_
          = demo_plot_1.ulp_list_ ++ [ulps]
        ∧ (ulp_plot.add_fn demo_env demo_plot_1 demo_reference "red").2.colors_
          = demo_plot_1.colors_ ++ ["red"] :=
  ulp_add_fn_after_write_accepted demo_detail demo_env demo_plot_1 "demo.svg" (-1) true ""
    1100 8 10 no_files demo_reference "red" (by decide!) (by decide) (by decide)

/-- C6 fails as stated: on the sample plot `write` completes, and the `add_fn` that follows
is not rejected and appends a second error series. -/
theorem ulp_add_fn_after_write_not_rejected :
    (ulp_plot.write demo_detail demo_env demo_plot_1 "demo.svg" (-1) true "" 1100 8 10
        no_files).1 = .ok ()
      ∧ (ulp_plot.add_fn demo_env demo_plot_1 demo_reference "red").1 = .ok ()
      ∧ demo_plot_1.ulp_list_.length = 1
      ∧ (ulp_plot.add_fn demo_env demo_plot_1 demo_reference "red").2.ulp_list_.length = 2 := by
  decide!

/-! ## The argument checks of `ulp_plot::write` -/

/-- C7: `ulp_plot::write` fails with a domain error whenever no candidate was added or the
requested width is at most 1, and then leaves every file as it was (the output file is not
even opened); with at least one candidate and a width above 1 it raises no domain error. -/
theorem write_domain_errors (d : Detail) (E : Env) (p : ulp_plot) (filename : String)
    (clip : Int) (ulp_envelope : Bool) (title : String)
    (width horizontal_lines vertical_lines : Int) (files : FileSys) :
    ((p.ulp_list_ = [] ∨ width ≤ 1) →
        ∃ what, ulp_plot.write d E p filename clip ulp_envelope title width horizontal_lines
          vertical_lines files = (.error (.domain_error what), files))
      ∧ (p.ulp_list_ ≠ [] → 1 < width →
          ∀ what, (ulp_plot.write d E p filename clip ulp_envelope title width
            horizontal_lines vertical_lines files).1 ≠ .error (.domain_error what)) := by
  constructor
  · intro h
    by_cases h0 : p.ulp_list_.length = 0
    · exact ⟨_, by simp only [ulp_plot.write, h0, if_true]; rfl⟩
    · have hw : width ≤ 1 := by
        rcases h with h | h
        · exact absurd (by simp [h]) h0
        · exact h
      exact ⟨_, by simp only [ulp_plot.write, h0, hw, if_true, if_false]; rfl⟩
  · intro hne hw what
    have h0 : ¬ p.ulp_list_.length = 0 := by
      intro hc
      exact hne (List.length_eq_zero.mp hc)
    have h1 : ¬ width ≤ 1 := not_le.mpr hw
    simp only [ulp_plot.write, h0, h1, if_false]
    generalize ulp_plot.scatter p clip _ _ = sc
    cases sc with
    | error e => simp
    | ok points =>
      simp only
      generalize (if ulp_envelope = true then ulp_plot.envelope p clip _ _ else Except.ok []) = en
      cases en <;> simp

theorem write_domain_errors_witness :
    (∃ what, ulp_plot.write demo_detail demo_env demo_plot "demo.svg" (-1) true "" 1100 8 10
        no_files = (.error (.domain_error what), no_files))
      ∧ (∃ what, ulp_plot.write demo_detail demo_env demo_plot_1 "demo.svg" (-1) true "" 1 8 10
        no_files = (.error (.domain_error what), no_files))
      ∧ (∀ what, (ulp_plot.write demo_detail demo_env demo_plot_1 "demo.svg" (-1) true "" 1100
        8 10 no_files).1 ≠ .error (.domain_error what)) :=
  ⟨(write_domain_errors demo_detail demo_env demo_plot "demo.svg" (-1) true "" 1100 8 10
      no_files).1 (Or.inl rfl),
    (write_domain_errors demo_detail demo_env demo_plot_1 "demo.svg" (-1) true "" 1 8 10
      no_files).1 (Or.inr (by decide)),
    (write_domain_errors demo_detail demo_env demo_plot_1 "demo.svg" (-1) true "" 1100 8 10
      no_files).2 (by decide) (by decide)⟩

/-! ## The error of a candidate that agrees with the reference -/

/-- C8 (as the code behaves): when the candidate `g` returns the stored reference ordinate
at every sample, the error stored by `add_fn` at sample `i` is exactly 0 provided the
reference ordinate there is finite and the distance `nextafter(|y|, max) - |y|` computed
for it is neither NaN nor 0 (narrowing 0 being 0); a reference ordinate of 0 is covered as
soon as `nextafter(0, max)` is not 0. -/
theorem ulp_zero_when_candidate_agrees (E : Env) (p : ulp_plot) (g : FP → FP)
    (color : String)
    (h1 : p.precise_ordinates_.length = p.precise_abscissas_.length)
    (h2 : p.coarse_abscissas_.length = p.precise_abscissas_.length)
    (hz : E.narrow (FP.fin 0) = FP.fin 0)
    (hagree : ∀ i, i < p.precise_abscissas_.length →
      g (p.coarse_abscissas_.getD i FP.nan) = p.precise_ordinates_.getD i FP.nan) :
    ∃ ulps, (ulp_plot.add_fn E p g color).2.ulp_list_ = p.ulp_list_ ++ [ulps]
      ∧ ulps.length = p.precise_abscissas_.length
      ∧ ∀ i y, i < p.precise_abscissas_.length →
          p.precise_ordinates_.getD i FP.nan = FP.fin y →
          FP.sub (E.nextafter (E.narrow (FP.fin |y|)) E.coarse_max) (E.narrow (FP.fin |y|))
            ≠ FP.nan →
          FP.sub (E.nextafter (E.narrow (FP.fin |y|)) E.coarse_max) (E.narrow (FP.fin |y|))
            ≠ FP.fin 0 →
          ulps[i]? = some (FP.fin 0) := by
  rw [ulp_plot.add_fn_eq E p g color (le_of_eq h1.symm) (le_of_eq h2.symm)]
  refine ⟨_, rfl, by simp, ?_⟩
  intro i y hi hy hnan hzero
  have hentry : ulp_plot.ulp_entry E (FP.fin y) (FP.fin y) = FP.fin 0 := by
    simp only [ulp_plot.ulp_entry, FP.abs, FP.sub_fin, sub_self]
    generalize FP.sub (E.nextafter (E.narrow (FP.fin |y|)) E.coarse_max)
      (E.narrow (FP.fin |y|)) = dist at hnan hzero
    cases dist with
    | nan => exact absurd rfl hnan
    | ninf => simpa [FP.div] using hz
    | pinf => simpa [FP.div] using hz
    | fin q =>
      have hq : q ≠ 0 := fun hc => hzero (by rw [hc])
      simpa [FP.div_fin _ _ hq] using hz
  rw [List.getElem?_map, List.getElem?_range hi]
  simp only [Option.map_some', hagree i hi, hy, hentry]

theorem ulp_zero_when_candidate_agrees_witness :
    ∃ ulps, (ulp_plot.add_fn demo_env demo_plot demo_reference "steelblue").2.ulp_list_
        = demo_plot.ulp_list_ ++ [ulps]
      ∧ ulps.length = demo_plot.precise_abscissas_.length
      ∧ ∀ i y, i < demo_plot.precise_abscissas_.length →
          demo_plot.precise_ordinates_.getD i FP.nan = FP.fin y →
          FP.sub (demo_env.nextafter (demo_env.narrow (FP.fin |y|)) demo_env.coarse_max)
            (demo_env.narrow (FP.fin |y|)) ≠ FP.nan →
          FP.sub (demo_env.nextafter (demo_env.narrow (FP.fin |y|)) demo_env.coarse_max)
            (demo_env.narrow (FP.fin |y|)) ≠ FP.fin 0 →
          ulps[i]? = some (FP.fin 0) :=
  ulp_zero_when_candidate_agrees demo_env demo_plot demo_reference "steelblue" (by decide)
    (by decide) (by decide!) (by decide!)

/-- The sample plot with the reference itself as candidate: every stored error is 0, the
one at the zero of the reference (the sixth sample) included. -/
theorem demo_plot_reference_errors :
    (ulp_plot.add_fn demo_env demo_plot demo_reference "steelblue").2.ulp_list_
      = [List.replicate 10 (FP.fin 0)] := by
  decide!

/-- C8 fails as stated: `pole_reference` is infinite at the sixth sample, the candidate
returns the stored reference ordinate at every sample, and the error stored for the sixth
sample is NaN, not 0. -/
theorem ulp_nan_when_reference_infinite :
    pole_plot.coarse_abscissas_.map pole_reference = pole_plot.precise_ordinates_
      ∧ (ulp_plot.add_fn demo_env pole_plot pole_reference "steelblue").1 = .ok ()
      ∧ (ulp_plot.add_fn demo_env pole_plot pole_reference "steelblue").2.ulp_list_
        = [[FP.fin 0, FP.fin 0, FP.fin 0, FP.fin 0, FP.fin 0, FP.nan, FP.fin 0, FP.fin 0,
            FP.fin 0, FP.fin 0]] := by
  decide!

/-! ## The polylines of the function plot -/

theorem graph_fn.step_fin (s : graph_fn) (a b : ℚ) (ha : s.m_min_x = FP.fin a)
    (hb : s.m_max_x = FP.fin b) (hn : 2 ≤ s.m_samples) :
    graph_fn.step s = FP.fin ((b - a) / ((s.m_samples : ℚ) - 1)) := by
  have h2 : (2 : ℚ) ≤ (s.m_samples : ℚ) := by exact_mod_cast hn
  have hne : (s.m_samples : ℚ) - 1 ≠ 0 := by linarith
  simp [graph_fn.step, ha, hb, FP.ofInt, FP.div_fin _ _ hne]

theorem graph_fn.t_fin (s : graph_fn) (a b : ℚ) (ha : s.m_min_x = FP.fin a)
    (hb : s.m_max_x = FP.fin b) (hab : a < b) (hn : 2 ≤ s.m_samples) (j : Nat) :
    graph_fn.t s j
      = FP.fin ((j : ℚ) / ((s.m_samples : ℚ) - 1) * (s.m_graph_width : ℚ)) := by
  have h2 : (2 : ℚ) ≤ (s.m_samples : ℚ) := by exact_mod_cast hn
  have hne : (s.m_samples : ℚ) - 1 ≠ 0 := by linarith
  have hba : b - a ≠ 0 := sub_ne_zero.mpr (ne_of_gt hab)
  rw [graph_fn.t, graph_fn.step_fin s a b ha hb hn]
  simp only [graph_fn.x_scale, ha, hb, FP.ofInt, FP.mul_fin, FP.add_fin, FP.sub_fin,
    FP.div_fin _ _ hba, Int.cast_natCast]
  congr 2
  field_simp
  ring

theorem graph_fn.x_scale_min (s : graph_fn) (a b : ℚ) (ha : s.m_min_x = FP.fin a)
    (hb : s.m_max_x = FP.fin b) (hab : a < b) (hn : 2 ≤ s.m_samples) :
    graph_fn.x_scale s s.m_min_x = graph_fn.t s 0 := by
  have hba : b - a ≠ 0 := sub_ne_zero.mpr (ne_of_gt hab)
  rw [graph_fn.t_fin s a b ha hb hab hn 0]
  simp [graph_fn.x_scale, ha, hb, FP.ofInt, FP.div_fin _ _ hba]

theorem graph_fn.series_path_eq (s : graph_fn) (a b : ℚ) (ha : s.m_min_x = FP.fin a)
    (hb : s.m_max_x = FP.fin b) (hab : a < b) (hn : 2 ≤ s.m_samples) (v : List FP)
    (stroke : String) (hv : 0 < v.length) :
    graph_fn.series_path s v stroke = .ok (graph_fn.series_polyline s v stroke) := by
  have hc : collect (fun j =>
      match at_index v j with
      | .error e => .error e
      | .ok vj => (.ok (Svg.path_line j (graph_fn.t s j) (graph_fn.y_scale s vj)) :
          Except Fault Svg)) (List.range' 1 (v.length - 1))
      = .ok ((List.range' 1 (v.length - 1)).map (fun j =>
          Svg.path_line j (graph_fn.t s j) (graph_fn.y_scale s (v.getD j FP.nan)))) := by
    apply collect_ok
    intro j hj
    have hj2 : j < v.length := by
      have := (List.mem_range'_1.mp hj).2
      omega
    simp [at_index_of_lt v j hj2]
  have hr : List.range v.length = 0 :: List.range' 1 (v.length - 1) := by
    obtain ⟨k, hk⟩ : ∃ k, v.length = k + 1 := ⟨v.length - 1, by omega⟩
    rw [hk, List.range_eq_range', List.range'_succ]
    simp
  have hm : (List.range' 1 (v.length - 1)).map (fun j =>
        (if j = 0 then Svg.path_move else Svg.path_line) j (graph_fn.t s j)
          (graph_fn.y_scale s (v.getD j FP.nan)))
      = (List.range' 1 (v.length - 1)).map (fun j =>
          Svg.path_line j (graph_fn.t s j) (graph_fn.y_scale s (v.getD j FP.nan))) := by
    apply List.map_congr_left
    intro j hj
    have hj1 : j ≠ 0 := by
      have := (List.mem_range'_1.mp hj).1
      omega
    simp [hj1]
  simp only [graph_fn.series_path, graph_fn.series_polyline, at_index_of_lt v 0 hv, hc, hr,
    List.map_cons, hm, graph_fn.x_scale_min s a b ha hb hab hn, if_true, List.cons_append]

theorem graph_fn.series_paths_eq (s : graph_fn) (a b : ℚ) (ha : s.m_min_x = FP.fin a)
    (hb : s.m_max_x = FP.fin b) (hab : a < b) (hn : 2 ≤ s.m_samples)
    (hcol : s.m_connect_color.length = s.m_dataset.length)
    (hlen : ∀ v ∈ s.m_dataset, v.length = s.m_samples) :
    graph_fn.series_paths s
      = .ok ((List.range s.m_dataset.length).map (fun i =>
          graph_fn.series_polyline s (s.m_dataset.getD i [])
            (s.m_connect_color.getD i ""))).flatten := by
  have hc : collect (fun i =>
      match s.m_dataset[i]?, s.m_connect_color[i]? with
      | some v, some stroke => graph_fn.series_path s v stroke
      | _, _ => .error .out_of_range) (List.range s.m_dataset.length)
      = .ok ((List.range s.m_dataset.length).map (fun i =>
          graph_fn.series_polyline s (s.m_dataset.getD i []) (s.m_connect_color.getD i ""))) := by
    apply collect_ok
    intro i hi
    have hi1 : i < s.m_dataset.length := List.mem_range.mp hi
    have hi2 : i < s.m_connect_color.length := by omega
    have hv : 0 < (s.m_dataset[i]).length := by
      have := hlen _ (List.getElem_mem hi1)
      omega
    simp only [List.getElem?_eq_getElem hi1, List.getElem?_eq_getElem hi2,
      List.getD_eq_getElem?_getD, Option.getD_some]
    exact graph_fn.series_path_eq s a b ha hb hab hn _ _ hv
  simp only [graph_fn.series_paths, hc]

theorem graph_fn.series_polyline_vertices (s : graph_fn) (v : List FP) (stroke : String) :
    ((graph_fn.series_polyline s v stroke).filter Svg.is_vertex).length = v.length := by
  have h : ∀ l : List Nat, ((l.map (fun j =>
      (if j = 0 then Svg.path_move else Svg.path_line) j (graph_fn.t s j)
        (graph_fn.y_scale s (v.getD j FP.nan)))).filter Svg.is_vertex).length = l.length := by
    intro l
    induction l with
    | nil => rfl
    | cons j l ih =>
      by_cases hj : j = 0 <;>
        simp [-List.getD_eq_getElem?_getD, hj, Svg.is_vertex, ih]
  simp [-List.getD_eq_getElem?_getD, graph_fn.series_polyline, List.filter_append, h,
    Svg.is_vertex]

theorem graph_fn.add_fn_loop_length (s : graph_fn) (f : FP → FP) (l : List Nat)
    (acc : List FP × FP × FP) :
    (l.foldl (graph_fn.add_fn_body s f) acc).1.length = acc.1.length + l.length := by
  induction l generalizing acc with
  | nil => rfl
  | cons i l ih =>
    rw [List.foldl_cons, ih]
    simp [graph_fn.add_fn_body]
    omega

/-- The constructor returns a plot in the collecting state, over the requested domain. -/
theorem graph_fn.ctor_collecting (d : Detail) (x_min x_max : FP) (title filename : String)
    (samples : Nat) (width : Int) (min_y0 max_y0 : FP) (s : graph_fn)
    (ndebug : Bool)
    (h : graph_fn.ctor ndebug d x_min x_max title filename samples width min_y0 max_y0
      = .ok s) :
    graph_fn.collecting s ∧ s.m_min_x = x_min ∧ s.m_max_x = x_max ∧ s.m_samples = samples
      ∧ s.m_graph_width = width - 25 - 20 := by
  unfold graph_fn.ctor at h
  split at h
  · injection h with h
    subst h
    simp [graph_fn.collecting, ofstream.put]
  · cases h

/-- In the collecting state `add_fn` returns normally and keeps the plot collecting, over
the same domain. -/
theorem graph_fn.add_fn_collecting (s : graph_fn) (f : FP → FP) (color : String)
    (h : graph_fn.collecting s) :
    (graph_fn.add_fn s f color).1 = .ok ()
      ∧ graph_fn.collecting (graph_fn.add_fn s f color).2
      ∧ (graph_fn.add_fn s f color).2.m_min_x = s.m_min_x
      ∧ (graph_fn.add_fn s f color).2.m_max_x = s.m_max_x
      ∧ (graph_fn.add_fn s f color).2.m_samples = s.m_samples
      ∧ (graph_fn.add_fn s f color).2.m_graph_width = s.m_graph_width := by
  obtain ⟨h1, h2, h3, h4⟩ := h
  have he : graph_fn.add_fn s f color
      = (.ok (),
          { s with
            cout := s.cout ++ ["Ok!"]
            m_min_y := ((List.range s.m_samples).foldl
              (graph_fn.add_fn_body { s with cout := s.cout ++ ["Ok!"] } f)
              ([], s.m_min_y, s.m_max_y)).2.1
            m_max_y := ((List.range s.m_samples).foldl
              (graph_fn.add_fn_body { s with cout := s.cout ++ ["Ok!"] } f)
              ([], s.m_min_y, s.m_max_y)).2.2
            m_dataset := s.m_dataset ++ [((List.range s.m_samples).foldl
              (graph_fn.add_fn_body { s with cout := s.cout ++ ["Ok!"] } f)
              ([], s.m_min_y, s.m_max_y)).1]
            m_connect_color := s.m_connect_color ++ [color] }) := by
    simp only [graph_fn.add_fn, h2, Bool.false_eq_true, if_false]
  rw [he]
  refine ⟨rfl, ⟨h1, h2, by simp [h3], ?_⟩, rfl, rfl, rfl, rfl⟩
  intro v hv
  rcases List.mem_append.mp hv with hv | hv
  · exact h4 v hv
  · rw [List.mem_singleton.mp hv, graph_fn.add_fn_loop_length]
    simp

/-- In exact arithmetic, for a `graph_fn` over `[a, b]` with `a < b`, `n >= 2` samples and a
positive graph width, `write_all` returns and writes, after the frame, one polyline per series, in
insertion order; each polyline has exactly `n` vertices, vertex `j` at pixel abscissa
`x_scale(x_min + j*step) = j/(n-1) * graph_width`; the first vertex is at pixel 0, the last
at the graph width, and the pixel abscissa increases strictly along the polyline. -/
theorem exact_polylines (d : Detail) (s : graph_fn) (a b : ℚ) (n : Nat)
    (ha : s.m_min_x = FP.fin a) (hb : s.m_max_x = FP.fin b) (hab : a < b) (hn : 2 ≤ n)
    (hs : s.m_samples = n) (hw : 0 < s.m_graph_width) (hopen : s.m_fs.is_open = true)
    (hcol : s.m_connect_color.length = s.m_dataset.length)
    (hlen : ∀ v ∈ s.m_dataset, v.length = n) :
    (graph_fn.write_all d s).1 = .ok ()
      ∧ (graph_fn.write_all d s).2.m_fs.content
        = s.m_fs.content ++ graph_fn.frame d s
          ++ ((List.range s.m_dataset.length).map (fun i =>
              graph_fn.series_polyline s (s.m_dataset.getD i [])
                (s.m_connect_color.getD i ""))).flatten
          ++ [Svg.document_close]
      ∧ (∀ v ∈ s.m_dataset, ∀ stroke,
          ((graph_fn.series_polyline s v stroke).filter Svg.is_vertex).length = n)
      ∧ (∀ j, graph_fn.t s j = FP.fin ((j : ℚ) / ((n : ℚ) - 1) * (s.m_graph_width : ℚ)))
      ∧ graph_fn.t s 0 = FP.fin 0
      ∧ graph_fn.t s (n - 1) = FP.ofInt s.m_graph_width
      ∧ ∀ i j, i < j → j < n → FP.lt (graph_fn.t s i) (graph_fn.t s j) = true := by
  subst hs
  have h2 : (2 : ℚ) ≤ (s.m_samples : ℚ) := by exact_mod_cast hn
  have hpos : (0 : ℚ) < (s.m_samples : ℚ) - 1 := by linarith
  have hwq : (0 : ℚ) < (s.m_graph_width : ℚ) := by exact_mod_cast hw
  have ht := graph_fn.t_fin s a b ha hb hab hn
  have hsp := graph_fn.series_paths_eq
    { s with m_fs := s.m_fs.put (graph_fn.frame d s) } a b ha hb hab hn hcol hlen
  refine ⟨?_, ?_, ?_, ht, ?_, ?_, ?_⟩
  · simp only [graph_fn.write_all, hsp]
  · simp only [graph_fn.write_all, hsp]
    simp only [ofstream.put, ofstream.close, hopen, if_true, List.append_assoc]
    rfl
  · intro v hv stroke
    rw [graph_fn.series_polyline_vertices, hlen v hv]
  · rw [ht 0]
    simp
  · rw [ht (s.m_samples - 1), FP.ofInt]
    congr 1
    have hc : ((s.m_samples - 1 : Nat) : ℚ) = (s.m_samples : ℚ) - 1 := by
      rw [Nat.cast_sub (by omega)]
      simp
    rw [hc, div_self (ne_of_gt hpos), one_mul]
  · intro i j hij _
    rw [ht i, ht j]
    simp only [FP.lt, decide_eq_true_eq]
    have hq : (i : ℚ) < (j : ℚ) := by exact_mod_cast hij
    have : (i : ℚ) / ((s.m_samples : ℚ) - 1) < (j : ℚ) / ((s.m_samples : ℚ) - 1) :=
      div_lt_div_of_pos_right hq hpos
    exact mul_lt_mul_of_pos_right this hwq

/-- The file written for the sample function plot: `f(x) = x` on `[0, 10]`, 5 samples. -/
theorem demo_graph_written :
    (graph_fn.write_all demo_detail demo_graph_1).2.m_fs.content
      = [Svg.foreign "prelude" [], Svg.group_open 25 40,
          Svg.line (FP.fin 0) (FP.fin 0) (FP.fin 0) (FP.fin 619) false,
          Svg.line (FP.fin 0) (FP.fin 619) (FP.fin 1055) (FP.fin 619) false,
          Svg.foreign "gridlines" [],
          Svg.path_move 0 (FP.fin 0) (FP.fin 619),
          Svg.path_line 1 (FP.fin (1055 / 4)) (FP.fin (1857 / 4)),
          Svg.path_line 2 (FP.fin (1055 / 2)) (FP.fin (619 / 2)),
          Svg.path_line 3 (FP.fin (3165 / 4)) (FP.fin (619 / 4)),
          Svg.path_line 4 (FP.fin 1055) (FP.fin 0),
          Svg.path_close "steelblue" 3, Svg.document_close] := by
  decide!

/-! ## Invalid conditioning samples among the envelope vertices -/

/-- C10 at a failing input: the reference is 0 at the first sample, so `cond_[0]` is NaN;
`write` completes, and the first envelope path starts with a move-to drawn for sample 0,
at ordinate `y_scale(NaN) = NaN`. -/
theorem envelope_starts_on_zero_ordinate :
    zero_first_plot_1.precise_ordinates_[0]? = some (FP.fin 0)
      ∧ zero_first_plot_1.cond_[0]? = some FP.nan
      ∧ (ulp_plot.write demo_detail demo_env zero_first_plot_1 "demo.svg" (-1) true "" 1100
          8 10 no_files).1 = .ok ()
      ∧ ((((ulp_plot.write demo_detail demo_env zero_first_plot_1 "demo.svg" (-1) true ""
          1100 8 10 no_files).2 "demo.svg").getD []).filter Svg.is_vertex).head?
        = some (Svg.path_move 0 (FP.fin (1065 / 16)) FP.nan) := by
  decide!

/-- The gap skip of the envelope at a second failing input: the reference is 0 at samples
5 and 7; after the invalid sample 5 the scan tests sample 6, steps once more, and starts
the next path on sample 7 without testing it, although `cond_[7]` is NaN. -/
theorem envelope_resumes_on_zero_ordinate :
    two_zero_plot_1.cond_[5]? = some FP.nan
      ∧ two_zero_plot_1.cond_[7]? = some FP.nan
      ∧ (ulp_plot.write demo_detail demo_env two_zero_plot_1 "demo.svg" 30 true "" 1100
          8 10 no_files).1 = .ok ()
      ∧ vertex_samples (ulp_plot.write demo_detail demo_env two_zero_plot_1 "demo.svg" 30
          true "" 1100 8 10 no_files).2 "demo.svg"
        = [some 0, some 1, some 2, some 3, some 4, some 7, some 8, some 9,
            some 0, some 1, some 2, some 3, some 4, some 7, some 8, some 9] := by
  decide!

/-! ## Writing a plot whose value range is degenerate -/

/-- What `write_all` returns for a plot in the collecting state over `[a, b]`: the frame,
one polyline per series and the closing tags are written, the stream is closed and the
plot is marked written. -/
theorem graph_fn.write_all_eq (d : Detail) (s : graph_fn) (a b : ℚ)
    (ha : s.m_min_x = FP.fin a) (hb : s.m_max_x = FP.fin b) (hab : a < b)
    (hn : 2 ≤ s.m_samples) (hopen : s.m_fs.is_open = true)
    (hcol : s.m_connect_color.length = s.m_dataset.length)
    (hlen : ∀ v ∈ s.m_dataset, v.length = s.m_samples) :
    graph_fn.write_all d s
      = (.ok (),
          { s with
            m_fs :=
              { path := s.m_fs.path
                is_open := false
                content := s.m_fs.content ++ graph_fn.frame d s
                  ++ ((List.range s.m_dataset.length).map (fun i =>
                      graph_fn.series_polyline s (s.m_dataset.getD i [])
                        (s.m_connect_color.getD i ""))).flatten
                  ++ [Svg.document_close] }
            m_is_written := true }) := by
  have hsp := graph_fn.series_paths_eq
    { s with m_fs := s.m_fs.put (graph_fn.frame d s) } a b ha hb hab hn hcol hlen
  simp only [graph_fn.write_all, hsp]
  simp only [ofstream.put, ofstream.close, hopen, if_true, List.append_assoc]
  rfl

/-- C11 (as the code behaves): `write_all` has no check of the value range.  For a plot
over `[a, b]` with `a < b` and `n >= 2` samples whose accumulated range is degenerate
(`m_max_y == m_min_y`, a finite value `c`) it returns normally, marks the plot written and
still writes one polyline of `n` vertices per series; the pixel ordinate it computes for a
sample equal to `c` is NaN. -/
theorem write_all_degenerate_range (d : Detail) (s : graph_fn) (a b c : ℚ) (n : Nat)
    (ha : s.m_min_x = FP.fin a) (hb : s.m_max_x = FP.fin b) (hab : a < b) (hn : 2 ≤ n)
    (hs : s.m_samples = n) (hopen : s.m_fs.is_open = true)
    (hcol : s.m_connect_color.length = s.m_dataset.length)
    (hlen : ∀ v ∈ s.m_dataset, v.length = n)
    (hmin : s.m_min_y = FP.fin c) (hmax : s.m_max_y = FP.fin c) :
    (graph_fn.write_all d s).1 = .ok ()
      ∧ (graph_fn.write_all d s).2.m_is_written = true
      ∧ (graph_fn.write_all d s).2.m_fs.content
        = s.m_fs.content ++ graph_fn.frame d s
          ++ ((List.range s.m_dataset.length).map (fun i =>
              graph_fn.series_polyline s (s.m_dataset.getD i [])
                (s.m_connect_color.getD i ""))).flatten
          ++ [Svg.document_close]
      ∧ (∀ v ∈ s.m_dataset, ∀ stroke,
          ((graph_fn.series_polyline s v stroke).filter Svg.is_vertex).length = n)
      ∧ graph_fn.y_scale s (FP.fin c) = FP.nan := by
  subst hs
  rw [graph_fn.write_all_eq d s a b ha hb hab hn hopen hcol hlen]
  refine ⟨rfl, rfl, rfl, ?_, ?_⟩
  · intro v hv stroke
    rw [graph_fn.series_polyline_vertices, hlen v hv]
  · simp [graph_fn.y_scale, hmin, hmax, FP.div, FP.mul]

theorem write_all_degenerate_range_witness :
    (graph_fn.write_all demo_detail flat_graph).1 = .ok ()
      ∧ (graph_fn.write_all demo_detail flat_graph).2.m_is_written = true
      ∧ (graph_fn.write_all demo_detail flat_graph).2.m_fs.content
        = flat_graph.m_fs.content ++ graph_fn.frame demo_detail flat_graph
          ++ ((List.range flat_graph.m_dataset.length).map (fun i =>
              graph_fn.series_polyline flat_graph (flat_graph.m_dataset.getD i [])
                (flat_graph.m_connect_color.getD i ""))).flatten
          ++ [Svg.document_close]
      ∧ (∀ v ∈ flat_graph.m_dataset, ∀ stroke,
          ((graph_fn.series_polyline flat_graph v stroke).filter Svg.is_vertex).length = 5)
      ∧ graph_fn.y_scale flat_graph (FP.fin 0) = FP.nan :=
  write_all_degenerate_range demo_detail flat_graph 0 10 0 5 rfl rfl (by norm_num)
    (by decide) rfl rfl rfl (by decide!) rfl rfl

/-- C11 fails as stated: after the single constant series `f(x) = 0` the range is
degenerate (`m_max_y == m_min_y`), yet `write_all` returns normally and writes the
polyline of the series, with all five pixel ordinates NaN. -/
theorem write_all_accepts_constant_series :
    flat_graph.m_dataset = [List.replicate 5 (FP.fin 0)]
      ∧ flat_graph.m_min_y = FP.fin 0
      ∧ flat_graph.m_max_y = FP.fin 0
      ∧ (graph_fn.write_all demo_detail flat_graph).1 = .ok ()
      ∧ (graph_fn.write_all demo_detail flat_graph).2.m_fs.content.filter Svg.is_vertex
        = [Svg.path_move 0 (FP.fin 0) FP.nan, Svg.path_line 1 (FP.fin (1055 / 4)) FP.nan,
            Svg.path_line 2 (FP.fin (1055 / 2)) FP.nan,
            Svg.path_line 3 (FP.fin (3165 / 4)) FP.nan,
            Svg.path_line 4 (FP.fin 1055) FP.nan] := by
  decide!

/-! ## Finalizing twice -/

theorem FileSys.store_store (files : FileSys) (filename : String) (xs : List Svg) :
    (files.store filename xs).store filename xs = files.store filename xs := by
  funext f
  by_cases h : f = filename <;> simp [FileSys.store, h]

/-- A second `write_all` on a written plot changes nothing: the stream is closed, so
everything inserted into it is dropped. -/
theorem graph_fn.write_all_twice (d : Detail) (s : graph_fn)
    (h : (graph_fn.write_all d s).1 = .ok ()) :
    graph_fn.write_all d (graph_fn.write_all d s).2 = (.ok (), (graph_fn.write_all d s).2) := by
  cases hsp : graph_fn.series_paths { s with m_fs := s.m_fs.put (graph_fn.frame d s) } with
  | error e =>
    simp only [graph_fn.write_all, hsp] at h
    cases h
  | ok ps =>
    have h1 : graph_fn.write_all d s
        = (.ok (),
            { s with
              m_fs := (((s.m_fs.put (graph_fn.frame d s)).put ps).put
                [Svg.document_close]).close
              m_is_written := true }) := by
      simp only [graph_fn.write_all, hsp]
    rw [h1]
    have hsp2 : graph_fn.series_paths
        { s with
          m_fs := ((((s.m_fs.put (graph_fn.frame d s)).put ps).put
            [Svg.document_close]).close).put
              (graph_fn.frame d
                { s with
                  m_fs := (((s.m_fs.put (graph_fn.frame d s)).put ps).put
                    [Svg.document_close]).close
                  m_is_written := true })
          m_is_written := true } = .ok ps := hsp
    simp only [graph_fn.write_all, hsp2]
    simp [ofstream.put, ofstream.close]

/-- A second `write` with the same arguments has the outcome of the first and leaves the
files as the first left them: the file is opened anew and receives the same commands. -/
theorem ulp_plot.write_twice (d : Detail) (E : Env) (p : ulp_plot) (filename : String)
    (clip : Int) (ulp_envelope : Bool) (title : String)
    (width horizontal_lines vertical_lines : Int) (files : FileSys) :
    ulp_plot.write d E p filename clip ulp_envelope title width horizontal_lines
        vertical_lines
        (ulp_plot.write d E p filename clip ulp_envelope title width horizontal_lines
          vertical_lines files).2
      = ulp_plot.write d E p filename clip ulp_envelope title width horizontal_lines
          vertical_lines files := by
  by_cases h0 : p.ulp_list_.length = 0
  · simp only [ulp_plot.write, h0, if_true]
  · by_cases h1 : width ≤ 1
    · simp only [ulp_plot.write, h0, h1, if_true, if_false]
    · simp only [ulp_plot.write, h0, h1, if_false]
      generalize ulp_plot.scatter p clip _ _ = sc
      cases sc with
      | error e => simp only [FileSys.store_store]
      | ok points =>
        simp only
        generalize (if ulp_envelope = true then ulp_plot.envelope p clip _ _
          else Except.ok []) = en
        cases en <;> simp only [FileSys.store_store]

/-- C12: finalizing twice duplicates nothing.  A second `graph_fn::write_all` after a
completed first one is a no-op (the object, its stream content included, is unchanged), and
a second `ulp_plot::write` with the same arguments returns what the first returned and
leaves every file, the output file included, exactly as the first call left it. -/
theorem finalize_twice (d : Detail) (s : graph_fn) (E : Env) (p : ulp_plot)
    (filename : String) (clip : Int) (ulp_envelope : Bool) (title : String)
    (width horizontal_lines vertical_lines : Int) (files : FileSys)
    (h : (graph_fn.write_all d s).1 = .ok ()) :
    graph_fn.write_all d (graph_fn.write_all d s).2 = (.ok (), (graph_fn.write_all d s).2)
      ∧ (graph_fn.write_all d (graph_fn.write_all d s).2).2.m_fs.content
        = (graph_fn.write_all d s).2.m_fs.content
      ∧ ulp_plot.write d E p filename clip ulp_envelope title width horizontal_lines
          vertical_lines
          (ulp_plot.write d E p filename clip ulp_envelope title width horizontal_lines
            vertical_lines files).2
        = ulp_plot.write d E p filename clip ulp_envelope title width horizontal_lines
            vertical_lines files := by
  refine ⟨graph_fn.write_all_twice d s h, ?_, ulp_plot.write_twice d E p filename clip
    ulp_envelope title width horizontal_lines vertical_lines files⟩
  rw [graph_fn.write_all_twice d s h]

theorem finalize_twice_witness :
    graph_fn.write_all demo_detail (graph_fn.write_all demo_detail demo_graph_1).2
        = (.ok (), (graph_fn.write_all demo_detail demo_graph_1).2)
      ∧ (graph_fn.write_all demo_detail
          (graph_fn.write_all demo_detail demo_graph_1).2).2.m_fs.content
        = (graph_fn.write_all demo_detail demo_graph_1).2.m_fs.content
      ∧ ulp_plot.write demo_detail demo_env demo_plot_1 "demo.svg" 3 true "" 1100 8 10
          (ulp_plot.write demo_detail demo_env demo_plot_1 "demo.svg" 3 true "" 1100 8 10
            no_files).2
        = ulp_plot.write demo_detail demo_env demo_plot_1 "demo.svg" 3 true "" 1100 8 10
            no_files :=
  finalize_twice demo_detail demo_graph_1 demo_env demo_plot_1 "demo.svg" 3 true "" 1100 8 10
    no_files (by decide!)

/-! ## The global ordinate range of the function plot -/

/-- C13 at a failing input: the constructor leaves `m_min_y` and `m_max_y` uninitialised;
when both happen to hold 0, adding `f(x) = x + 1` on `[0, 10]` buffers ordinates from 1 to
11, but `m_min_y` stays 0, which is not the minimum of the buffered data. -/
theorem range_keeps_uninitialised_minimum :
    graph_fn.ctor false demo_detail (FP.fin 0) (FP.fin 10) "demo" "demo.svg" 5 1100 (FP.fin 0)
        (FP.fin 0) = .ok demo_graph
      ∧ (graph_fn.add_fn demo_graph (fun x => FP.add x (FP.fin 1)) "steelblue").1 = .ok ()
      ∧ shifted_graph.m_dataset
        = [[FP.fin 1, FP.fin (7 / 2), FP.fin 6, FP.fin (17 / 2), FP.fin 11]]
      ∧ shifted_graph.m_min_y = FP.fin 0
      ∧ shifted_graph.m_max_y = FP.fin 11 := by
  decide!

/-! ## The conditioning sequence -/

theorem FP.ne_fin_zero (y : FP) : FP.ne y (FP.fin 0) = true ↔ y ≠ FP.fin 0 := by
  cases y <;> simp [FP.ne]

theorem ulp_plot.cond_entry_zero (E : Env) (hi_acc_impl : FP → FP) (x : FP) :
    ulp_plot.cond_entry E hi_acc_impl (FP.fin 0) x = FP.nan := by
  simp [ulp_plot.cond_entry, FP.ne]

theorem ulp_plot.cond_entry_nonzero (E : Env) (hi_acc_impl : FP → FP) (y x : FP)
    (hy : y ≠ FP.fin 0) :
    ulp_plot.cond_entry E hi_acc_impl y x
      = FP.max (E.evaluation_condition_number hi_acc_impl x) (FP.fin (1 / 2)) := by
  have h : FP.ne y (FP.fin 0) = true := (FP.ne_fin_zero y).mpr hy
  simp only [ulp_plot.cond_entry, h, if_true, FP.max]

theorem FP.max_half_range (c : FP) :
    FP.max c (FP.fin (1 / 2)) = FP.nan
      ∨ FP.ge (FP.max c (FP.fin (1 / 2))) (FP.fin (1 / 2)) = true := by
  cases c with
  | nan => left; simp [FP.max, FP.lt]
  | ninf => right; simp [FP.max, FP.lt, FP.ge, FP.le]
  | pinf => right; simp [FP.max, FP.lt, FP.ge, FP.le]
  | fin q =>
    right
    by_cases hq : q < 1 / 2
    · simp only [FP.max, FP.lt, hq, decide_True, if_true, FP.ge, FP.le, decide_eq_true_eq]
      exact le_refl _
    · simp only [FP.max, FP.lt, hq, decide_False, Bool.false_eq_true, if_false, FP.ge, FP.le,
        decide_eq_true_eq]
      exact not_lt.mp hq

theorem ulp_plot.cond_entry_range (E : Env) (hi_acc_impl : FP → FP) (y x : FP) :
    ulp_plot.cond_entry E hi_acc_impl y x = FP.nan
      ∨ FP.ge (ulp_plot.cond_entry E hi_acc_impl y x) (FP.fin (1 / 2)) = true := by
  by_cases hy : y = FP.fin 0
  · left
    rw [hy, ulp_plot.cond_entry_zero]
  · rw [ulp_plot.cond_entry_nonzero E hi_acc_impl y x hy]
    exact FP.max_half_range _

/-- The vectors the constructor builds, in terms of the sorted abscissas. -/
theorem ulp_plot.ctor_ok (E : Env) (hi_acc_impl : FP → FP) (a b : FP)
    (perturb_abscissas : Bool) (samples : Nat) (random_seed : Int) (p : ulp_plot)
    (h : ulp_plot.ctor E hi_acc_impl a b perturb_abscissas samples random_seed = .ok p) :
    10 ≤ samples
      ∧ p.precise_abscissas_.length = samples
      ∧ p.coarse_abscissas_.length = samples
      ∧ p.precise_ordinates_ = p.precise_abscissas_.map hi_acc_impl
      ∧ p.cond_ = List.zipWith (ulp_plot.cond_entry E hi_acc_impl) p.precise_ordinates_
          p.precise_abscissas_
      ∧ p.ulp_list_ = [] ∧ p.colors_ = [] ∧ p.a_ = a ∧ p.b_ = b := by
  unfold ulp_plot.ctor at h
  split at h
  · cases h
  · split at h
    · cases h
    · injection h with h
      subst h
      refine ⟨by omega, ?_, ?_, rfl, rfl, rfl, rfl, rfl, rfl⟩ <;>
        cases perturb_abscissas <;> simp [sort_length]

/-- C14: in the conditioning sequence built by the constructor of `ulp_plot`, the entry of
sample `i` is NaN when the reference ordinate at `i` is exactly 0, and otherwise, for an
oracle value that is not NaN, the larger of the oracle value and 0.5; every entry is
either NaN or at least 0.5. -/
theorem cond_entries (E : Env) (hi_acc_impl : FP → FP) (a b : FP)
    (perturb_abscissas : Bool) (samples : Nat) (random_seed : Int) (p : ulp_plot)
    (h : ulp_plot.ctor E hi_acc_impl a b perturb_abscissas samples random_seed = .ok p) :
    p.cond_.length = samples
      ∧ ∀ i, i < samples →
          ∃ y x c, p.precise_ordinates_[i]? = some y ∧ p.precise_abscissas_[i]? = some x
            ∧ p.cond_[i]? = some c
            ∧ (y = FP.fin 0 → c = FP.nan)
            ∧ (y ≠ FP.fin 0 → E.evaluation_condition_number hi_acc_impl x ≠ FP.nan →
                c = FP.max (E.evaluation_condition_number hi_acc_impl x) (FP.fin (1 / 2)))
            ∧ (c = FP.nan ∨ FP.ge c (FP.fin (1 / 2)) = true) := by
  obtain ⟨_, hx, _, hy, hc, _⟩ := ulp_plot.ctor_ok E hi_acc_impl a b perturb_abscissas samples
    random_seed p h
  constructor
  · rw [hc, hy]
    simp [hx]
  · intro i hi
    have hix : i < p.precise_abscissas_.length := by omega
    refine ⟨hi_acc_impl p.precise_abscissas_[i], p.precise_abscissas_[i],
      ulp_plot.cond_entry E hi_acc_impl (hi_acc_impl p.precise_abscissas_[i])
        p.precise_abscissas_[i], ?_, ?_, ?_, ?_, ?_, ?_⟩
    · rw [hy]
      simp [List.getElem?_eq_getElem hix]
    · exact List.getElem?_eq_getElem hix
    · rw [hc, hy]
      simp [List.getElem?_zipWith, List.getElem?_eq_getElem hix]
    · intro h0
      rw [h0, ulp_plot.cond_entry_zero]
    · intro hne _
      exact ulp_plot.cond_entry_nonzero E hi_acc_impl _ _ hne
    · exact ulp_plot.cond_entry_range E hi_acc_impl _ _

theorem cond_entries_witness :
    demo_plot.cond_.length = 10
      ∧ ∀ i, i < 10 →
          ∃ y x c, demo_plot.precise_ordinates_[i]? = some y
            ∧ demo_plot.precise_abscissas_[i]? = some x
            ∧ demo_plot.cond_[i]? = some c
            ∧ (y = FP.fin 0 → c = FP.nan)
            ∧ (y ≠ FP.fin 0 →
                demo_env.evaluation_condition_number demo_reference x ≠ FP.nan →
                c = FP.max (demo_env.evaluation_condition_number demo_reference x)
                  (FP.fin (1 / 2)))
            ∧ (c = FP.nan ∨ FP.ge c (FP.fin (1 / 2)) = true) :=
  cond_entries demo_env demo_reference (FP.fin 1) (FP.fin 2) true 10 (-1) demo_plot
    (by decide!)

/-! ## The signed error of a candidate -/

/-- The errors stored for the sample candidate: one unit too high on the first five
samples, two units too low on the last five. -/
theorem demo_plot_candidate_errors :
    demo_plot_1.ulp_list_
      = [[FP.fin 1, FP.fin 1, FP.fin 1, FP.fin 1, FP.fin 1, FP.fin (-2), FP.fin (-2),
          FP.fin (-2), FP.fin (-2), FP.fin (-2)]] := by
  decide!

/-! ## The loops of the envelope -/

theorem at_index_ok (v : List FP) (j : Nat) (x : FP) (h : at_index v j = .ok x) :
    j < v.length ∧ x = v.getD j FP.nan := by
  by_cases hj : j < v.length
  · rw [at_index_of_lt v j hj] at h
    injection h with h
    exact ⟨hj, h.symm⟩
  · have hn : v[j]? = none := List.getElem?_eq_none (not_lt.mp hj)
    simp [at_index, hn] at h

theorem ulp_plot.size_minus_2_le (p : ulp_plot) (h : 2 ≤ p.coarse_abscissas_.length) :
    ulp_plot.size_minus_2 p ≤ p.coarse_abscissas_.length := by
  unfold ulp_plot.size_minus_2
  by_cases hb : p.coarse_abscissas_.length < 2 ^ 64
  · have : (p.coarse_abscissas_.length + 2 ^ 64 - 2) % 2 ^ 64
        = p.coarse_abscissas_.length - 2 := by
      have h3 : p.coarse_abscissas_.length + 2 ^ 64 - 2
          = (p.coarse_abscissas_.length - 2) + 2 ^ 64 := by omega
      rw [h3, Nat.add_mod_right, Nat.mod_eq_of_lt (by omega)]
    omega
  · have := Nat.mod_lt (p.coarse_abscissas_.length + 2 ^ 64 - 2) (by norm_num : 0 < 2 ^ 64)
    omega

/-- The gap-skip loop never moves backwards. -/
theorem ulp_plot.gap_skip_ge (p : ulp_plot) (clip : Int) :
    ∀ (fuel j : Nat) (bad : Bool) (j2 : Nat),
      ulp_plot.gap_skip p clip fuel j bad = .ok j2 → j ≤ j2 := by
  intro fuel
  induction fuel with
  | zero =>
    intro j bad j2 h
    simp [ulp_plot.gap_skip] at h
  | succ fuel ih =>
    intro j bad j2 h
    rw [ulp_plot.gap_skip] at h
    split at h
    · split at h
      · cases h
      · have := ih _ _ _ h
        omega
    · injection h with h
      omega

/-- The gap-skip loop returns when it is given enough turns and its bound lies within
`cond_`. -/
theorem ulp_plot.gap_skip_returns (p : ulp_plot) (clip : Int)
    (hs : ulp_plot.size_minus_2 p ≤ p.cond_.length) :
    ∀ (fuel j : Nat) (bad : Bool), ulp_plot.size_minus_2 p - j < fuel →
      ∃ j2, ulp_plot.gap_skip p clip fuel j bad = .ok j2 := by
  intro fuel
  induction fuel with
  | zero =>
    intro j bad h
    omega
  | succ fuel ih =>
    intro j bad h
    rw [ulp_plot.gap_skip]
    split
    · rename_i hc
      have hj : j < ulp_plot.size_minus_2 p := by
        simp only [Bool.and_eq_true, decide_eq_true_eq] at hc
        exact hc.1
      rw [at_index_of_lt p.cond_ j (by omega)]
      exact ih (j + 1) _ (by omega)
    · exact ⟨j, rfl⟩

/-- What one run of the `for` loop writes: a line-to for each of `k` consecutive valid
samples from `j` on, then the closing attributes; it ends at the end of the data or on
the invalid sample `j + k`, with a new start beyond it. -/
theorem ulp_plot.path_loop_shape (p : ulp_plot) (clip : Int) (xs ys : FP → FP)
    (lower : Bool) :
    ∀ (fuel j : Nat) (cmds : List Svg) (next : Option Nat),
      ulp_plot.path_loop p clip xs ys lower fuel j = .ok (cmds, next) →
      ∃ k, cmds = (List.range' j k).map (ulp_plot.envelope_line p xs ys lower)
            ++ [ulp_plot.close_path]
        ∧ (∀ i, j ≤ i → i < j + k →
            i < p.coarse_abscissas_.length ∧ i < p.cond_.length
              ∧ ulp_plot.is_bad clip (p.cond_.getD i FP.nan) = false)
        ∧ (next = none → p.coarse_abscissas_.length ≤ j + k)
        ∧ (∀ j2, next = some j2 →
            j + k < j2 ∧ j + k < p.coarse_abscissas_.length
              ∧ ulp_plot.is_bad clip (p.cond_.getD (j + k) FP.nan) = true) := by
  intro fuel
  induction fuel with
  | zero =>
    intro j cmds next h
    simp [ulp_plot.path_loop] at h
  | succ fuel ih =>
    intro j cmds next h
    rw [ulp_plot.path_loop] at h
    split at h
    · rename_i hj
      split at h
      · cases h
      · rename_i c hc
        obtain ⟨hjc, hcv⟩ := at_index_ok _ _ _ hc
        split at h
        · rename_i hbad
          split at h
          · cases h
          · rename_i j2 hg
            injection h with h
            injection h with h1 h2
            refine ⟨0, by simp [← h1], ?_, ?_, ?_⟩
            · intro i hi1 hi2
              omega
            · intro hn
              rw [← h2] at hn
              cases hn
            · intro j3 hj3
              rw [← h2] at hj3
              injection hj3 with hj3
              have := ulp_plot.gap_skip_ge p clip _ _ _ _ hg
              refine ⟨by omega, by omega, ?_⟩
              rw [Nat.add_zero, ← hcv]
              exact hbad
        · rename_i hbad
          split at h
          · cases h
          · rename_i x hx
            obtain ⟨_, hxv⟩ := at_index_ok _ _ _ hx
            split at h
            · cases h
            · rename_i cmds2 next2 hr
              injection h with h
              injection h with h1 h2
              obtain ⟨k, hk1, hk2, hk3, hk4⟩ := ih _ _ _ hr
              refine ⟨k + 1, ?_, ?_, ?_, ?_⟩
              · rw [← h1, hk1, List.range'_succ, List.map_cons, List.cons_append]
                simp only [ulp_plot.envelope_line, ← hxv, ← hcv]
              · intro i hi1 hi2
                by_cases hij : i = j
                · subst hij
                  refine ⟨hj, hjc, ?_⟩
                  rw [← hcv]
                  simpa using hbad
                · exact hk2 i (by omega) (by omega)
              · intro hn
                have := hk3 (by rw [h2, hn])
                omega
              · intro j3 hj3
                have := hk4 j3 (by rw [h2, hj3])
                have e : j + (k + 1) = j + 1 + k := by omega
                rw [e]
                exact this
    · rename_i hj
      injection h with h
      injection h with h1 h2
      refine ⟨0, by simp [← h1], ?_, ?_, ?_⟩
      · intro i hi1 hi2
        omega
      · intro _
        omega
      · intro j3 hj3
        rw [← h2] at hj3
        cases hj3

/-- The `for` loop of a path returns when it is given enough turns. -/
theorem ulp_plot.path_loop_returns (p : ulp_plot) (clip : Int) (xs ys : FP → FP)
    (lower : Bool) (hc : p.cond_.length = p.coarse_abscissas_.length)
    (hs : ulp_plot.size_minus_2 p ≤ p.cond_.length) :
    ∀ (fuel j : Nat), p.coarse_abscissas_.length - j < fuel →
      ∃ cmds next, ulp_plot.path_loop p clip xs ys lower fuel j = .ok (cmds, next) := by
  intro fuel
  induction fuel with
  | zero =>
    intro j h
    omega
  | succ fuel ih =>
    intro j h
    rw [ulp_plot.path_loop]
    split
    · rename_i hj
      rw [at_index_of_lt p.cond_ j (by omega), at_index_of_lt p.coarse_abscissas_ j hj]
      simp only
      split
      · obtain ⟨j2, hg⟩ := ulp_plot.gap_skip_returns p clip hs (ulp_plot.budget p) (j + 1)
          true (by unfold ulp_plot.budget; omega)
        rw [hg]
        exact ⟨_, _, rfl⟩
      · obtain ⟨cmds, next, hr⟩ := ih (j + 1) (by omega)
        rw [hr]
        exact ⟨_, _, rfl⟩
    · exact ⟨_, _, rfl⟩

/-- The `for` loop of a path does the same for both envelopes: the same number `k` of
line-to commands, for the same samples, and the same way of leaving. -/
theorem ulp_plot.path_loop_both (p : ulp_plot) (clip : Int) (xs ys : FP → FP)
    (lower lower2 : Bool) :
    ∀ (fuel j : Nat) (cmds : List Svg) (next : Option Nat),
      ulp_plot.path_loop p clip xs ys lower fuel j = .ok (cmds, next) →
      ∃ k, cmds = (List.range' j k).map (ulp_plot.envelope_line p xs ys lower)
            ++ [ulp_plot.close_path]
        ∧ ulp_plot.path_loop p clip xs ys lower2 fuel j
          = .ok ((List.range' j k).map (ulp_plot.envelope_line p xs ys lower2)
              ++ [ulp_plot.close_path], next) := by
  intro fuel
  induction fuel with
  | zero =>
    intro j cmds next h
    simp [ulp_plot.path_loop] at h
  | succ fuel ih =>
    intro j cmds next h
    rw [ulp_plot.path_loop] at h ⊢
    by_cases hj : j < p.coarse_abscissas_.length
    · simp only [hj, if_true] at h ⊢
      cases hc : at_index p.cond_ j with
      | error e => simp [hc] at h
      | ok c =>
        obtain ⟨_, hcv⟩ := at_index_ok _ _ _ hc
        simp only [hc] at h ⊢
        by_cases hbad : ulp_plot.is_bad clip c = true
        · simp only [hbad, if_true] at h ⊢
          cases hg : ulp_plot.gap_skip p clip (ulp_plot.budget p) (j + 1) true with
          | error e => simp [hg] at h
          | ok j2 =>
            simp only [hg] at h ⊢
            injection h with h
            injection h with h1 h2
            exact ⟨0, by simp [← h1], by simp [h2]⟩
        · simp only [hbad, Bool.false_eq_true, if_false] at h ⊢
          cases hx : at_index p.coarse_abscissas_ j with
          | error e => simp [hx] at h
          | ok x =>
            obtain ⟨_, hxv⟩ := at_index_ok _ _ _ hx
            simp only [hx] at h ⊢
            cases hr : ulp_plot.path_loop p clip xs ys lower fuel (j + 1) with
            | error e => simp [hr] at h
            | ok r =>
              obtain ⟨cmds3, next3⟩ := r
              simp only [hr] at h
              obtain ⟨k, hk1, hk2⟩ := ih _ _ _ hr
              simp only [hk2]
              injection h with h
              injection h with h1 h2
              refine ⟨k + 1, ?_, ?_⟩
              · rw [← h1, hk1, List.range'_succ, List.map_cons, List.cons_append]
                simp only [ulp_plot.envelope_line, ← hxv, ← hcv]
              · rw [h2, List.range'_succ, List.map_cons, List.cons_append]
                simp only [ulp_plot.envelope_line, ← hxv, ← hcv]
    · simp only [hj, if_false] at h ⊢
      injection h with h
      injection h with h1 h2
      exact ⟨0, by simp [← h1], by simp [h2]⟩

/-- What the upper pass writes: one unbroken path per run; when control then falls
through to the lower pass, that pass writes the paths of the same runs. -/
theorem ulp_plot.new_top_path_runs (p : ulp_plot) (clip : Int) (xs ys : FP → FP) :
    ∀ (fuel jmin : Nat) (cmds : List Svg) (through : Bool),
      ulp_plot.new_top_path p clip xs ys fuel jmin = .ok (cmds, through) →
      ∃ runs, cmds = ulp_plot.envelope_runs p xs ys false runs
        ∧ (through = true →
            ulp_plot.new_bottom_path p clip xs ys fuel jmin
              = .ok (ulp_plot.envelope_runs p xs ys true runs)) := by
  intro fuel
  induction fuel with
  | zero =>
    intro jmin cmds through h
    simp [ulp_plot.new_top_path] at h
  | succ fuel ih =>
    intro jmin cmds through h
    rw [ulp_plot.new_top_path] at h
    rw [ulp_plot.new_bottom_path]
    by_cases hg : p.cond_.length ≤ jmin
    · simp only [hg, if_true] at h
      injection h with h
      injection h with h1 h2
      refine ⟨[], by simp [← h1, ulp_plot.envelope_runs], ?_⟩
      intro ht
      rw [ht] at h2
      cases h2
    · simp only [hg, if_false] at h
      cases hx : at_index p.coarse_abscissas_ jmin with
      | error e => simp [hx] at h
      | ok x =>
        obtain ⟨_, hxv⟩ := at_index_ok _ _ _ hx
        cases hc : at_index p.cond_ jmin with
        | error e => simp [hx, hc] at h
        | ok c =>
          obtain ⟨_, hcv⟩ := at_index_ok _ _ _ hc
          simp only [hx, hc] at h ⊢
          cases hr : ulp_plot.path_loop p clip xs ys false (ulp_plot.budget p) (jmin + 1) with
          | error e => simp [hr] at h
          | ok r =>
            obtain ⟨cmds1, next⟩ := r
            obtain ⟨k, hk1, hk2⟩ := ulp_plot.path_loop_both p clip xs ys false true _ _ _ _ hr
            simp only [hr] at h
            simp only [hk2]
            cases next with
            | none =>
              simp only at h ⊢
              injection h with h
              injection h with h1 h2
              refine ⟨[(jmin, k)], ?_, ?_⟩
              · rw [← h1, hk1]
                simp [-List.getD_eq_getElem?_getD, ulp_plot.envelope_runs,
                  ulp_plot.envelope_run, ulp_plot.envelope_move, ← hxv, ← hcv]
              · intro _
                simp [-List.getD_eq_getElem?_getD, ulp_plot.envelope_runs,
                  ulp_plot.envelope_run, ulp_plot.envelope_move, ← hxv, ← hcv]
            | some j =>
              simp only at h ⊢
              cases ht : ulp_plot.new_top_path p clip xs ys fuel j with
              | error e => simp [ht] at h
              | ok r2 =>
                obtain ⟨rest, through2⟩ := r2
                simp only [ht] at h
                injection h with h
                injection h with h1 h2
                obtain ⟨runs, hr1, hr2⟩ := ih _ _ _ ht
                refine ⟨(jmin, k) :: runs, ?_, ?_⟩
                · rw [← h1, hk1, hr1]
                  simp [-List.getD_eq_getElem?_getD, ulp_plot.envelope_runs,
                    ulp_plot.envelope_run, ulp_plot.envelope_move, ← hxv, ← hcv]
                · intro hthrough
                  rw [hr2 (by rw [h2, hthrough])]
                  simp [-List.getD_eq_getElem?_getD, ulp_plot.envelope_runs,
                    ulp_plot.envelope_run, ulp_plot.envelope_move, ← hxv, ← hcv]

/-- The upper pass returns when it is given enough turns. -/
theorem ulp_plot.new_top_path_returns (p : ulp_plot) (clip : Int) (xs ys : FP → FP)
    (hc : p.cond_.length = p.coarse_abscissas_.length)
    (hs : ulp_plot.size_minus_2 p ≤ p.cond_.length) :
    ∀ (fuel jmin : Nat), p.coarse_abscissas_.length - jmin < fuel →
      ∃ cmds through, ulp_plot.new_top_path p clip xs ys fuel jmin = .ok (cmds, through) := by
  intro fuel
  induction fuel with
  | zero =>
    intro jmin h
    omega
  | succ fuel ih =>
    intro jmin h
    rw [ulp_plot.new_top_path]
    by_cases hg : p.cond_.length ≤ jmin
    · simp only [hg, if_true]
      exact ⟨_, _, rfl⟩
    · simp only [hg, if_false]
      rw [at_index_of_lt p.coarse_abscissas_ jmin (by omega),
        at_index_of_lt p.cond_ jmin (by omega)]
      simp only
      obtain ⟨cmds1, next, hr⟩ := ulp_plot.path_loop_returns p clip xs ys false hc hs
        (ulp_plot.budget p) (jmin + 1) (by unfold ulp_plot.budget; omega)
      obtain ⟨k, _, _, _, hk4⟩ := ulp_plot.path_loop_shape p clip xs ys false _ _ _ _ hr
      rw [hr]
      cases next with
      | none => exact ⟨_, _, rfl⟩
      | some j =>
        simp only
        have hj := (hk4 j rfl).1
        obtain ⟨rest, through, ht⟩ := ih j (by omega)
        rw [ht]
        exact ⟨_, _, rfl⟩

/-- The leading loop over clipped samples returns when it is given enough turns, and the
index it stops at lies within `cond_`. -/
theorem ulp_plot.leading_skip_returns (p : ulp_plot) (clip : Int) :
    ∀ (fuel jstart : Nat), jstart < p.cond_.length → p.cond_.length - jstart ≤ fuel →
      ∃ r, ulp_plot.leading_skip p clip fuel jstart = .ok r
        ∧ ∀ j, r = some j → j < p.cond_.length := by
  intro fuel
  induction fuel with
  | zero =>
    intro jstart h1 h2
    omega
  | succ fuel ih =>
    intro jstart h1 h2
    rw [ulp_plot.leading_skip, at_index_of_lt p.cond_ jstart h1]
    simp only
    split
    · split
      · exact ⟨none, rfl, by intro j hj; cases hj⟩
      · exact ih (jstart + 1) (by omega) (by omega)
    · refine ⟨some jstart, rfl, ?_⟩
      intro j hj
      injection hj with hj
      omega

/-- What the envelope block writes: the upper paths of some runs, followed by the lower
paths of the same runs unless the upper pass ended in `goto done`. -/
theorem ulp_plot.envelope_shape (p : ulp_plot) (clip : Int) (xs ys : FP → FP)
    (cmds : List Svg) (h : ulp_plot.envelope p clip xs ys = .ok cmds) :
    ∃ runs, cmds = ulp_plot.envelope_runs p xs ys false runs
        ++ ulp_plot.envelope_runs p xs ys true runs
      ∨ cmds = ulp_plot.envelope_runs p xs ys false runs := by
  unfold ulp_plot.envelope at h
  split at h
  · cases h
  · injection h with h
    exact ⟨[], Or.inr (by simp [← h, ulp_plot.envelope_runs])⟩
  · rename_i jstart _
    cases ht : ulp_plot.new_top_path p clip xs ys (ulp_plot.budget p) jstart with
    | error e => simp [ht] at h
    | ok r =>
      obtain ⟨top, through⟩ := r
      obtain ⟨runs, hr1, hr2⟩ := ulp_plot.new_top_path_runs p clip xs ys _ _ _ _ ht
      cases through with
      | false =>
        simp only [ht] at h
        injection h with h
        exact ⟨runs, Or.inr (by rw [← h, hr1])⟩
      | true =>
        simp only [ht, hr2 rfl] at h
        injection h with h
        exact ⟨runs, Or.inl (by rw [← h, hr1])⟩

/-- The envelope block returns on a plot whose `cond_` and `coarse_abscissas_` have the
same length, at least 2. -/
theorem ulp_plot.envelope_returns (p : ulp_plot) (clip : Int) (xs ys : FP → FP)
    (hc : p.cond_.length = p.coarse_abscissas_.length)
    (hn : 2 ≤ p.coarse_abscissas_.length) :
    ∃ cmds, ulp_plot.envelope p clip xs ys = .ok cmds := by
  have hs : ulp_plot.size_minus_2 p ≤ p.cond_.length := by
    rw [hc]
    exact ulp_plot.size_minus_2_le p hn
  have hstart : ∃ r, (if 0 < clip then ulp_plot.leading_skip p clip (ulp_plot.budget p) 0
      else .ok (some 0)) = .ok r := by
    by_cases hclip : 0 < clip
    · simp only [hclip, if_true]
      obtain ⟨r, hr, _⟩ := ulp_plot.leading_skip_returns p clip (ulp_plot.budget p) 0
        (by omega) (by unfold ulp_plot.budget; omega)
      exact ⟨r, hr⟩
    · simp only [hclip, if_false]
      exact ⟨_, rfl⟩
  obtain ⟨r, hr⟩ := hstart
  unfold ulp_plot.envelope
  rw [hr]
  cases r with
  | none => exact ⟨_, rfl⟩
  | some jstart =>
    simp only
    obtain ⟨top, through, ht⟩ := ulp_plot.new_top_path_returns p clip xs ys hc hs
      (ulp_plot.budget p) jstart (by unfold ulp_plot.budget; omega)
    obtain ⟨runs, _, hr2⟩ := ulp_plot.new_top_path_runs p clip xs ys _ _ _ _ ht
    rw [ht]
    cases through with
    | false => exact ⟨_, rfl⟩
    | true =>
      simp only [hr2 rfl]
      exact ⟨_, rfl⟩

/-! ## Envelope paths bridge no gap -/

theorem no_bridge_from_lines (p : ulp_plot) (xs ys : FP → FP) (lower : Bool) :
    ∀ (k j : Nat) (tail : List Svg),
      no_bridge_from (some j)
          ((List.range' (j + 1) k).map (ulp_plot.envelope_line p xs ys lower) ++ tail)
        = no_bridge_from (some (j + k)) tail := by
  intro k
  induction k with
  | zero =>
    intro j tail
    simp
  | succ k ih =>
    intro j tail
    have e : j + 1 + k = j + (k + 1) := by omega
    rw [List.range'_succ, List.map_cons, List.cons_append]
    simp only [ulp_plot.envelope_line, no_bridge_from, decide_True, Bool.true_and]
    rw [ih (j + 1) tail, e]

theorem no_bridge_from_run (p : ulp_plot) (xs ys : FP → FP) (lower : Bool) (run : Nat × Nat)
    (prev : Option Nat) (tail : List Svg) :
    no_bridge_from prev (ulp_plot.envelope_run p xs ys lower run ++ tail)
      = no_bridge_from none tail := by
  have e : ulp_plot.envelope_run p xs ys lower run ++ tail
      = ulp_plot.envelope_move p xs ys lower run.1
        :: ((List.range' (run.1 + 1) run.2).map (ulp_plot.envelope_line p xs ys lower)
          ++ (ulp_plot.close_path :: tail)) := by
    simp [ulp_plot.envelope_run]
  rw [e]
  simp only [ulp_plot.envelope_move, no_bridge_from]
  rw [no_bridge_from_lines]
  simp [ulp_plot.close_path, no_bridge_from]

theorem no_bridge_from_runs (p : ulp_plot) (xs ys : FP → FP) (lower : Bool) :
    ∀ (runs : List (Nat × Nat)) (tail : List Svg),
      no_bridge_from none (ulp_plot.envelope_runs p xs ys lower runs ++ tail)
        = no_bridge_from none tail := by
  intro runs
  induction runs with
  | nil =>
    intro tail
    simp [ulp_plot.envelope_runs]
  | cons run runs ih =>
    intro tail
    have e : ulp_plot.envelope_runs p xs ys lower (run :: runs)
        = ulp_plot.envelope_run p xs ys lower run
          ++ ulp_plot.envelope_runs p xs ys lower runs := by
      simp [ulp_plot.envelope_runs]
    rw [e, List.append_assoc, no_bridge_from_run, ih]

/-- No line-to written by the envelope block bridges a gap. -/
theorem ulp_plot.envelope_no_bridge (p : ulp_plot) (clip : Int) (xs ys : FP → FP)
    (cmds : List Svg) (h : ulp_plot.envelope p clip xs ys = .ok cmds) :
    no_bridge cmds = true := by
  obtain ⟨runs, hr | hr⟩ := ulp_plot.envelope_shape p clip xs ys cmds h
  · rw [hr, no_bridge, no_bridge_from_runs]
    have := no_bridge_from_runs p xs ys true runs []
    rw [List.append_nil] at this
    rw [this]
    rfl
  · have := no_bridge_from_runs p xs ys false runs []
    rw [List.append_nil] at this
    rw [hr, no_bridge, this]
    rfl

/-! ## The scatter points and the file written -/

theorem FP.le_ofInt_eq (a : FP) (clip : Int) (ha : FP.isnan a = false) :
    FP.le a (FP.ofInt clip) = !FP.gt a (FP.ofInt clip) := by
  cases a with
  | nan => simp [FP.isnan] at ha
  | ninf => simp [FP.le, FP.gt, FP.lt, FP.ofInt]
  | pinf => simp [FP.le, FP.gt, FP.lt, FP.ofInt]
  | fin q =>
    by_cases h : q ≤ (clip : ℚ)
    · simp [FP.le, FP.gt, FP.lt, FP.ofInt, h, not_lt.mpr h]
    · simp [FP.le, FP.gt, FP.lt, FP.ofInt, h, not_le.mp h]

theorem FP.isnan_abs (a : FP) : FP.isnan (FP.abs a) = FP.isnan a := by
  cases a <;> rfl

/-- The inner scatter loop writes the points of the specification for one candidate. -/
theorem ulp_plot.scatter_points_eq (p : ulp_plot) (clip : Int) (xs ys : FP → FP)
    (ulp : List FP) (color : String) (hl : ulp.length ≤ p.coarse_abscissas_.length) :
    ulp_plot.scatter_points p clip xs ys ulp color
      = .ok ((List.range ulp.length).flatMap (fun j =>
          if !FP.isnan (ulp.getD j FP.nan)
              && (decide (clip ≤ 0) || FP.le (FP.abs (ulp.getD j FP.nan)) (FP.ofInt clip)) then
            [Svg.circle (xs (p.coarse_abscissas_.getD j FP.nan)) (ys (ulp.getD j FP.nan))
              color]
          else [])) := by
  unfold ulp_plot.scatter_points
  rw [collect_ok _ (fun j =>
    if !FP.isnan (ulp.getD j FP.nan)
        && (decide (clip ≤ 0) || FP.le (FP.abs (ulp.getD j FP.nan)) (FP.ofInt clip)) then
      [Svg.circle (xs (p.coarse_abscissas_.getD j FP.nan)) (ys (ulp.getD j FP.nan)) color]
    else [])]
  · simp only [List.flatMap]
  · intro j hj
    have hj1 : j < ulp.length := List.mem_range.mp hj
    rw [at_index_of_lt ulp j hj1, at_index_of_lt p.coarse_abscissas_ j (by omega)]
    simp only
    by_cases hnan : FP.isnan (ulp.getD j FP.nan) = true
    · simp [-List.getD_eq_getElem?_getD, hnan]
    · have hn : FP.isnan (ulp.getD j FP.nan) = false := by simpa using hnan
      have hle := FP.le_ofInt_eq (FP.abs (ulp.getD j FP.nan)) clip
        (by rw [FP.isnan_abs, hn])
      by_cases hclip : 0 < clip
      · have hc2 : ¬ clip ≤ 0 := by omega
        cases hgt : FP.gt (FP.abs (ulp.getD j FP.nan)) (FP.ofInt clip) <;>
          simp [-List.getD_eq_getElem?_getD, hn, hclip, hc2, hle, hgt]
      · have hc2 : clip ≤ 0 := by omega
        simp [-List.getD_eq_getElem?_getD, hn, hclip, hc2]

/-- The scatter loop writes the points of the specification. -/
theorem ulp_plot.scatter_eq (p : ulp_plot) (clip : Int) (xs ys : FP → FP)
    (hcol : p.colors_.length = p.ulp_list_.length)
    (hl : ∀ ulp ∈ p.ulp_list_, ulp.length ≤ p.coarse_abscissas_.length) :
    ulp_plot.scatter p clip xs ys = .ok (ulp_plot.scatter_spec p clip xs ys) := by
  unfold ulp_plot.scatter
  rw [collect_ok _ (fun c =>
    (List.range (p.ulp_list_.getD c []).length).flatMap (fun j =>
      if !FP.isnan ((p.ulp_list_.getD c []).getD j FP.nan)
          && (decide (clip ≤ 0)
            || FP.le (FP.abs ((p.ulp_list_.getD c []).getD j FP.nan)) (FP.ofInt clip)) then
        [Svg.circle (xs (p.coarse_abscissas_.getD j FP.nan))
          (ys ((p.ulp_list_.getD c []).getD j FP.nan)) (p.colors_.getD c "")]
      else []))]
  · simp only [ulp_plot.scatter_spec, List.flatMap]
  · intro c hc
    have hc1 : c < p.ulp_list_.length := List.mem_range.mp hc
    have hc2 : c < p.colors_.length := by omega
    simp only [List.getElem?_eq_getElem hc1, List.getElem?_eq_getElem hc2,
      List.getD_eq_getElem?_getD, Option.getD_some]
    have := ulp_plot.scatter_points_eq p clip xs ys p.ulp_list_[c] p.colors_[c]
      (hl _ (List.getElem_mem hc1))
    simpa only [List.getD_eq_getElem?_getD] using this

/-- What `write` stores once its argument checks pass and its scatter and envelope blocks
have returned `points` and `paths`. -/
theorem ulp_plot.write_eq (d : Detail) (E : Env) (p : ulp_plot) (filename : String)
    (clip : Int) (ulp_envelope : Bool) (title : String)
    (width horizontal_lines vertical_lines : Int) (files : FileSys)
    (points paths : List Svg) (hne : p.ulp_list_ ≠ []) (hw : 1 < width)
    (hs : ulp_plot.scatter p clip (ulp_plot.xs p title width)
      (ulp_plot.ys E p clip title width) = .ok points)
    (he : (if ulp_envelope then ulp_plot.envelope p clip (ulp_plot.xs p title width)
      (ulp_plot.ys E p clip title width) else .ok []) = .ok paths) :
    ulp_plot.write d E p filename clip ulp_envelope title width horizontal_lines
        vertical_lines files
      = (.ok (), files.store filename
          (ulp_plot.frame d E p clip title width horizontal_lines vertical_lines
            ++ points ++ paths ++ [Svg.document_close])) := by
  have h0 : ¬ p.ulp_list_.length = 0 := fun hc => hne (List.length_eq_zero.mp hc)
  have h1 : ¬ width ≤ 1 := not_le.mpr hw
  unfold ulp_plot.xs ulp_plot.ys at hs he
  simp only [ulp_plot.write, h0, h1, if_false, hs, he]

/-- On a consistent plot with a candidate and a width above 1, `write` returns and stores
the frame, the scatter points of the specification, the envelope paths and the closing
tags. -/
theorem ulp_plot.write_returns (d : Detail) (E : Env) (p : ulp_plot) (filename : String)
    (clip : Int) (ulp_envelope : Bool) (title : String)
    (width horizontal_lines vertical_lines : Int) (files : FileSys)
    (hp : ulp_plot.consistent p) (hne : p.ulp_list_ ≠ []) (hw : 1 < width) :
    ∃ paths,
      (if ulp_envelope then ulp_plot.envelope p clip (ulp_plot.xs p title width)
          (ulp_plot.ys E p clip title width) else .ok []) = .ok paths
        ∧ ulp_plot.write d E p filename clip ulp_envelope title width horizontal_lines
            vertical_lines files
          = (.ok (), files.store filename
              (ulp_plot.frame d E p clip title width horizontal_lines vertical_lines
                ++ ulp_plot.scatter_spec p clip (ulp_plot.xs p title width)
                  (ulp_plot.ys E p clip title width)
                ++ paths ++ [Svg.document_close])) := by
  obtain ⟨h10, _, _, hc, hcol, hl⟩ := hp
  have hs := ulp_plot.scatter_eq p clip (ulp_plot.xs p title width)
    (ulp_plot.ys E p clip title width) hcol (fun u hu => le_of_eq (hl u hu))
  have he : ∃ paths, (if ulp_envelope then ulp_plot.envelope p clip (ulp_plot.xs p title width)
      (ulp_plot.ys E p clip title width) else .ok []) = .ok paths := by
    cases ulp_envelope with
    | false => exact ⟨[], rfl⟩
    | true =>
      simp only [if_true]
      exact ulp_plot.envelope_returns p clip _ _ hc (by omega)
  obtain ⟨paths, he⟩ := he
  exact ⟨paths, he, ulp_plot.write_eq d E p filename clip ulp_envelope title width
    horizontal_lines vertical_lines files _ paths hne hw hs he⟩

/-! ## The class invariant of the accuracy plot -/

/-- The constructor returns a consistent plot. -/
theorem ulp_plot.ctor_consistent (E : Env) (hi_acc_impl : FP → FP) (a b : FP)
    (perturb_abscissas : Bool) (samples : Nat) (random_seed : Int) (p : ulp_plot)
    (h : ulp_plot.ctor E hi_acc_impl a b perturb_abscissas samples random_seed = .ok p) :
    ulp_plot.consistent p := by
  obtain ⟨h10, hx, hcx, hy, hc, hu, hcol, _, _⟩ := ulp_plot.ctor_ok E hi_acc_impl a b
    perturb_abscissas samples random_seed p h
  refine ⟨by omega, by omega, ?_, ?_, ?_, ?_⟩
  · rw [hy, List.length_map]
    omega
  · rw [hc, hy]
    simp
    omega
  · simp [hu, hcol]
  · intro ulp hulp
    rw [hu] at hulp
    cases hulp

/-- On a consistent plot `add_fn` returns normally and keeps the plot consistent. -/
theorem ulp_plot.add_fn_consistent (E : Env) (p : ulp_plot) (g : FP → FP) (color : String)
    (hp : ulp_plot.consistent p) :
    (ulp_plot.add_fn E p g color).1 = .ok ()
      ∧ ulp_plot.consistent (ulp_plot.add_fn E p g color).2
      ∧ (ulp_plot.add_fn E p g color).2.ulp_list_ ≠ [] := by
  obtain ⟨h10, hx, hy, hc, hcol, hl⟩ := hp
  rw [ulp_plot.add_fn_eq E p g color (by omega) (by omega)]
  refine ⟨rfl, ⟨h10, hx, hy, hc, by simp [hcol], ?_⟩, by simp⟩
  intro ulp hulp
  rcases List.mem_append.mp hulp with hu | hu
  · exact hl ulp hu
  · rw [List.mem_singleton.mp hu]
    simp [hx]

/-! ## The shape of the envelope in the file written -/

/-- C16: the envelope never bridges a gap.  On a consistent plot with a candidate and a
width above 1, `write` returns; the envelope paths it stores, after the frame and the
scatter points, are one unbroken path per run of samples (the upper paths, then the lower
paths of the same runs unless the upper pass ended early), so in every path two
consecutive vertices are drawn for consecutive samples `j` and `j + 1`. -/
theorem envelope_never_bridges (d : Detail) (E : Env) (p : ulp_plot) (filename : String)
    (clip : Int) (title : String) (width horizontal_lines vertical_lines : Int)
    (files : FileSys) (hp : ulp_plot.consistent p) (hne : p.ulp_list_ ≠ []) (hw : 1 < width) :
    ∃ paths runs,
      ulp_plot.write d E p filename clip true title width horizontal_lines vertical_lines
          files
        = (.ok (), files.store filename
            (ulp_plot.frame d E p clip title width horizontal_lines vertical_lines
              ++ ulp_plot.scatter_spec p clip (ulp_plot.xs p title width)
                (ulp_plot.ys E p clip title width)
              ++ paths ++ [Svg.document_close]))
        ∧ (paths = ulp_plot.envelope_runs p (ulp_plot.xs p title width)
              (ulp_plot.ys E p clip title width) false runs
            ++ ulp_plot.envelope_runs p (ulp_plot.xs p title width)
              (ulp_plot.ys E p clip title width) true runs
          ∨ paths = ulp_plot.envelope_runs p (ulp_plot.xs p title width)
              (ulp_plot.ys E p clip title width) false runs)
        ∧ no_bridge paths = true := by
  obtain ⟨paths, he, hwr⟩ := ulp_plot.write_returns d E p filename clip true title width
    horizontal_lines vertical_lines files hp hne hw
  simp only [if_true] at he
  obtain ⟨runs, hr⟩ := ulp_plot.envelope_shape p clip _ _ paths he
  exact ⟨paths, runs, hwr, hr, ulp_plot.envelope_no_bridge p clip _ _ paths he⟩

theorem envelope_never_bridges_witness :
    ∃ paths runs,
      ulp_plot.write demo_detail demo_env demo_plot_1 "demo.svg" 3 true "" 1100 8 10 no_files
        = (.ok (), no_files.store "demo.svg"
            (ulp_plot.frame demo_detail demo_env demo_plot_1 3 "" 1100 8 10
              ++ ulp_plot.scatter_spec demo_plot_1 3 (ulp_plot.xs demo_plot_1 "" 1100)
                (ulp_plot.ys demo_env demo_plot_1 3 "" 1100)
              ++ paths ++ [Svg.document_close]))
        ∧ (paths = ulp_plot.envelope_runs demo_plot_1 (ulp_plot.xs demo_plot_1 "" 1100)
              (ulp_plot.ys demo_env demo_plot_1 3 "" 1100) false runs
            ++ ulp_plot.envelope_runs demo_plot_1 (ulp_plot.xs demo_plot_1 "" 1100)
              (ulp_plot.ys demo_env demo_plot_1 3 "" 1100) true runs
          ∨ paths = ulp_plot.envelope_runs demo_plot_1 (ulp_plot.xs demo_plot_1 "" 1100)
              (ulp_plot.ys demo_env demo_plot_1 3 "" 1100) false runs)
        ∧ no_bridge paths = true :=
  envelope_never_bridges demo_detail demo_env demo_plot_1 "demo.svg" 3 "" 1100 8 10 no_files
    (ulp_plot.add_fn_consistent demo_env demo_plot demo_candidate "steelblue"
      (ulp_plot.ctor_consistent _ _ _ _ _ _ _ _ demo_plot_built)).2.1
    (by decide) (by decide)

/-! ## The envelope when every conditioning value is valid -/

theorem ulp_plot.is_bad_false (clip : Int) (c : FP) (h1 : c ≠ FP.nan)
    (h2 : 0 < clip → FP.le c (FP.ofInt clip) = true) : ulp_plot.is_bad clip c = false := by
  have hn : FP.isnan c = false := by
    cases c <;> simp_all [FP.isnan]
  by_cases hclip : 0 < clip
  · have := FP.lt_false_of_le (FP.ofInt clip) c (h2 hclip)
    simp [ulp_plot.is_bad, hn, FP.gt, this]
  · simp [ulp_plot.is_bad, hn, hclip]

/-- With every conditioning value valid the `for` loop of a path runs to the end of the
data and writes a line-to for every sample from `j` on. -/
theorem ulp_plot.path_loop_all_valid (p : ulp_plot) (clip : Int) (xs ys : FP → FP)
    (lower : Bool) (hc : p.cond_.length = p.coarse_abscissas_.length)
    (hv : ∀ c ∈ p.cond_, ulp_plot.is_bad clip c = false) :
    ∀ (fuel j : Nat), p.coarse_abscissas_.length - j < fuel →
      ulp_plot.path_loop p clip xs ys lower fuel j
        = .ok ((List.range' j (p.coarse_abscissas_.length - j)).map
            (ulp_plot.envelope_line p xs ys lower) ++ [ulp_plot.close_path], none) := by
  intro fuel
  induction fuel with
  | zero =>
    intro j h
    omega
  | succ fuel ih =>
    intro j h
    rw [ulp_plot.path_loop]
    by_cases hj : j < p.coarse_abscissas_.length
    · have hjc : j < p.cond_.length := by omega
      have hbad : ulp_plot.is_bad clip (p.cond_.getD j FP.nan) = false := by
        apply hv
        rw [List.getD_eq_getElem?_getD, List.getElem?_eq_getElem hjc, Option.getD_some]
        exact List.getElem_mem hjc
      have e : p.coarse_abscissas_.length - j = (p.coarse_abscissas_.length - (j + 1)) + 1 := by
        omega
      simp only [hj, if_true, at_index_of_lt p.cond_ j hjc, hbad, Bool.false_eq_true,
        if_false, at_index_of_lt p.coarse_abscissas_ j hj, ih (j + 1) (by omega)]
      rw [e, List.range'_succ, List.map_cons, List.cons_append]
      rfl
    · have e : p.coarse_abscissas_.length - j = 0 := by omega
      simp only [hj, if_false, e, List.range'_zero, List.map_nil, List.nil_append]

theorem ulp_plot.full_path_eq_run (p : ulp_plot) (xs ys : FP → FP) (lower : Bool)
    (hn : 0 < p.cond_.length) :
    ulp_plot.full_path p xs ys lower
      = ulp_plot.envelope_run p xs ys lower (0, p.cond_.length - 1) := by
  have hr : List.range p.cond_.length = 0 :: List.range' 1 (p.cond_.length - 1) := by
    obtain ⟨k, hk⟩ : ∃ k, p.cond_.length = k + 1 := ⟨p.cond_.length - 1, by omega⟩
    rw [hk, List.range_eq_range', List.range'_succ]
    simp
  have hm : (List.range' 1 (p.cond_.length - 1)).map (fun k =>
        (if k = 0 then Svg.path_move else Svg.path_line) k
          (xs (p.coarse_abscissas_.getD k FP.nan))
          (ys (if lower then FP.neg (p.cond_.getD k FP.nan) else p.cond_.getD k FP.nan)))
      = (List.range' 1 (p.cond_.length - 1)).map (ulp_plot.envelope_line p xs ys lower) := by
    apply List.map_congr_left
    intro k hk
    have hk1 : k ≠ 0 := by
      have := (List.mem_range'_1.mp hk).1
      omega
    simp only [hk1, if_false, ulp_plot.envelope_line]
  simp only [ulp_plot.full_path, hr, List.map_cons, hm, if_true, ulp_plot.envelope_run,
    ulp_plot.envelope_move, Nat.zero_add]

theorem ulp_plot.full_path_vertices (p : ulp_plot) (xs ys : FP → FP) (lower : Bool) :
    ((ulp_plot.full_path p xs ys lower).filter Svg.is_vertex).length = p.cond_.length := by
  have h : ∀ l : List Nat, ((l.map (fun k =>
      (if k = 0 then Svg.path_move else Svg.path_line) k
        (xs (p.coarse_abscissas_.getD k FP.nan))
        (ys (if lower then FP.neg (p.cond_.getD k FP.nan)
          else p.cond_.getD k FP.nan)))).filter Svg.is_vertex).length = l.length := by
    intro l
    induction l with
    | nil => rfl
    | cons k l ih =>
      by_cases hk : k = 0 <;>
        simp [-List.getD_eq_getElem?_getD, hk, Svg.is_vertex, ih]
  simp [-List.getD_eq_getElem?_getD, ulp_plot.full_path, List.filter_append, h,
    Svg.is_vertex, ulp_plot.close_path]

/-- With every conditioning value valid the envelope block writes the unbroken upper
path and then the unbroken lower path. -/
theorem ulp_plot.envelope_all_valid (p : ulp_plot) (clip : Int) (xs ys : FP → FP)
    (hc : p.cond_.length = p.coarse_abscissas_.length) (hn : 0 < p.cond_.length)
    (hv : ∀ c ∈ p.cond_, c ≠ FP.nan ∧ (0 < clip → FP.le c (FP.ofInt clip) = true)) :
    ulp_plot.envelope p clip xs ys
      = .ok (ulp_plot.full_path p xs ys false ++ ulp_plot.full_path p xs ys true) := by
  have hbad : ∀ c ∈ p.cond_, ulp_plot.is_bad clip c = false :=
    fun c hcm => ulp_plot.is_bad_false clip c (hv c hcm).1 (hv c hcm).2
  have hb : ulp_plot.budget p = (p.cond_.length + p.coarse_abscissas_.length + 1) + 1 := rfl
  have h0 : (p.cond_.getD 0 FP.nan) ∈ p.cond_ := by
    rw [List.getD_eq_getElem?_getD, List.getElem?_eq_getElem hn, Option.getD_some]
    exact List.getElem_mem hn
  have hstart : (if 0 < clip then ulp_plot.leading_skip p clip (ulp_plot.budget p) 0
      else .ok (some 0)) = .ok (some 0) := by
    by_cases hclip : 0 < clip
    · have hgt : FP.gt (p.cond_.getD 0 FP.nan) (FP.ofInt clip) = false :=
        FP.lt_false_of_le (FP.ofInt clip) _ ((hv _ h0).2 hclip)
      simp only [hclip, if_true, hb]
      rw [ulp_plot.leading_skip, at_index_of_lt p.cond_ 0 hn]
      simp only [hgt, Bool.false_eq_true, if_false]
    · simp only [hclip, if_false]
  have hloop : ∀ lower, ulp_plot.path_loop p clip xs ys lower (ulp_plot.budget p) (0 + 1)
      = .ok ((List.range' (0 + 1) (p.cond_.length - 1)).map
          (ulp_plot.envelope_line p xs ys lower) ++ [ulp_plot.close_path], none) := by
    intro lower
    have := ulp_plot.path_loop_all_valid p clip xs ys lower hc hbad (ulp_plot.budget p)
      (0 + 1) (by unfold ulp_plot.budget; omega)
    rw [this, hc]
  have hg : ¬ p.cond_.length ≤ 0 := by omega
  have htop : ulp_plot.new_top_path p clip xs ys (ulp_plot.budget p) 0
      = .ok (ulp_plot.full_path p xs ys false, true) := by
    rw [ulp_plot.full_path_eq_run p xs ys false hn]
    conv => lhs; rw [hb]
    rw [ulp_plot.new_top_path]
    simp only [hg, if_false, at_index_of_lt p.coarse_abscissas_ 0 (by omega),
      at_index_of_lt p.cond_ 0 hn, hloop false]
    rfl
  have hbottom : ulp_plot.new_bottom_path p clip xs ys (ulp_plot.budget p) 0
      = .ok (ulp_plot.full_path p xs ys true) := by
    rw [ulp_plot.full_path_eq_run p xs ys true hn]
    conv => lhs; rw [hb]
    rw [ulp_plot.new_bottom_path]
    simp only [at_index_of_lt p.coarse_abscissas_ 0 (by omega),
      at_index_of_lt p.cond_ 0 hn, hloop true]
    rfl
  unfold ulp_plot.envelope
  rw [hstart]
  simp only [htop, hbottom]

/-- C18: if every conditioning value is defined and within the clip bound (no NaN, and
`cond_i <= clip` for all `i` when `clip > 0`), `write` with the envelope enabled stores,
after the frame and the scatter points, exactly one upper and one lower envelope path,
each unbroken, with exactly `n` vertices in ascending sample order, vertex `k` at
`(x_scale(coarse_abscissa_k), y_scale(+cond_k))` for the upper path and at
`(x_scale(coarse_abscissa_k), y_scale(-cond_k))` for the lower path. -/
theorem envelope_unbroken (d : Detail) (E : Env) (p : ulp_plot) (filename : String)
    (clip : Int) (title : String) (width horizontal_lines vertical_lines : Int)
    (files : FileSys) (hp : ulp_plot.consistent p) (hne : p.ulp_list_ ≠ []) (hw : 1 < width)
    (hv : ∀ c ∈ p.cond_, c ≠ FP.nan ∧ (0 < clip → FP.le c (FP.ofInt clip) = true)) :
    ulp_plot.write d E p filename clip true title width horizontal_lines vertical_lines
        files
      = (.ok (), files.store filename
          (ulp_plot.frame d E p clip title width horizontal_lines vertical_lines
            ++ ulp_plot.scatter_spec p clip (ulp_plot.xs p title width)
              (ulp_plot.ys E p clip title width)
            ++ (ulp_plot.full_path p (ulp_plot.xs p title width)
                (ulp_plot.ys E p clip title width) false
              ++ ulp_plot.full_path p (ulp_plot.xs p title width)
                (ulp_plot.ys E p clip title width) true)
            ++ [Svg.document_close]))
      ∧ ((ulp_plot.full_path p (ulp_plot.xs p title width)
          (ulp_plot.ys E p clip title width) false).filter Svg.is_vertex).length
        = p.coarse_abscissas_.length
      ∧ ((ulp_plot.full_path p (ulp_plot.xs p title width)
          (ulp_plot.ys E p clip title width) true).filter Svg.is_vertex).length
        = p.coarse_abscissas_.length := by
  have hcons := hp
  obtain ⟨h10, _, _, hc, hcol, hl⟩ := hp
  have hs := ulp_plot.scatter_eq p clip (ulp_plot.xs p title width)
    (ulp_plot.ys E p clip title width) hcol (fun u hu => le_of_eq (hl u hu))
  have he := ulp_plot.envelope_all_valid p clip (ulp_plot.xs p title width)
    (ulp_plot.ys E p clip title width) hc (by omega) hv
  refine ⟨?_, ?_, ?_⟩
  · exact ulp_plot.write_eq d E p filename clip true title width horizontal_lines
      vertical_lines files _ _ hne hw hs (by simp only [if_true]; exact he)
  · rw [ulp_plot.full_path_vertices, hc]
  · rw [ulp_plot.full_path_vertices, hc]

theorem envelope_unbroken_witness :
    ulp_plot.write demo_detail demo_env identity_plot_1 "demo.svg" 3 true "" 1100 8 10
        no_files
      = (.ok (), no_files.store "demo.svg"
          (ulp_plot.frame demo_detail demo_env identity_plot_1 3 "" 1100 8 10
            ++ ulp_plot.scatter_spec identity_plot_1 3 (ulp_plot.xs identity_plot_1 "" 1100)
              (ulp_plot.ys demo_env identity_plot_1 3 "" 1100)
            ++ (ulp_plot.full_path identity_plot_1 (ulp_plot.xs identity_plot_1 "" 1100)
                (ulp_plot.ys demo_env identity_plot_1 3 "" 1100) false
              ++ ulp_plot.full_path identity_plot_1 (ulp_plot.xs identity_plot_1 "" 1100)
                (ulp_plot.ys demo_env identity_plot_1 3 "" 1100) true)
            ++ [Svg.document_close]))
      ∧ ((ulp_plot.full_path identity_plot_1 (ulp_plot.xs identity_plot_1 "" 1100)
          (ulp_plot.ys demo_env identity_plot_1 3 "" 1100) false).filter Svg.is_vertex).length
        = identity_plot_1.coarse_abscissas_.length
      ∧ ((ulp_plot.full_path identity_plot_1 (ulp_plot.xs identity_plot_1 "" 1100)
          (ulp_plot.ys demo_env identity_plot_1 3 "" 1100) true).filter Svg.is_vertex).length
        = identity_plot_1.coarse_abscissas_.length :=
  envelope_unbroken demo_detail demo_env identity_plot_1 "demo.svg" 3 "" 1100 8 10 no_files
    (ulp_plot.add_fn_consistent demo_env identity_plot _ "steelblue"
      (ulp_plot.ctor_consistent _ _ _ _ _ _ _ _ identity_plot_built)).2.1
    (by decide) (by decide) (by decide!)

/-- The envelope written for the plot of the identity with `clip = 3`: the vertices of the
upper path and then of the lower path, by sample. -/
theorem identity_plot_envelope :
    vertex_samples (ulp_plot.write demo_detail demo_env identity_plot_1 "demo.svg" 3 true ""
        1100 8 10 no_files).2 "demo.svg"
      = (List.range 10).map some ++ (List.range 10).map some := by
  decide!

/-! ## The scatter points -/

/-- The scatter points of the sample plot with `clip = 1`: the five errors of one unit are
drawn, the five errors of two units are left out. -/
theorem demo_plot_scatter_clipped :
    ulp_plot.scatter_spec demo_plot_1 1 (ulp_plot.xs demo_plot_1 "" 1100)
        (ulp_plot.ys demo_env demo_plot_1 1 "" 1100)
      = [Svg.circle (FP.fin (1065 / 16)) (FP.fin 0) "steelblue",
          Svg.circle (FP.fin (1065 / 8)) (FP.fin 0) "steelblue",
          Svg.circle (FP.fin (3195 / 16)) (FP.fin 0) "steelblue",
          Svg.circle (FP.fin (1065 / 4)) (FP.fin 0) "steelblue",
          Svg.circle (FP.fin (3195 / 8)) (FP.fin 0) "steelblue"] := by
  decide!

/-! ## Where the envelope resumes after a gap, and the lower envelope -/

/-- C17 at a failing input: the reference is 0 at sample 5 only, so `cond_[5]` is the one
invalid value and sample 6 is the first valid sample after the gap; `write` completes, and
in both envelopes the path after the gap starts on sample 7: sample 6 is no vertex. -/
theorem envelope_skips_valid_sample_after_gap :
    demo_plot_1.cond_.map (ulp_plot.is_bad (-1))
        = [false, false, false, false, false, true, false, false, false, false]
      ∧ (ulp_plot.write demo_detail demo_env demo_plot_1 "demo.svg" (-1) true "" 1100 8 10
          no_files).1 = .ok ()
      ∧ vertex_samples (ulp_plot.write demo_detail demo_env demo_plot_1 "demo.svg" (-1) true ""
          1100 8 10 no_files).2 "demo.svg"
        = [some 0, some 1, some 2, some 3, some 4, some 7, some 8, some 9,
            some 0, some 1, some 2, some 3, some 4, some 7, some 8, some 9] := by
  decide!

/-- C19 at a failing input: the reference is 0 at the last sample only, so `cond_[9]` is
NaN; `write` completes, the upper envelope is written as one path over samples 0 to 8,
and no lower envelope path is written at all. -/
theorem lower_envelope_missing :
    zero_last_plot_1.cond_.map (ulp_plot.is_bad (-1))
        = [false, false, false, false, false, false, false, false, false, true]
      ∧ (ulp_plot.write demo_detail demo_env zero_last_plot_1 "demo.svg" (-1) true "" 1100 8
          10 no_files).1 = .ok ()
      ∧ ulp_plot.envelope zero_last_plot_1 (-1) (ulp_plot.xs zero_last_plot_1 "" 1100)
          (ulp_plot.ys demo_env zero_last_plot_1 (-1) "" 1100)
        = .ok (ulp_plot.envelope_runs zero_last_plot_1 (ulp_plot.xs zero_last_plot_1 "" 1100)
            (ulp_plot.ys demo_env zero_last_plot_1 (-1) "" 1100) false [(0, 8)])
      ∧ vertex_samples (ulp_plot.write demo_detail demo_env zero_last_plot_1 "demo.svg" (-1)
          true "" 1100 8 10 no_files).2 "demo.svg"
        = [some 0, some 1, some 2, some 3, some 4, some 5, some 6, some 7, some 8] := by
  decide!

/-! ## The envelope reads inside the data -/

/-- A read `v[j]` fails in the model exactly when `j` lies outside the vector. -/
theorem at_index_out_of_range (v : List FP) (j : Nat) :
    at_index v j = .error .out_of_range ↔ v.length ≤ j := by
  constructor
  · intro h
    by_contra hc
    rw [at_index_of_lt v j (not_le.mp hc)] at h
    cases h
  · intro h
    have hn : v[j]? = none := List.getElem?_eq_none h
    simp [at_index, hn]

/-- The line-to commands of one run of the `for` loop are drawn for samples inside the
data. -/
theorem ulp_plot.path_loop_samples (p : ulp_plot) (clip : Int) (xs ys : FP → FP)
    (lower : Bool) (fuel j : Nat) (cmds : List Svg) (next : Option Nat)
    (h : ulp_plot.path_loop p clip xs ys lower fuel j = .ok (cmds, next)) :
    ∀ c ∈ cmds, ∀ i, Svg.sample c = some i → i < p.coarse_abscissas_.length := by
  obtain ⟨k, hk, hin, _, _⟩ := ulp_plot.path_loop_shape p clip xs ys lower fuel j cmds next h
  intro c hc i hi
  rw [hk] at hc
  rcases List.mem_append.mp hc with hc | hc
  · obtain ⟨i2, hi2, hci⟩ := List.mem_map.mp hc
    have hr := List.mem_range'_1.mp hi2
    rw [← hci, ulp_plot.envelope_line, Svg.sample] at hi
    injection hi with hi
    rw [← hi]
    exact (hin i2 hr.1 hr.2).1
  · rw [List.mem_singleton.mp hc] at hi
    simp [ulp_plot.close_path, Svg.sample] at hi

/-- Every vertex written by the upper pass is drawn for a sample inside the data. -/
theorem ulp_plot.new_top_path_samples (p : ulp_plot) (clip : Int) (xs ys : FP → FP) :
    ∀ (fuel jmin : Nat) (cmds : List Svg) (through : Bool),
      ulp_plot.new_top_path p clip xs ys fuel jmin = .ok (cmds, through) →
      ∀ c ∈ cmds, ∀ i, Svg.sample c = some i → i < p.coarse_abscissas_.length := by
  intro fuel
  induction fuel with
  | zero =>
    intro jmin cmds through h
    simp [ulp_plot.new_top_path] at h
  | succ fuel ih =>
    intro jmin cmds through h
    rw [ulp_plot.new_top_path] at h
    by_cases hg : p.cond_.length ≤ jmin
    · simp only [hg, if_true] at h
      injection h with h
      injection h with h1 h2
      intro c hc
      rw [← h1] at hc
      cases hc
    · simp only [hg, if_false] at h
      cases hx : at_index p.coarse_abscissas_ jmin with
      | error e => simp [hx] at h
      | ok x =>
        obtain ⟨hjx, _⟩ := at_index_ok _ _ _ hx
        cases hc : at_index p.cond_ jmin with
        | error e => simp [hx, hc] at h
        | ok c0 =>
          simp only [hx, hc] at h
          cases hr : ulp_plot.path_loop p clip xs ys false (ulp_plot.budget p) (jmin + 1) with
          | error e => simp [hr] at h
          | ok r =>
            obtain ⟨cmds1, next⟩ := r
            have hs1 := ulp_plot.path_loop_samples p clip xs ys false _ _ _ _ hr
            simp only [hr] at h
            cases next with
            | none =>
              simp only at h
              injection h with h
              injection h with h1 h2
              intro c hcm i hi
              rw [← h1] at hcm
              rcases List.mem_cons.mp hcm with hcm | hcm
              · rw [hcm, Svg.sample] at hi
                injection hi with hi
                omega
              · exact hs1 c hcm i hi
            | some j =>
              simp only at h
              cases ht : ulp_plot.new_top_path p clip xs ys fuel j with
              | error e => simp [ht] at h
              | ok r2 =>
                obtain ⟨rest, through2⟩ := r2
                simp only [ht] at h
                injection h with h
                injection h with h1 h2
                intro c hcm i hi
                rw [← h1] at hcm
                rcases List.mem_append.mp hcm with hcm | hcm
                · rcases List.mem_cons.mp hcm with hcm | hcm
                  · rw [hcm, Svg.sample] at hi
                    injection hi with hi
                    omega
                  · exact hs1 c hcm i hi
                · exact ih _ _ _ ht c hcm i hi

/-- Every vertex written by the lower pass is drawn for a sample inside the data. -/
theorem ulp_plot.new_bottom_path_samples (p : ulp_plot) (clip : Int) (xs ys : FP → FP) :
    ∀ (fuel jmin : Nat) (cmds : List Svg),
      ulp_plot.new_bottom_path p clip xs ys fuel jmin = .ok cmds →
      ∀ c ∈ cmds, ∀ i, Svg.sample c = some i → i < p.coarse_abscissas_.length := by
  intro fuel
  induction fuel with
  | zero =>
    intro jmin cmds h
    simp [ulp_plot.new_bottom_path] at h
  | succ fuel ih =>
    intro jmin cmds h
    rw [ulp_plot.new_bottom_path] at h
    cases hx : at_index p.coarse_abscissas_ jmin with
    | error e => simp [hx] at h
    | ok x =>
      obtain ⟨hjx, _⟩ := at_index_ok _ _ _ hx
      cases hc : at_index p.cond_ jmin with
      | error e => simp [hx, hc] at h
      | ok c0 =>
        simp only [hx, hc] at h
        cases hr : ulp_plot.path_loop p clip xs ys true (ulp_plot.budget p) (jmin + 1) with
        | error e => simp [hr] at h
        | ok r =>
          obtain ⟨cmds1, next⟩ := r
          have hs1 := ulp_plot.path_loop_samples p clip xs ys true _ _ _ _ hr
          simp only [hr] at h
          cases next with
          | none =>
            simp only at h
            injection h with h
            intro c hcm i hi
            rw [← h] at hcm
            rcases List.mem_cons.mp hcm with hcm | hcm
            · rw [hcm, Svg.sample] at hi
              injection hi with hi
              omega
            · exact hs1 c hcm i hi
          | some j =>
            simp only at h
            cases ht : ulp_plot.new_bottom_path p clip xs ys fuel j with
            | error e => simp [ht] at h
            | ok rest =>
              simp only [ht] at h
              injection h with h
              intro c hcm i hi
              rw [← h] at hcm
              rcases List.mem_append.mp hcm with hcm | hcm
              · rcases List.mem_cons.mp hcm with hcm | hcm
                · rw [hcm, Svg.sample] at hi
                  injection hi with hi
                  omega
                · exact hs1 c hcm i hi
              · exact ih _ _ ht c hcm i hi

/-- Every vertex written by the envelope block is drawn for a sample inside the data. -/
theorem ulp_plot.envelope_samples (p : ulp_plot) (clip : Int) (xs ys : FP → FP)
    (cmds : List Svg) (h : ulp_plot.envelope p clip xs ys = .ok cmds) :
    ∀ c ∈ cmds, ∀ i, Svg.sample c = some i → i < p.coarse_abscissas_.length := by
  unfold ulp_plot.envelope at h
  split at h
  · cases h
  · injection h with h
    intro c hc
    rw [← h] at hc
    cases hc
  · rename_i jstart _
    cases ht : ulp_plot.new_top_path p clip xs ys (ulp_plot.budget p) jstart with
    | error e => simp [ht] at h
    | ok r =>
      obtain ⟨top, through⟩ := r
      have hst := ulp_plot.new_top_path_samples p clip xs ys _ _ _ _ ht
      cases through with
      | false =>
        simp only [ht] at h
        injection h with h
        rw [← h]
        exact hst
      | true =>
        simp only [ht] at h
        cases hb : ulp_plot.new_bottom_path p clip xs ys (ulp_plot.budget p) jstart with
        | error e => simp [hb] at h
        | ok bottom =>
          have hsb := ulp_plot.new_bottom_path_samples p clip xs ys _ _ _ hb
          simp only [hb] at h
          injection h with h
          intro c hcm i hi
          rw [← h] at hcm
          rcases List.mem_append.mp hcm with hcm | hcm
          · exact hst c hcm i hi
          · exact hsb c hcm i hi

/-- C21: the envelope rendering of `ulp_plot::write` never reads outside the data.  For
`cond_` and `coarse_abscissas_` of one length `n >= 10` and every clip value: the leading
skip returns with `jstart < n`; from every start the upper pass returns, and whenever it
falls through to the unguarded lower pass, that pass returns too; the whole block returns
and every vertex it writes is drawn for a sample `j < n`.  A read outside a vector makes
the model fail with `out_of_range`, so returning means that every index used to read
`cond_` or `coarse_abscissas_` was below `n`. -/
theorem envelope_reads_in_range (p : ulp_plot) (clip : Int) (xs ys : FP → FP)
    (hc : p.cond_.length = p.coarse_abscissas_.length) (hn : 10 ≤ p.cond_.length) :
    (∃ r, ulp_plot.leading_skip p clip (ulp_plot.budget p) 0 = .ok r
        ∧ ∀ jstart, r = some jstart → jstart < p.cond_.length)
      ∧ (∀ jstart, ∃ top through,
          ulp_plot.new_top_path p clip xs ys (ulp_plot.budget p) jstart = .ok (top, through)
            ∧ (through = true →
                ∃ bottom, ulp_plot.new_bottom_path p clip xs ys (ulp_plot.budget p) jstart
                  = .ok bottom))
      ∧ ∃ cmds, ulp_plot.envelope p clip xs ys = .ok cmds
          ∧ ∀ c ∈ cmds, ∀ j, Svg.sample c = some j → j < p.cond_.length := by
  have hs : ulp_plot.size_minus_2 p ≤ p.cond_.length := by
    rw [hc]
    exact ulp_plot.size_minus_2_le p (by omega)
  refine ⟨?_, ?_, ?_⟩
  · exact ulp_plot.leading_skip_returns p clip (ulp_plot.budget p) 0 (by omega)
      (by unfold ulp_plot.budget; omega)
  · intro jstart
    obtain ⟨top, through, ht⟩ := ulp_plot.new_top_path_returns p clip xs ys hc hs
      (ulp_plot.budget p) jstart (by unfold ulp_plot.budget; omega)
    obtain ⟨runs, _, hr⟩ := ulp_plot.new_top_path_runs p clip xs ys _ _ _ _ ht
    exact ⟨top, through, ht, fun hthrough => ⟨_, hr hthrough⟩⟩
  · obtain ⟨cmds, he⟩ := ulp_plot.envelope_returns p clip xs ys hc (by omega)
    refine ⟨cmds, he, ?_⟩
    rw [hc]
    exact ulp_plot.envelope_samples p clip xs ys cmds he

theorem envelope_reads_in_range_witness :
    (∃ r, ulp_plot.leading_skip zero_last_plot_1 3 (ulp_plot.budget zero_last_plot_1) 0 = .ok r
        ∧ ∀ jstart, r = some jstart → jstart < zero_last_plot_1.cond_.length)
      ∧ (∀ jstart, ∃ top through,
          ulp_plot.new_top_path zero_last_plot_1 3 (ulp_plot.xs zero_last_plot_1 "" 1100)
              (ulp_plot.ys demo_env zero_last_plot_1 3 "" 1100)
              (ulp_plot.budget zero_last_plot_1) jstart = .ok (top, through)
            ∧ (through = true →
                ∃ bottom, ulp_plot.new_bottom_path zero_last_plot_1 3
                  (ulp_plot.xs zero_last_plot_1 "" 1100)
                  (ulp_plot.ys demo_env zero_last_plot_1 3 "" 1100)
                  (ulp_plot.budget zero_last_plot_1) jstart = .ok bottom))
      ∧ ∃ cmds, ulp_plot.envelope zero_last_plot_1 3 (ulp_plot.xs zero_last_plot_1 "" 1100)
            (ulp_plot.ys demo_env zero_last_plot_1 3 "" 1100) = .ok cmds
          ∧ ∀ c ∈ cmds, ∀ j, Svg.sample c = some j → j < zero_last_plot_1.cond_.length :=
  envelope_reads_in_range zero_last_plot_1 3 (ulp_plot.xs zero_last_plot_1 "" 1100)
    (ulp_plot.ys demo_env zero_last_plot_1 3 "" 1100) (by decide) (by decide)

/-- The envelope of the plot whose reference is 0 at the last sample, with `clip = 3`: the
scan starts a path on sample 0, skips from the clipped sample 5 to sample 8, meets the
invalid last sample, and leaves with `jmin = 10`; it is then the guard of the upper pass
that ends the block, before any read at index 10. -/
theorem zero_last_plot_envelope_clipped :
    (ulp_plot.write demo_detail demo_env zero_last_plot_1 "demo.svg" 3 true "" 1100 8 10
        no_files).1 = .ok ()
      ∧ vertex_samples (ulp_plot.write demo_detail demo_env zero_last_plot_1 "demo.svg" 3 true
          "" 1100 8 10 no_files).2 "demo.svg"
        = [some 0, some 1, some 2, some 3, some 4, some 8] := by
  decide!

/-! ## The display range holds every error that is drawn -/

theorem FloatFormat.exact_rnd (x : FP) : FloatFormat.exact.rnd x = x := by
  cases x <;> rfl

theorem FloatFormat.exact_ops (a b : FP) (i : Int) :
    FloatFormat.exact.add a b = FP.add a b ∧ FloatFormat.exact.sub a b = FP.sub a b
      ∧ FloatFormat.exact.mul a b = FP.mul a b ∧ FloatFormat.exact.div a b = FP.div a b
      ∧ FloatFormat.exact.ofInt i = FP.ofInt i :=
  ⟨FloatFormat.exact_rnd _, FloatFormat.exact_rnd _, FloatFormat.exact_rnd _,
    FloatFormat.exact_rnd _, rfl⟩

/-- The exact lambdas and abscissas of `graph_fn` are the rounded ones at the exact
format. -/
theorem exact_graph_fn_scales (s : graph_fn) :
    fl.graph_fn.step FloatFormat.exact s = graph_fn.step s
      ∧ fl.graph_fn.x_scale FloatFormat.exact s = graph_fn.x_scale s
      ∧ fl.graph_fn.y_scale FloatFormat.exact s = graph_fn.y_scale s
      ∧ fl.graph_fn.t FloatFormat.exact s = graph_fn.t s := by
  have h1 : fl.graph_fn.step FloatFormat.exact s = graph_fn.step s := by
    simp only [fl.graph_fn.step, graph_fn.step, FloatFormat.add, FloatFormat.sub,
      FloatFormat.mul, FloatFormat.div, FloatFormat.exact_rnd]
    rfl
  have h2 : fl.graph_fn.x_scale FloatFormat.exact s = graph_fn.x_scale s := by
    funext x
    simp only [fl.graph_fn.x_scale, graph_fn.x_scale, FloatFormat.add, FloatFormat.sub,
      FloatFormat.mul, FloatFormat.div, FloatFormat.exact_rnd]
    rfl
  have h3 : fl.graph_fn.y_scale FloatFormat.exact s = graph_fn.y_scale s := by
    funext y
    simp only [fl.graph_fn.y_scale, graph_fn.y_scale, FloatFormat.add, FloatFormat.sub,
      FloatFormat.mul, FloatFormat.div, FloatFormat.exact_rnd]
    rfl
  refine ⟨h1, h2, h3, ?_⟩
  funext j
  simp only [fl.graph_fn.t, graph_fn.t, h1, h2, FloatFormat.add, FloatFormat.mul,
    FloatFormat.exact_rnd]
  rfl

/-- The exact `add_fn` and `write_all` of `graph_fn` are the rounded ones at the exact
format. -/
theorem exact_graph_fn_members (d : Detail) (s : graph_fn) (f : FP → FP) (color : String) :
    fl.graph_fn.add_fn FloatFormat.exact s f color = graph_fn.add_fn s f color
      ∧ fl.graph_fn.write_all FloatFormat.exact d s = graph_fn.write_all d s := by
  have hb : ∀ s1 : graph_fn,
      fl.graph_fn.add_fn_body FloatFormat.exact s1 f = graph_fn.add_fn_body s1 f := by
    intro s1
    funext acc i
    simp only [fl.graph_fn.add_fn_body, graph_fn.add_fn_body, (exact_graph_fn_scales s1).1,
      FloatFormat.add, FloatFormat.mul, FloatFormat.exact_rnd]
    rfl
  have hp : ∀ (s1 : graph_fn) (v : List FP) (stroke : String),
      fl.graph_fn.series_path FloatFormat.exact s1 v stroke
        = graph_fn.series_path s1 v stroke := by
    intro s1 v stroke
    simp only [fl.graph_fn.series_path, graph_fn.series_path, (exact_graph_fn_scales s1).2.1,
      (exact_graph_fn_scales s1).2.2.1, (exact_graph_fn_scales s1).2.2.2]
  have hps : ∀ s1 : graph_fn,
      fl.graph_fn.series_paths FloatFormat.exact s1 = graph_fn.series_paths s1 := by
    intro s1
    simp only [fl.graph_fn.series_paths, graph_fn.series_paths, hp]
  have hf : fl.graph_fn.frame FloatFormat.exact d s = graph_fn.frame d s := by
    simp only [fl.graph_fn.frame, graph_fn.frame, (exact_graph_fn_scales s).2.1,
      (exact_graph_fn_scales s).2.2.1]
    rfl
  constructor
  · simp only [fl.graph_fn.add_fn, graph_fn.add_fn, hb]
  · simp only [fl.graph_fn.write_all, graph_fn.write_all, hps, hf]

/-- The exact lambdas and `write` of `ulp_plot` are the rounded ones at the exact
format. -/
theorem exact_ulp_plot_write (d : Detail) (E : Env) (p : ulp_plot) (filename : String)
    (clip : Int) (ulp_envelope : Bool) (title : String)
    (width horizontal_lines vertical_lines : Int) (files : FileSys) :
    fl.ulp_plot.xs FloatFormat.exact p title width = ulp_plot.xs p title width
      ∧ fl.ulp_plot.ys FloatFormat.exact E p clip title width
        = ulp_plot.ys E p clip title width
      ∧ fl.ulp_plot.write FloatFormat.exact FloatFormat.exact d E p filename clip
          ulp_envelope title width horizontal_lines vertical_lines files
        = ulp_plot.write d E p filename clip ulp_envelope title width horizontal_lines
          vertical_lines files := by
  have hx : ∀ g : Int, fl.ulp_plot.x_scale FloatFormat.exact p g = ulp_plot.x_scale p g := by
    intro g
    funext x
    simp only [fl.ulp_plot.x_scale, ulp_plot.x_scale, FloatFormat.sub, FloatFormat.mul,
      FloatFormat.div, FloatFormat.exact_rnd]
    rfl
  have hy : ∀ (lo hi : FP) (g : Int),
      fl.ulp_plot.y_scale FloatFormat.exact lo hi g = ulp_plot.y_scale lo hi g := by
    intro lo hi g
    funext y
    simp only [fl.ulp_plot.y_scale, ulp_plot.y_scale, FloatFormat.sub, FloatFormat.mul,
      FloatFormat.div, FloatFormat.exact_rnd]
    rfl
  have hg : ∀ (c : ulp_plot.Canvas) (lo hi : FP) (xs ys : FP → FP) (v : Int),
      fl.ulp_plot.small_error_grid FloatFormat.exact FloatFormat.exact p c lo hi xs ys v
        = ulp_plot.small_error_grid p c lo hi xs ys v := by
    intro c lo hi xs ys v
    simp only [fl.ulp_plot.small_error_grid, ulp_plot.small_error_grid, FloatFormat.add,
      FloatFormat.sub, FloatFormat.mul, FloatFormat.div, FloatFormat.exact_rnd]
    rfl
  have hf : fl.ulp_plot.frame FloatFormat.exact FloatFormat.exact d E p clip title width
        horizontal_lines vertical_lines
      = ulp_plot.frame d E p clip title width horizontal_lines vertical_lines := by
    simp only [fl.ulp_plot.frame, ulp_plot.frame, hx, hy, hg]
  refine ⟨?_, ?_, ?_⟩
  · simp only [fl.ulp_plot.xs, ulp_plot.xs, hx]
  · simp only [fl.ulp_plot.ys, ulp_plot.ys, hy]
  · simp only [fl.ulp_plot.write, ulp_plot.write, hx, hy, hf]

/-! ## Rounded operations on finite values -/

theorem FloatFormat.sub_round (F : FloatFormat) (a b : ℚ) :
    F.sub (FP.fin a) (FP.fin b) = F.round (a - b) := by
  simp [FloatFormat.sub, FloatFormat.rnd]

theorem FloatFormat.mul_round (F : FloatFormat) (a b : ℚ) :
    F.mul (FP.fin a) (FP.fin b) = F.round (a * b) := by
  simp [FloatFormat.mul, FloatFormat.rnd]

theorem FloatFormat.div_round (F : FloatFormat) (a b : ℚ) (hb : b ≠ 0) :
    F.div (FP.fin a) (FP.fin b) = F.round (a / b) := by
  simp [FloatFormat.div, FloatFormat.rnd, FP.div_fin _ _ hb]

/-- The quotient-and-scale of both `y_scale` lambdas at the two ends of the range, when
the width `d` of the range rounds to a finite non-zero number. -/
theorem FloatFormat.scale_ends (F : FloatFormat) (d w : ℚ) (g : Int) (h0 : F.holds 0)
    (h1 : F.holds 1) (hg : F.holds g) (hw : F.round d = FP.fin w) (hw0 : w ≠ 0) :
    F.mul (F.div (F.round 0) (F.round d)) (F.ofInt g) = FP.fin 0
      ∧ F.mul (F.div (F.round d) (F.round d)) (F.ofInt g) = FP.ofInt g := by
  unfold FloatFormat.holds at h0 h1 hg
  constructor
  · rw [h0, hw, FloatFormat.div_round _ _ _ hw0, zero_div, h0, FloatFormat.ofInt, hg,
      FloatFormat.mul_round, zero_mul, h0]
  · rw [hw, FloatFormat.div_round _ _ _ hw0, div_self hw0, h1, FloatFormat.ofInt, hg,
      FloatFormat.mul_round, one_mul, hg, FP.ofInt]

/-! ## Order and rounding -/

/-- The narrowing of the sample environment is the rounding of `fixed_point 10`. -/
theorem demo_narrow_fixed_point (x : FP) : demo_env.narrow x = (fixed_point 10).rnd x := by
  cases x with
  | fin q =>
    show demo_narrow (FP.fin q) = (fixed_point 10).round q
    simp only [demo_narrow, fixed_point]
    norm_num
  | nan => rfl
  | pinf => rfl
  | ninf => rfl

/-! ## The rounding of `double` -/

theorem pow2_eq_zpow (e : Int) : pow2 e = (2 : ℚ) ^ e := by
  unfold pow2
  split
  · rename_i h
    have he : ((e.toNat : Int)) = e := Int.toNat_of_nonneg h
    conv_rhs => rw [← he]
    rw [zpow_natCast]
    push_cast
    rfl
  · rename_i h
    have hn : 0 ≤ -e := by omega
    have he : ((-e).toNat : Int) = -e := Int.toNat_of_nonneg hn
    have : e = -((-e).toNat : Int) := by omega
    conv_rhs => rw [this]
    rw [zpow_neg, zpow_natCast]
    push_cast
    rw [one_div]

theorem pow2_pos (e : Int) : 0 < pow2 e := by
  rw [pow2_eq_zpow]
  positivity

theorem pow2_le_pow2 (e1 e2 : Int) (h : e1 ≤ e2) : pow2 e1 ≤ pow2 e2 := by
  rw [pow2_eq_zpow, pow2_eq_zpow]
  exact zpow_le_zpow_right₀ (by norm_num) h

theorem pow2_add (e1 e2 : Int) : pow2 (e1 + e2) = pow2 e1 * pow2 e2 := by
  rw [pow2_eq_zpow, pow2_eq_zpow, pow2_eq_zpow, zpow_add₀ (by norm_num)]

theorem pow2_natCast (n : Nat) : pow2 (n : Int) = (2 : ℚ) ^ n := by
  rw [pow2_eq_zpow, zpow_natCast]

theorem log2_aux_spec : ∀ (fuel n : Nat), 1 ≤ n → n ≤ fuel →
    2 ^ log2_aux fuel n ≤ n ∧ n < 2 ^ (log2_aux fuel n + 1) := by
  intro fuel
  induction fuel with
  | zero => intro n h1 h2; omega
  | succ f ih =>
    intro n h1 h2
    unfold log2_aux
    by_cases hn : n < 2
    · simp only [hn, if_true]
      omega
    · simp only [hn, if_false]
      have h3 : 1 ≤ n / 2 := by omega
      have h4 : n / 2 ≤ f := by omega
      obtain ⟨i1, i2⟩ := ih (n / 2) h3 h4
      constructor
      · rw [pow_succ]
        omega
      · rw [pow_succ]
        omega

theorem ilog2_spec (a : ℚ) (ha : a ≠ 0) :
    pow2 (ilog2 a) ≤ |a| ∧ |a| < pow2 (ilog2 a + 1) := by
  unfold ilog2
  have hN : 1 ≤ a.num.natAbs := by
    have : a.num ≠ 0 := Rat.num_ne_zero.mpr ha
    omega
  have hD : 1 ≤ a.den := a.den_pos
  obtain ⟨n1, n2⟩ := log2_aux_spec a.num.natAbs a.num.natAbs hN (le_refl _)
  obtain ⟨d1, d2⟩ := log2_aux_spec a.den a.den hD (le_refl _)
  have habs : |a| = (a.num.natAbs : ℚ) / (a.den : ℚ) := by
    have hden : (0 : ℚ) < (a.den : ℚ) := by exact_mod_cast a.den_pos
    conv_lhs => rw [← Rat.num_div_den a]
    rw [abs_div, abs_of_pos hden, Nat.cast_natAbs, Int.cast_abs]
  have hn1 : ((2 : ℚ) ^ log2_aux a.num.natAbs a.num.natAbs) ≤ (a.num.natAbs : ℚ) := by
    exact_mod_cast n1
  have hn2 : (a.num.natAbs : ℚ) < (2 : ℚ) ^ (log2_aux a.num.natAbs a.num.natAbs + 1) := by
    exact_mod_cast n2
  have hd1 : ((2 : ℚ) ^ log2_aux a.den a.den) ≤ (a.den : ℚ) := by exact_mod_cast d1
  have hd2 : (a.den : ℚ) < (2 : ℚ) ^ (log2_aux a.den a.den + 1) := by exact_mod_cast d2
  have hDq : (0 : ℚ) < (a.den : ℚ) := by exact_mod_cast a.den_pos
  have hNq : (0 : ℚ) < (a.num.natAbs : ℚ) := by exact_mod_cast hN
  generalize log2_aux a.num.natAbs a.num.natAbs = ln at *
  generalize log2_aux a.den a.den = ld at *
  have hup : |a| < pow2 ((ln : Int) - (ld : Int) + 1) := by
    rw [habs, pow2_eq_zpow, show ((ln : Int) - (ld : Int) + 1) = ((ln + 1 : Nat) : Int)
      - (ld : Int) by push_cast; ring, zpow_sub₀ (by norm_num), zpow_natCast, zpow_natCast]
    rw [div_lt_div_iff₀ hDq (by positivity)]
    calc (a.num.natAbs : ℚ) * 2 ^ ld ≤ (a.num.natAbs : ℚ) * (a.den : ℚ) :=
          mul_le_mul_of_nonneg_left hd1 (le_of_lt hNq)
      _ < 2 ^ (ln + 1) * (a.den : ℚ) := mul_lt_mul_of_pos_right hn2 hDq
  have hlow : pow2 ((ln : Int) - (ld : Int) - 1) ≤ |a| := by
    rw [habs, pow2_eq_zpow, show ((ln : Int) - (ld : Int) - 1) = (ln : Int)
      - ((ld + 1 : Nat) : Int) by push_cast; ring, zpow_sub₀ (by norm_num), zpow_natCast,
      zpow_natCast]
    rw [div_le_div_iff₀ (by positivity) hDq]
    calc (2 : ℚ) ^ ln * (a.den : ℚ) ≤ (2 : ℚ) ^ ln * 2 ^ (ld + 1) :=
          mul_le_mul_of_nonneg_left (le_of_lt hd2) (by positivity)
      _ ≤ (a.num.natAbs : ℚ) * 2 ^ (ld + 1) :=
          mul_le_mul_of_nonneg_right hn1 (by positivity)
  by_cases h : pow2 ((ln : Int) - (ld : Int)) ≤ |a|
  · rw [if_pos h]
    exact ⟨h, hup⟩
  · rw [if_neg h]
    refine ⟨hlow, ?_⟩
    rw [show ((ln : Int) - (ld : Int) - 1 + 1) = (ln : Int) - (ld : Int) by ring]
    exact not_le.mp h

theorem ilog2_mono (a b : ℚ) (ha : a ≠ 0) (hb : b ≠ 0) (h : |a| ≤ |b|) :
    ilog2 a ≤ ilog2 b := by
  by_contra hc
  have hc2 : ilog2 b + 1 ≤ ilog2 a := by omega
  have h1 := (ilog2_spec a ha).1
  have h2 := (ilog2_spec b hb).2
  have h3 := pow2_le_pow2 _ _ hc2
  linarith

theorem round_half_even_bounds (q : ℚ) :
    Int.floor q ≤ round_half_even q ∧ round_half_even q ≤ Int.floor q + 1 := by
  unfold round_half_even
  split_ifs <;> omega

theorem round_half_even_mono (a b : ℚ) (h : a ≤ b) :
    round_half_even a ≤ round_half_even b := by
  have hf : Int.floor a ≤ Int.floor b := Int.floor_le_floor h
  rcases lt_or_eq_of_le hf with hlt | heq
  · have h1 := (round_half_even_bounds a).2
    have h2 := (round_half_even_bounds b).1
    omega
  · unfold round_half_even
    rw [← heq]
    have hr : a - (Int.floor a : ℚ) ≤ b - (Int.floor a : ℚ) := by linarith
    split_ifs <;> first | omega | (exfalso; linarith)

theorem round_half_even_intCast (n : Int) : round_half_even (n : ℚ) = n := by
  unfold round_half_even
  simp

theorem round_half_even_neg (q : ℚ) : round_half_even (-q) = -round_half_even q := by
  have h1 : (Int.floor q : ℚ) ≤ q := Int.floor_le q
  have h2 : q < (Int.floor q : ℚ) + 1 := Int.lt_floor_add_one q
  by_cases hint : q = (Int.floor q : ℚ)
  · obtain ⟨n, hn⟩ : ∃ n : Int, q = (n : ℚ) := ⟨_, hint⟩
    rw [hn, ← Int.cast_neg, round_half_even_intCast, round_half_even_intCast]
  · have hlt : (Int.floor q : ℚ) < q := lt_of_le_of_ne h1 (Ne.symm hint)
    have hfl : Int.floor (-q) = -Int.floor q - 1 := by
      rw [Int.floor_eq_iff]
      push_cast
      constructor <;> linarith
    unfold round_half_even
    rw [hfl]
    push_cast
    split_ifs <;> first | omega | (exfalso; linarith)

theorem pow2_shift (e : Int) (k : Nat) (e2 : Int) (h : e = (k : Int) + e2) :
    pow2 e = ((2 ^ k : Int) : ℚ) * pow2 e2 := by
  rw [h, pow2_add, pow2_natCast]
  push_cast
  rfl

theorem binary64_spacing_pos (q : ℚ) : 0 < binary64_spacing q := pow2_pos _

theorem ilog2_neg (q : ℚ) : ilog2 (-q) = ilog2 q := by
  unfold ilog2
  simp only [Rat.neg_num, Int.natAbs_neg, Rat.neg_den, abs_neg]

theorem binary64_spacing_neg (q : ℚ) : binary64_spacing (-q) = binary64_spacing q := by
  unfold binary64_spacing
  rw [ilog2_neg]

theorem binary64_nearest_neg (q : ℚ) : binary64_nearest (-q) = -binary64_nearest q := by
  unfold binary64_nearest
  rw [binary64_spacing_neg, neg_div, round_half_even_neg]
  push_cast
  ring

theorem binary64_nearest_nonneg (q : ℚ) (h : 0 ≤ q) : 0 ≤ binary64_nearest q := by
  unfold binary64_nearest
  have hu := binary64_spacing_pos q
  have h0 : round_half_even 0 ≤ round_half_even (q / binary64_spacing q) :=
    round_half_even_mono _ _ (div_nonneg h (le_of_lt hu))
  have h00 : round_half_even 0 = 0 := by
    have := round_half_even_intCast 0
    simpa using this
  rw [h00] at h0
  have : (0 : ℚ) ≤ (round_half_even (q / binary64_spacing q) : ℚ) := by exact_mod_cast h0
  exact mul_nonneg this (le_of_lt hu)

theorem binary64_nearest_mono_pos (a b : ℚ) (ha : 0 < a) (hab : a ≤ b) :
    binary64_nearest a ≤ binary64_nearest b := by
  have hb : 0 < b := lt_of_lt_of_le ha hab
  have hla := ilog2_spec a (ne_of_gt ha)
  have hlb := ilog2_spec b (ne_of_gt hb)
  rw [abs_of_pos ha] at hla
  rw [abs_of_pos hb] at hlb
  have hl : ilog2 a ≤ ilog2 b :=
    ilog2_mono a b (ne_of_gt ha) (ne_of_gt hb) (by rw [abs_of_pos ha, abs_of_pos hb]; exact hab)
  unfold binary64_nearest binary64_spacing
  have hua : 0 < pow2 (max (ilog2 a) (-1022) - 52) := pow2_pos _
  have hub : 0 < pow2 (max (ilog2 b) (-1022) - 52) := pow2_pos _
  rcases lt_or_eq_of_le (max_le_max hl (le_refl (-1022 : Int))) with hlt | heq
  · -- different binades: a power of two lies between the two results
    have heb : max (ilog2 b) (-1022) = ilog2 b := by
      apply max_eq_left
      have : (-1022 : Int) ≤ max (ilog2 a) (-1022) := le_max_right _ _
      by_contra hc
      rw [max_eq_right (by omega)] at hlt
      omega
    have h53 : pow2 (max (ilog2 a) (-1022) + 1)
        = ((2 ^ 53 : Int) : ℚ) * pow2 (max (ilog2 a) (-1022) - 52) :=
      pow2_shift _ 53 _ (by push_cast; ring)
    have h52 : pow2 (max (ilog2 b) (-1022))
        = ((2 ^ 52 : Int) : ℚ) * pow2 (max (ilog2 b) (-1022) - 52) :=
      pow2_shift _ 52 _ (by push_cast; ring)
    have ha2 : a ≤ pow2 (max (ilog2 a) (-1022) + 1) :=
      le_trans (le_of_lt hla.2) (pow2_le_pow2 _ _ (by
        have := le_max_left (ilog2 a) (-1022)
        omega))
    have hb2 : pow2 (max (ilog2 b) (-1022)) ≤ b := by
      rw [heb]
      exact hlb.1
    have r1 : round_half_even (a / pow2 (max (ilog2 a) (-1022) - 52)) ≤ (2 ^ 53 : Int) := by
      have := round_half_even_mono (a / pow2 (max (ilog2 a) (-1022) - 52))
        (((2 ^ 53 : Int)) : ℚ) (by
          rw [div_le_iff₀ hua, ← h53]
          exact ha2)
      rwa [round_half_even_intCast] at this
    have r2 : (2 ^ 52 : Int) ≤ round_half_even (b / pow2 (max (ilog2 b) (-1022) - 52)) := by
      have := round_half_even_mono (((2 ^ 52 : Int)) : ℚ)
        (b / pow2 (max (ilog2 b) (-1022) - 52)) (by
          rw [le_div_iff₀ hub, ← h52]
          exact hb2)
      rwa [round_half_even_intCast] at this
    have r1q : (round_half_even (a / pow2 (max (ilog2 a) (-1022) - 52)) : ℚ)
        ≤ ((2 ^ 53 : Int) : ℚ) := by exact_mod_cast r1
    have r2q : ((2 ^ 52 : Int) : ℚ)
        ≤ (round_half_even (b / pow2 (max (ilog2 b) (-1022) - 52)) : ℚ) := by
      exact_mod_cast r2
    calc (round_half_even (a / pow2 (max (ilog2 a) (-1022) - 52)) : ℚ)
          * pow2 (max (ilog2 a) (-1022) - 52)
        ≤ ((2 ^ 53 : Int) : ℚ) * pow2 (max (ilog2 a) (-1022) - 52) :=
          mul_le_mul_of_nonneg_right r1q (le_of_lt hua)
      _ = pow2 (max (ilog2 a) (-1022) + 1) := h53.symm
      _ ≤ pow2 (max (ilog2 b) (-1022)) := pow2_le_pow2 _ _ (by omega)
      _ = ((2 ^ 52 : Int) : ℚ) * pow2 (max (ilog2 b) (-1022) - 52) := h52
      _ ≤ (round_half_even (b / pow2 (max (ilog2 b) (-1022) - 52)) : ℚ)
          * pow2 (max (ilog2 b) (-1022) - 52) :=
          mul_le_mul_of_nonneg_right r2q (le_of_lt hub)
  · -- the same binade: one spacing
    rw [← heq]
    have := round_half_even_mono (a / pow2 (max (ilog2 a) (-1022) - 52))
      (b / pow2 (max (ilog2 a) (-1022) - 52)) (div_le_div_of_nonneg_right hab (le_of_lt hua))
    have hq : (round_half_even (a / pow2 (max (ilog2 a) (-1022) - 52)) : ℚ)
        ≤ (round_half_even (b / pow2 (max (ilog2 a) (-1022) - 52)) : ℚ) := by
      exact_mod_cast this
    exact mul_le_mul_of_nonneg_right hq (le_of_lt hua)

theorem binary64_nearest_zero : binary64_nearest 0 = 0 := by
  unfold binary64_nearest
  have h00 : round_half_even 0 = 0 := by
    have := round_half_even_intCast 0
    simpa using this
  rw [zero_div, h00]
  simp

theorem binary64_nearest_mono (a b : ℚ) (hab : a ≤ b) :
    binary64_nearest a ≤ binary64_nearest b := by
  rcases lt_trichotomy a 0 with ha | ha | ha
  · rcases lt_or_le b 0 with hb | hb
    · have h := binary64_nearest_mono_pos (-b) (-a) (by linarith) (by linarith)
      rw [binary64_nearest_neg, binary64_nearest_neg] at h
      linarith
    · have h1 := binary64_nearest_nonneg (-a) (by linarith)
      rw [binary64_nearest_neg] at h1
      have h2 := binary64_nearest_nonneg b hb
      linarith
  · rw [ha, binary64_nearest_zero]
    exact binary64_nearest_nonneg b (by linarith)
  · exact binary64_nearest_mono_pos a b ha hab

/-- The rounding of `double` is lawful. -/
theorem binary64_lawful : binary64.lawful := by
  refine ⟨?_, by unfold FloatFormat.holds; decide!, by unfold FloatFormat.holds; decide!⟩
  intro a b hab
  have h := binary64_nearest_mono a b hab
  have hT : 0 < pow2 1024 := pow2_pos _
  simp only [binary64]
  by_cases h1 : pow2 1024 ≤ binary64_nearest a
  · have h2 : pow2 1024 ≤ binary64_nearest b := le_trans h1 h
    simp [h1, h2, FP.le]
  · by_cases h3 : binary64_nearest a ≤ -pow2 1024
    · simp only [h1, h3, if_true, if_false]
      split_ifs <;> simp [FP.le]
    · by_cases h2 : pow2 1024 ≤ binary64_nearest b
      · simp [h1, h2, h3, FP.le]
      · have h4 : ¬ binary64_nearest b ≤ -pow2 1024 := by
          intro hc
          exact h3 (le_trans h hc)
        simp only [h1, h2, h3, h4, if_false, FP.le, decide_eq_true_eq]
        exact h

/-- The binary exponent is determined by the binade. -/
theorem ilog2_unique (a : ℚ) (e : Int) (ha : a ≠ 0) (h1 : pow2 e ≤ |a|)
    (h2 : |a| < pow2 (e + 1)) : ilog2 a = e := by
  obtain ⟨s1, s2⟩ := ilog2_spec a ha
  by_contra hne
  rcases lt_or_gt_of_ne hne with hlt | hgt
  · have : pow2 (ilog2 a + 1) ≤ pow2 e := pow2_le_pow2 _ _ (by omega)
    linarith
  · have : pow2 (e + 1) ≤ pow2 (ilog2 a) := pow2_le_pow2 _ _ (by omega)
    linarith

/-- A multiple `m * 2^e2` of a power of two, seen from a finer power `2^e1`, is a
multiple again. -/
theorem pow2_multiple (m e1 e2 : Int) (h : e1 ≤ e2) :
    (m : ℚ) * pow2 e2 / pow2 e1 = ((m * 2 ^ (e2 - e1).toNat : Int) : ℚ) := by
  have hk : e2 = ((e2 - e1).toNat : Int) + e1 := by
    have := Int.toNat_of_nonneg (show 0 ≤ e2 - e1 by omega)
    omega
  have h1 := pow2_pos e1
  rw [pow2_shift e2 (e2 - e1).toNat e1 hk]
  push_cast
  field_simp
  ring

/-- A number whose nearest multiple of its spacing is itself and that is below the
overflow threshold is a value of `double`. -/
theorem binary64_holds_of_nearest (r : ℚ) (h : binary64_nearest r = r)
    (hlt : |r| < pow2 1024) : binary64.holds r := by
  have h1 : ¬ pow2 1024 ≤ r := by
    have := le_abs_self r
    intro hc
    linarith
  have h2 : ¬ r ≤ -pow2 1024 := by
    have := neg_abs_le r
    intro hc
    linarith
  simp only [FloatFormat.holds, binary64, h, h1, h2, if_false]

/-- A multiple of a power of two that is not coarser than the spacing around it is its own
nearest multiple of that spacing. -/
theorem binary64_nearest_of_multiple (m e : Int)
    (h : max (ilog2 ((m : ℚ) * pow2 e)) (-1022) - 52 ≤ e) :
    binary64_nearest ((m : ℚ) * pow2 e) = (m : ℚ) * pow2 e := by
  unfold binary64_nearest binary64_spacing
  rw [pow2_multiple m _ e h, round_half_even_intCast, ← pow2_multiple m _ e h]
  have := pow2_pos (max (ilog2 ((m : ℚ) * pow2 e)) (-1022) - 52)
  field_simp

/-- The integers below `2^53` in magnitude are values of `double`. -/
theorem binary64_holds_int (k : Int) (hk : |k| < 2 ^ 53) : binary64.holds (k : ℚ) := by
  have hkq : |(k : ℚ)| < 2 ^ 53 := by
    have : ((|k| : Int) : ℚ) < ((2 ^ 53 : Int) : ℚ) := by exact_mod_cast hk
    simpa using this
  have h1024 : |(k : ℚ)| < pow2 1024 := by
    have : pow2 53 ≤ pow2 1024 := pow2_le_pow2 _ _ (by norm_num)
    have h53 : pow2 53 = 2 ^ 53 := by
      have := pow2_natCast 53
      simpa using this
    linarith
  apply binary64_holds_of_nearest _ _ h1024
  by_cases h0 : k = 0
  · subst h0
    simpa using binary64_nearest_zero
  · have hq0 : (k : ℚ) ≠ 0 := by exact_mod_cast h0
    have hl : ilog2 (k : ℚ) ≤ 52 := by
      by_contra hc
      have s1 := (ilog2_spec (k : ℚ) hq0).1
      have : pow2 53 ≤ pow2 (ilog2 (k : ℚ)) := pow2_le_pow2 _ _ (by omega)
      have h53 : pow2 53 = 2 ^ 53 := by
        have := pow2_natCast 53
        simpa using this
      linarith
    have e1 : (k : ℚ) = (k : ℚ) * pow2 0 := by
      simp [pow2]
    rw [e1]
    apply binary64_nearest_of_multiple
    rw [← e1]
    have : max (ilog2 (k : ℚ)) (-1022) ≤ 52 := max_le hl (by norm_num)
    omega

theorem ilog2_pow2 (e : Int) : ilog2 (pow2 e) = e := by
  have hp := pow2_pos e
  apply ilog2_unique _ _ (ne_of_gt hp)
  · rw [abs_of_pos hp]
  · rw [abs_of_pos hp]
    have : pow2 (e + 1) = pow2 e * pow2 1 := pow2_add e 1
    rw [this]
    have h1 : pow2 1 = 2 := by
      have := pow2_natCast 1
      simpa using this
    rw [h1]
    linarith

/-- What `double` rounding delivers, when finite, is the nearest multiple of the spacing,
below the overflow threshold. -/
theorem binary64_round_fin (q r : ℚ) (h : binary64.round q = FP.fin r) :
    r = binary64_nearest q ∧ |r| < pow2 1024 := by
  simp only [binary64] at h
  by_cases h1 : pow2 1024 ≤ binary64_nearest q
  · simp [h1] at h
  · by_cases h2 : binary64_nearest q ≤ -pow2 1024
    · simp [h1, h2] at h
    · simp only [h1, h2, if_false] at h
      injection h with h
      refine ⟨h.symm, ?_⟩
      rw [← h, abs_lt]
      constructor <;> linarith [not_le.mp h1, not_le.mp h2]

/-- Every value of `double` is a multiple of `2^-1074`. -/
theorem binary64_value_grid (r : ℚ) (h : binary64.holds r) :
    ∃ m : Int, r = (m : ℚ) * pow2 (-1074) := by
  obtain ⟨hr, _⟩ := binary64_round_fin r r h
  have hE : (-1022 : Int) ≤ max (ilog2 r) (-1022) := le_max_right _ _
  have hk : max (ilog2 r) (-1022) - 52
      = (((max (ilog2 r) (-1022) - 52) - (-1074)).toNat : Int) + (-1074) := by
    have := Int.toNat_of_nonneg (show 0 ≤ (max (ilog2 r) (-1022) - 52) - (-1074) by omega)
    omega
  obtain ⟨M, hM⟩ : ∃ M : Int, r = (M : ℚ) * pow2 (max (ilog2 r) (-1022) - 52) :=
    ⟨round_half_even (r / binary64_spacing r), hr⟩
  refine ⟨M * 2 ^ ((max (ilog2 r) (-1022) - 52) - (-1074)).toNat, ?_⟩
  conv_lhs => rw [hM, pow2_shift _ _ _ hk]
  push_cast
  ring

/-- The difference of two distinct values of `double` does not round to 0. -/
theorem binary64_sub_ne_zero (a b : ℚ) (ha : binary64.holds a) (hb : binary64.holds b)
    (hab : a < b) : binary64.round (b - a) ≠ FP.fin 0 := by
  obtain ⟨ma, hma⟩ := binary64_value_grid a ha
  obtain ⟨mb, hmb⟩ := binary64_value_grid b hb
  have hg := pow2_pos (-1074)
  have hm : ma < mb := by
    by_contra hc
    have : (mb : ℚ) ≤ (ma : ℚ) := by exact_mod_cast not_lt.mp hc
    have := mul_le_mul_of_nonneg_right this (le_of_lt hg)
    linarith
  have hq : pow2 (-1074) ≤ b - a := by
    have h1 : ((1 : Int) : ℚ) ≤ ((mb - ma : Int) : ℚ) := by exact_mod_cast (by omega)
    rw [hma, hmb, ← sub_mul]
    have := mul_le_mul_of_nonneg_right h1 (le_of_lt hg)
    push_cast at this
    linarith
  have hn : binary64_nearest (pow2 (-1074)) = pow2 (-1074) := by
    have e := binary64_nearest_of_multiple 1 (-1074) (by
      rw [Int.cast_one, one_mul, ilog2_pow2]
      decide)
    simpa using e
  have hmono := binary64_nearest_mono _ _ hq
  rw [hn] at hmono
  intro hc
  obtain ⟨hr, _⟩ := binary64_round_fin _ _ hc
  linarith

/-! ## The ordinate transform in rounded arithmetic -/

/-- C2 (as the code behaves): in the arithmetic of the plot, for a value range
`[y_min, y_max]` whose width `y_max - y_min` is computed as a finite, non-zero number (it
overflows to +infinity for a range wider than the largest value of the format) and a graph
height that the format holds, the `y_scale` of both plot types sends `y_max` to pixel 0
and `y_min` to the graph height. -/
theorem y_scale_endpoints (F : FloatFormat) (y_min y_max w : ℚ) (s : graph_fn)
    (graph_height : Int) (hs : s.m_min_y = FP.fin y_min ∧ s.m_max_y = FP.fin y_max)
    (h0 : F.holds 0) (h1 : F.holds 1) (hgs : F.holds s.m_graph_height)
    (hg : F.holds graph_height) (hw : F.sub (FP.fin y_max) (FP.fin y_min) = FP.fin w)
    (hw0 : w ≠ 0) :
    fl.graph_fn.y_scale F s (FP.fin y_max) = FP.fin 0
      ∧ fl.graph_fn.y_scale F s (FP.fin y_min) = FP.ofInt s.m_graph_height
      ∧ fl.ulp_plot.y_scale F (FP.fin y_min) (FP.fin y_max) graph_height (FP.fin y_max)
        = FP.fin 0
      ∧ fl.ulp_plot.y_scale F (FP.fin y_min) (FP.fin y_max) graph_height (FP.fin y_min)
        = FP.ofInt graph_height := by
  obtain ⟨hs1, hs2⟩ := hs
  rw [FloatFormat.sub_round] at hw
  have e1 := FloatFormat.scale_ends F (y_max - y_min) w s.m_graph_height h0 h1 hgs hw hw0
  have e2 := FloatFormat.scale_ends F (y_max - y_min) w graph_height h0 h1 hg hw hw0
  simp only [fl.graph_fn.y_scale, fl.ulp_plot.y_scale, hs1, hs2, FloatFormat.sub_round,
    sub_self]
  exact ⟨e1.1, e1.2, e2.1, e2.2⟩

theorem y_scale_endpoints_witness :
    fl.graph_fn.y_scale binary64
        { demo_graph with m_min_y := FP.fin (-2), m_max_y := FP.fin 1 } (FP.fin 1)
        = FP.fin 0
      ∧ fl.graph_fn.y_scale binary64
        { demo_graph with m_min_y := FP.fin (-2), m_max_y := FP.fin 1 } (FP.fin (-2))
        = FP.ofInt 619
      ∧ fl.ulp_plot.y_scale binary64 (FP.fin (-2)) (FP.fin 1) 649 (FP.fin 1) = FP.fin 0
      ∧ fl.ulp_plot.y_scale binary64 (FP.fin (-2)) (FP.fin 1) 649 (FP.fin (-2))
        = FP.ofInt 649 :=
  y_scale_endpoints binary64 (-2) 1 3
    { demo_graph with m_min_y := FP.fin (-2), m_max_y := FP.fin 1 } 649 ⟨rfl, rfl⟩
    (by unfold FloatFormat.holds; decide!) (by unfold FloatFormat.holds; decide!)
    (by unfold FloatFormat.holds; decide!) (by unfold FloatFormat.holds; decide!)
    (by decide!) (by norm_num)

/-- C2 fails as stated: in `double` the value range `[-2^1023, 2^1023]` has
`y_min < y_max`, both ends are values of the format, but the width `y_max - y_min`
overflows to +infinity, and `y_scale(y_min)` is NaN in both plot types, not the graph
height. -/
theorem y_scale_overflows_on_wide_range :
    (-(2 : ℚ) ^ 1023 < 2 ^ 1023)
      ∧ binary64.round (-(2 : ℚ) ^ 1023) = FP.fin (-(2 : ℚ) ^ 1023)
      ∧ binary64.round ((2 : ℚ) ^ 1023) = FP.fin ((2 : ℚ) ^ 1023)
      ∧ binary64.sub (FP.fin ((2 : ℚ) ^ 1023)) (FP.fin (-(2 : ℚ) ^ 1023)) = FP.pinf
      ∧ fl.graph_fn.y_scale binary64
          { demo_graph with m_min_y := FP.fin (-(2 : ℚ) ^ 1023),
                            m_max_y := FP.fin ((2 : ℚ) ^ 1023) }
          (FP.fin (-(2 : ℚ) ^ 1023)) = FP.nan
      ∧ fl.ulp_plot.y_scale binary64 (FP.fin (-(2 : ℚ) ^ 1023)) (FP.fin ((2 : ℚ) ^ 1023)) 649
          (FP.fin (-(2 : ℚ) ^ 1023)) = FP.nan := by
  refine ⟨by norm_num, by decide!, by decide!, by decide!, by decide!, by decide!⟩

/-- In `double` the premises on the width reduce to the absence of overflow: for two values
`y_min < y_max` of `double` whose difference does not overflow, and a graph height of type
`int`, the `y_scale` of `graph_fn::write_all` sends `y_max` to pixel 0 and `y_min` to the
graph height. -/
theorem double_y_scale_ends (y_min y_max w : ℚ) (s : graph_fn) (hy : y_min < y_max)
    (hs : s.m_min_y = FP.fin y_min ∧ s.m_max_y = FP.fin y_max)
    (hd : binary64.holds y_min ∧ binary64.holds y_max)
    (hg : |s.m_graph_height| < 2 ^ 31)
    (hw : binary64.sub (FP.fin y_max) (FP.fin y_min) = FP.fin w) :
    fl.graph_fn.y_scale binary64 s (FP.fin y_max) = FP.fin 0
      ∧ fl.graph_fn.y_scale binary64 s (FP.fin y_min) = FP.ofInt s.m_graph_height := by
  obtain ⟨hs1, hs2⟩ := hs
  rw [FloatFormat.sub_round] at hw
  have hw0 : w ≠ 0 := by
    intro hc
    rw [hc] at hw
    exact binary64_sub_ne_zero y_min y_max hd.1 hd.2 hy hw
  have hgs : binary64.holds (s.m_graph_height : ℚ) :=
    binary64_holds_int s.m_graph_height (by omega)
  have e := FloatFormat.scale_ends binary64 (y_max - y_min) w s.m_graph_height
    binary64_lawful.2.1 binary64_lawful.2.2 hgs hw hw0
  simp only [fl.graph_fn.y_scale, hs1, hs2, FloatFormat.sub_round, sub_self]
  exact e

/-! ## The polylines of the function plot in rounded arithmetic -/

theorem rounded_add_fn_loop_length (F : FloatFormat) (s : graph_fn) (f : FP → FP)
    (l : List Nat) (acc : List FP × FP × FP) :
    (l.foldl (fl.graph_fn.add_fn_body F s f) acc).1.length = acc.1.length + l.length := by
  induction l generalizing acc with
  | nil => rfl
  | cons i l ih =>
    rw [List.foldl_cons, ih]
    simp [fl.graph_fn.add_fn_body]
    omega

/-- In the collecting state `add_fn` in rounded arithmetic returns normally and keeps the
plot collecting, over the same domain. -/
theorem rounded_add_fn_collecting (F : FloatFormat) (s : graph_fn) (f : FP → FP)
    (color : String) (h : graph_fn.collecting s) :
    (fl.graph_fn.add_fn F s f color).1 = .ok ()
      ∧ graph_fn.collecting (fl.graph_fn.add_fn F s f color).2
      ∧ (fl.graph_fn.add_fn F s f color).2.m_min_x = s.m_min_x
      ∧ (fl.graph_fn.add_fn F s f color).2.m_max_x = s.m_max_x
      ∧ (fl.graph_fn.add_fn F s f color).2.m_samples = s.m_samples
      ∧ (fl.graph_fn.add_fn F s f color).2.m_graph_width = s.m_graph_width := by
  obtain ⟨h1, h2, h3, h4⟩ := h
  have he : fl.graph_fn.add_fn F s f color
      = (.ok (),
          { s with
            cout := s.cout ++ ["Ok!"]
            m_min_y := ((List.range s.m_samples).foldl
              (fl.graph_fn.add_fn_body F { s with cout := s.cout ++ ["Ok!"] } f)
              ([], s.m_min_y, s.m_max_y)).2.1
            m_max_y := ((List.range s.m_samples).foldl
              (fl.graph_fn.add_fn_body F { s with cout := s.cout ++ ["Ok!"] } f)
              ([], s.m_min_y, s.m_max_y)).2.2
            m_dataset := s.m_dataset ++ [((List.range s.m_samples).foldl
              (fl.graph_fn.add_fn_body F { s with cout := s.cout ++ ["Ok!"] } f)
              ([], s.m_min_y, s.m_max_y)).1]
            m_connect_color := s.m_connect_color ++ [color] }) := by
    simp only [fl.graph_fn.add_fn, h2, Bool.false_eq_true, if_false]
  rw [he]
  refine ⟨rfl, ⟨h1, h2, by simp [h3], ?_⟩, rfl, rfl, rfl, rfl⟩
  intro v hv
  rcases List.mem_append.mp hv with hv | hv
  · exact h4 v hv
  · rw [List.mem_singleton.mp hv, rounded_add_fn_loop_length]
    simp

/-- The file written in `double` arithmetic for the sample function plot, `f(x) = x` on
`[0, 10]` with 5 samples: no operation rounds, the last vertex is at the graph width and
the pixel abscissa increases strictly. -/
theorem demo_graph_written_in_double :
    fl.graph_fn.add_fn binary64 demo_graph (fun x => x) "steelblue" = (.ok (), demo_graph_1)
      ∧ (fl.graph_fn.write_all binary64 demo_detail demo_graph_1).2.m_fs.content
        = [Svg.foreign "prelude" [], Svg.group_open 25 40,
            Svg.line (FP.fin 0) (FP.fin 0) (FP.fin 0) (FP.fin 619) false,
            Svg.line (FP.fin 0) (FP.fin 619) (FP.fin 1055) (FP.fin 619) false,
            Svg.foreign "gridlines" [],
            Svg.path_move 0 (FP.fin 0) (FP.fin 619),
            Svg.path_line 1 (FP.fin (1055 / 4)) (FP.fin (1857 / 4)),
            Svg.path_line 2 (FP.fin (1055 / 2)) (FP.fin (619 / 2)),
            Svg.path_line 3 (FP.fin (3165 / 4)) (FP.fin (619 / 4)),
            Svg.path_line 4 (FP.fin 1055) (FP.fin 0),
            Svg.path_close "steelblue" 3, Svg.document_close] := by
  decide!

/-- Overflow takes the polyline off the canvas: over `[-2^1023, 2^1023]`, two values of
`double` with `x_min < x_max`, the width `x_max - x_min` overflows to +infinity, and with 3
samples the second and the third vertex are written at a NaN abscissa. -/
theorem polyline_lost_to_overflow :
    binary64.round (-(2 ^ 1023)) = FP.fin (-(2 ^ 1023))
      ∧ binary64.round (2 ^ 1023) = FP.fin (2 ^ 1023)
      ∧ binary64.sub (FP.fin (2 ^ 1023)) (FP.fin (-(2 ^ 1023))) = FP.pinf
      ∧ overflow_domain_graph_1.m_dataset = [List.replicate 3 (FP.fin 1)]
      ∧ (fl.graph_fn.write_all binary64 demo_detail overflow_domain_graph_1).1 = .ok ()
      ∧ (fl.graph_fn.write_all binary64 demo_detail
            overflow_domain_graph_1).2.m_fs.content.filter Svg.is_vertex
          = [Svg.path_move 0 (FP.fin 0) (FP.fin 0), Svg.path_line 1 FP.nan (FP.fin 0),
              Svg.path_line 2 FP.nan (FP.fin 0)] := by
  decide!

/-! ## The scatter points and the graph area -/

/-- Overflow takes a scatter point off the canvas.  Over the domain `[-1024, 1024]` the
width `b - a` overflows in the sample coarse format, and the first point is emitted with a
NaN abscissa.  With the overflowing candidate every error is `+inf`, the display range is
`2^20 < +inf`, and the first point is emitted with a NaN ordinate.  NaN is below no
bound. -/
theorem scatter_point_lost_to_overflow :
    (fixed_point 10).sub wide_domain_plot_1.b_ wide_domain_plot_1.a_ = FP.pinf
      ∧ (∀ x ∈ wide_domain_plot_1.coarse_abscissas_,
          FP.le wide_domain_plot_1.a_ x = true ∧ FP.le x wide_domain_plot_1.b_ = true)
      ∧ (ulp_plot.scatter_spec wide_domain_plot_1 (-1)
            (fl.ulp_plot.xs (fixed_point 10) wide_domain_plot_1 "" 600)
            (fl.ulp_plot.ys (fixed_point 20) demo_env wide_domain_plot_1 (-1) "" 600)).head?
          = some (Svg.circle FP.nan (FP.fin 0) "steelblue")
      ∧ (ulp_plot.ranges demo_env overflow_plot_1 (-1)).2 = (FP.fin (2 ^ 20), FP.pinf)
      ∧ (ulp_plot.scatter_spec overflow_plot_1 (-1)
            (fl.ulp_plot.xs (fixed_point 10) overflow_plot_1 "" 600)
            (fl.ulp_plot.ys (fixed_point 20) demo_env overflow_plot_1 (-1) "" 600)).head?
          = some (Svg.circle (FP.fin (565 / 16)) FP.nan "red")
      ∧ FP.le (FP.fin 0) FP.nan = false := by
  decide!

end quicksvg
